import Mathlib

/-!
# Verification of the `uk_boards` network-construction engine

A shallow embedding of the core of the `uk_boards` repository
(`uk_boards/companies.py`, `uk_boards/charities.py`, `uk_boards/utils.py`,
`ukboards/company_codes.py`) together with proofs and refutations of the
specification's claims about it.

Conventions used throughout the embedding:

* Python dictionaries holding graph-node / graph-edge attributes are
  structures with `Option` fields where a key may be absent.
* A graph node whose attribute dictionary is empty (networkx auto-creates
  such nodes when `add_edge` names a missing endpoint) is stored as `none`.
* Dates (`resigned_on`, `ceased_on`, ...) are modelled as day ordinals
  (`Nat`); `datetime.strptime` order on well-formed `YYYY-MM-DD` strings is
  preserved by this encoding, and `datetime.today()` is the `today` field of
  the registry environment.
* Python exceptions are values of `PyErr`; a function that can raise returns
  `Except PyErr _` or pairs its state with `Option PyErr`.
* HTTP / SOAP transports are pure environments (`Registry`,
  `CharityRegistry`): each endpoint is a function from the query's key to an
  `Option` result, `none` modelling a recoverable failure (404 / exhausted
  retries), exactly the value the Python fetch helpers hand back to the
  crawler.
* Recursive crawls take an explicit `fuel : Nat`; Python's recursion depth is
  bounded (by `branches` and the finite data), so for every concrete run some
  fuel suffices, and the theorems quantify over all fuel values.
-/

/-- Python exceptions that the embedded code can raise. -/
inductive PyErr where
  | keyError
  | typeError
  | assertionError
  | negativeBranch
  | exceededMaxBranches
  | stopIteration
  | outOfFuel
  deriving Repr, DecidableEq

/-- `Union[int, str]`-typed identifiers accepted by `stringify_company_id`. -/
inductive IntOrStr where
  | int (i : Int)
  | str (s : String)
  deriving Repr, DecidableEq

/-- Python `str.rjust(width, c)`: left-pad with `c` up to `width`. -/
def rjust (s : String) (width : Nat) (c : Char) : String :=
  ⟨List.replicate (width - s.length) c ++ s.data⟩

/-- `stringify_company_id` (companies.py:304-309): coerce to `str`; a
non-empty string shorter than 8 characters is left-padded with zeros. -/
def stringify_company_id (company_id : IntOrStr) : String :=
  let s : String := match company_id with
    | .int i => toString i
    | .str t => t
  if s ≠ "" ∧ s.length < 8 then rjust s 8 '0' else s

theorem rjust_length (s : String) (h : s.length ≤ 8) :
    (rjust s 8 '0').length = 8 := by
  simp only [rjust, String.length_mk, List.length_append, List.length_replicate]
  have hd : s.length = s.data.length := rfl
  omega

/-- The string-level core of `stringify_company_id`. -/
theorem stringify_str_cases (s : String) :
    stringify_company_id (.str s) =
      (if s ≠ "" ∧ s.length < 8 then rjust s 8 '0' else s) := rfl

/-- Every output of the normalizer is empty or at least 8 characters long. -/
theorem stringify_company_id_length (x : IntOrStr) :
    stringify_company_id x = "" ∨ 8 ≤ (stringify_company_id x).length := by
  have core : ∀ s : String,
      (if s ≠ "" ∧ s.length < 8 then rjust s 8 '0' else s) = "" ∨
        8 ≤ (if s ≠ "" ∧ s.length < 8 then rjust s 8 '0' else s).length := by
    intro s
    split
    · next h => exact Or.inr (le_of_eq (rjust_length _ (le_of_lt h.2)).symm)
    · next h =>
      rcases not_and_or.mp h with h1 | h2
      · exact Or.inl (not_not.mp h1)
      · exact Or.inr (le_of_not_lt h2)
  cases x with
  | int i => exact core (toString i)
  | str s => exact core s

/-- C8: the identifier normalizer is idempotent: for every input `x`
(integer or string), `normalize(normalize(x)) == normalize(x)`. -/
theorem claim_C8_normalizer_idempotent (x : IntOrStr) :
    stringify_company_id (.str (stringify_company_id x)) = stringify_company_id x := by
  rcases stringify_company_id_length x with h | h
  · rw [stringify_str_cases, if_neg]
    intro hc
    exact hc.1 h
  · rw [stringify_str_cases, if_neg]
    intro hc
    exact absurd hc.2 (not_lt.mpr h)

/-- C7 counterexample: the normalizer does NOT leave every
alphanumeric-prefixed identifier unchanged: the 5-character prefixed code
"CE123" is zero-padded to "000CE123". -/
theorem claim_C7_counterexample :
    stringify_company_id (.str "CE123") = "000CE123" ∧
      ("000CE123" : String) ≠ "CE123" := by
  constructor
  · decide
  · decide

/-- C7 (amended): the normalizer pads every non-empty identifier shorter
than 8 characters — numeric or alphanumeric alike — to width 8 with leading
zeros, and leaves every identifier of length at least 8 (such as the
8-character CIO code "CE010135") unchanged; in particular
`normalize(877987) == normalize("877987") == "00877987"`,
`normalize("") == ""` and `normalize("CE010135") == "CE010135"`. -/
theorem claim_C7_amended :
    (∀ s : String, 8 ≤ s.length → stringify_company_id (.str s) = s) ∧
    (∀ s : String, s ≠ "" → s.length < 8 →
      stringify_company_id (.str s) = rjust s 8 '0' ∧
        (stringify_company_id (.str s)).length = 8) ∧
    stringify_company_id (.int 877987) = "00877987" ∧
    stringify_company_id (.str "877987") = "00877987" ∧
    stringify_company_id (.str "") = "" ∧
    stringify_company_id (.str "CE010135") = "CE010135" := by
  refine ⟨?_, ?_, by decide, by decide, by decide, by decide⟩
  · intro s hs
    rw [stringify_str_cases, if_neg]
    intro hc
    exact absurd hc.2 (not_lt.mpr hs)
  · intro s hne hlt
    have heq : stringify_company_id (.str s) = rjust s 8 '0' := by
      rw [stringify_str_cases, if_pos ⟨hne, hlt⟩]
    exact ⟨heq, by rw [heq]; exact rjust_length s (le_of_lt hlt)⟩

/-- Witness for C7 (amended) at concrete inputs. -/
theorem claim_C7_amended_witness :
    (8 ≤ ("AB345678" : String).length ∧
      stringify_company_id (.str "AB345678") = "AB345678") ∧
    (("CE123" : String) ≠ "" ∧ ("CE123" : String).length < 8 ∧
      stringify_company_id (.str "CE123") = rjust "CE123" 8 '0') :=
  ⟨⟨by decide, claim_C7_amended.1 "AB345678" (by decide)⟩,
    ⟨by decide, by decide,
      (claim_C7_amended.2.1 "CE123" (by decide) (by decide)).1⟩⟩

/-- One transport attempt as seen by `companies_house_query`
(companies.py:99-196): either `requests.get` raises `ConnectionError`, or a
response with a status code and a parsed JSON payload arrives.  The payload
is an opaque token (`Option Nat`): joining paginated pages of a `200` body
is a pure transformation orthogonal to the status-code policy modelled
here. -/
inductive ChAttempt where
  | connError
  | resp (status : Nat) (body : Option Nat)
  deriving Repr, DecidableEq

/-- How a `companies_house_query` call ends. -/
inductive QueryOutcome where
  /-- A normal `return`: the parsed body on `200`, `none` on `404` or on the
  give-up branch for `500`. -/
  | ok (body : Option Nat)
  /-- `CompaniesHousePermissionError` raised on `403` or `401`; the error
  carries the diagnostic message built by `_default_error_message`. -/
  | permissionError
  /-- A raw `requests.ConnectionError` escaping from the initial, unguarded
  `requests.get` before the retry loop. -/
  | rawConnectionError
  /-- `InternetConnectionError` raised when `requests.get` fails inside the
  loop. -/
  | internetConnectionError
  /-- The final `raise Exception(f"Failed (max_trials) attempt(s) querying
  (url)")` after the retry budget is spent; the message names the query. -/
  | exhausted
  deriving Repr, DecidableEq

/-- Observable side effects of a `companies_house_query` call: how many
`requests.get` calls were issued and how many seconds were slept. -/
structure QueryStats where
  attempts : Nat
  slept : Nat
  deriving Repr, DecidableEq

/-- The `while trials:` loop of `companies_house_query`.  `attempt` indexes
the next `requests.get` (and doubles as the running request count, the
initial unguarded request included); `trials` is the countdown variable. -/
def companies_house_query_loop (responses : Nat → ChAttempt)
    (max_trials sleep_time : Nat) (attempt : Nat) (trials : Nat)
    (slept : Nat) : QueryOutcome × QueryStats :=
  match trials with
  | 0 => (.exhausted, ⟨attempt, slept⟩)
  | t + 1 =>
    match responses attempt with
    | .connError => (.internetConnectionError, ⟨attempt + 1, slept⟩)
    | .resp status body =>
      if status = 200 then (.ok body, ⟨attempt + 1, slept⟩)
      else if status = 403 ∨ status = 401 then
        (.permissionError, ⟨attempt + 1, slept⟩)
      else if status = 404 then (.ok none, ⟨attempt + 1, slept⟩)
      else if status = 500 ∧ t + 1 < max_trials - 1 then
        (.ok none, ⟨attempt + 1, slept⟩)
      else
        -- on 502 an extra `time.sleep(sleep_time)` runs before the generic
        -- "Trying again in ... seconds" sleep shared by all retried statuses
        let slept2 := if status = 502 then slept + sleep_time else slept
        companies_house_query_loop responses max_trials sleep_time
          (attempt + 1) t (slept2 + sleep_time)

/-- `companies_house_query` (companies.py:99-196): one unguarded
`requests.get`, then the retry loop with `trials = max_trials`. -/
def companies_house_query (responses : Nat → ChAttempt)
    (max_trials sleep_time : Nat) : QueryOutcome × QueryStats :=
  match responses 0 with
  | .connError => (.rawConnectionError, ⟨1, 0⟩)
  | .resp _ _ =>
    companies_house_query_loop responses max_trials sleep_time 1 max_trials 0

theorem chq_loop_zero (r : Nat → ChAttempt) (mt s a sl : Nat) :
    companies_house_query_loop r mt s a 0 sl = (.exhausted, ⟨a, sl⟩) := rfl

theorem chq_loop_200 (r : Nat → ChAttempt) (mt s a t sl : Nat) (b : Option Nat)
    (hr : r a = .resp 200 b) :
    companies_house_query_loop r mt s a (t+1) sl = (.ok b, ⟨a+1, sl⟩) := by
  rw [companies_house_query_loop.eq_def]
  simp only [hr]
  norm_num

theorem chq_loop_403 (r : Nat → ChAttempt) (mt s a t sl : Nat) (b : Option Nat)
    (hr : r a = .resp 403 b) :
    companies_house_query_loop r mt s a (t+1) sl =
      (.permissionError, ⟨a+1, sl⟩) := by
  rw [companies_house_query_loop.eq_def]
  simp only [hr]
  norm_num

theorem chq_loop_401 (r : Nat → ChAttempt) (mt s a t sl : Nat) (b : Option Nat)
    (hr : r a = .resp 401 b) :
    companies_house_query_loop r mt s a (t+1) sl =
      (.permissionError, ⟨a+1, sl⟩) := by
  rw [companies_house_query_loop.eq_def]
  simp only [hr]
  norm_num

theorem chq_loop_404 (r : Nat → ChAttempt) (mt s a t sl : Nat) (b : Option Nat)
    (hr : r a = .resp 404 b) :
    companies_house_query_loop r mt s a (t+1) sl = (.ok none, ⟨a+1, sl⟩) := by
  rw [companies_house_query_loop.eq_def]
  simp only [hr]
  norm_num

theorem chq_loop_500_ret (r : Nat → ChAttempt) (mt s a t sl : Nat)
    (b : Option Nat) (hr : r a = .resp 500 b) (h : t + 1 < mt - 1) :
    companies_house_query_loop r mt s a (t+1) sl = (.ok none, ⟨a+1, sl⟩) := by
  rw [companies_house_query_loop.eq_def]
  simp only [hr]
  norm_num [h]

theorem chq_loop_500_step (r : Nat → ChAttempt) (mt s a t sl : Nat)
    (b : Option Nat) (hr : r a = .resp 500 b) (h : ¬ (t + 1 < mt - 1)) :
    companies_house_query_loop r mt s a (t+1) sl =
      companies_house_query_loop r mt s (a+1) t (sl + s) := by
  rw [companies_house_query_loop.eq_def]
  simp only [hr]
  norm_num [h]

theorem chq_loop_502_step (r : Nat → ChAttempt) (mt s a t sl : Nat)
    (b : Option Nat) (hr : r a = .resp 502 b) :
    companies_house_query_loop r mt s a (t+1) sl =
      companies_house_query_loop r mt s (a+1) t (sl + s + s) := by
  rw [companies_house_query_loop.eq_def]
  simp only [hr]
  norm_num

/-- A constant response stream. -/
def ch_const (r : ChAttempt) : Nat → ChAttempt := fun _ => r

theorem chq_loop_502_all (b : Option Nat) (mt s : Nat) :
    ∀ t a sl, companies_house_query_loop (ch_const (.resp 502 b)) mt s a t sl =
      (.exhausted, ⟨a + t, sl + t * (2 * s)⟩) := by
  intro t
  induction t with
  | zero =>
    intro a sl
    rw [chq_loop_zero]
    norm_num
  | succ n ih =>
    intro a sl
    rw [chq_loop_502_step _ _ _ _ _ _ b rfl, ih]
    have harith : sl + s + s + n * (2 * s) = sl + (n + 1) * (2 * s) := by ring
    rw [harith]
    have hb : a + 1 + n = a + (n + 1) := by omega
    rw [hb]

/-- The responses used to refute C5: the unguarded initial request and the
first three loop attempts all answer `500`; from the fifth request onward the
server would answer `200` with a body. -/
def ch_500_recovering : Nat → ChAttempt :=
  fun i => if i ≤ 3 then .resp 500 none else .resp 200 (some 42)

/-- C5 counterexample: with `max_trials = 6` and a server answering `500`,
`companies_house_query` does NOT retry up to the configured trial count: it
gives up and returns `None` after only three loop attempts (four requests in
total), never reaching the `200` response the very next attempt would have
received. -/
theorem claim_C5_counterexample :
    companies_house_query ch_500_recovering 6 60 =
        (.ok none, ⟨4, 120⟩) ∧
      ch_500_recovering 4 = .resp 200 (some 42) ∧ (4 : Nat) < 6 := by
  refine ⟨by decide, by decide, by decide⟩

/-- C5 (amended): the status-code policy of `companies_house_query`:
`200` returns the parsed body; `403`/`401` raise the permission error with
its diagnostic message; `404` logs and returns `None`; on persistent `500`
the query is retried twice and gives up returning `None` on the third
consecutive `500` whenever `max_trials ≥ 3` (for `max_trials ≤ 2` the budget
runs out and the fatal exhaustion error naming the query is raised instead);
`502` sleeps an extra backoff interval and retries; and a stream of
retryable `502`s exhausts all `max_trials` attempts and raises the fatal
error naming the exhausted query. -/
theorem claim_C5_amended :
    (∀ m s : Nat, ∀ b : Option Nat,
      companies_house_query (ch_const (.resp 200 b)) (m+1) s = (.ok b, ⟨2, 0⟩)) ∧
    (∀ m s : Nat, ∀ b : Option Nat,
      companies_house_query (ch_const (.resp 403 b)) (m+1) s =
        (.permissionError, ⟨2, 0⟩)) ∧
    (∀ m s : Nat, ∀ b : Option Nat,
      companies_house_query (ch_const (.resp 401 b)) (m+1) s =
        (.permissionError, ⟨2, 0⟩)) ∧
    (∀ m s : Nat, ∀ b : Option Nat,
      companies_house_query (ch_const (.resp 404 b)) (m+1) s =
        (.ok none, ⟨2, 0⟩)) ∧
    (∀ m s : Nat, ∀ b : Option Nat,
      companies_house_query (ch_const (.resp 500 b)) (m+3) s =
        (.ok none, ⟨4, 2 * s⟩)) ∧
    (∀ s : Nat, ∀ b : Option Nat,
      companies_house_query (ch_const (.resp 500 b)) 1 s =
        (.exhausted, ⟨2, s⟩)) ∧
    (∀ s : Nat, ∀ b : Option Nat,
      companies_house_query (ch_const (.resp 500 b)) 2 s =
        (.exhausted, ⟨3, 2 * s⟩)) ∧
    (∀ m s : Nat, ∀ b c : Option Nat,
      companies_house_query
        (fun i => if 2 ≤ i then .resp 200 b else .resp 502 c) (m+2) s =
        (.ok b, ⟨3, 2 * s⟩)) ∧
    (∀ mt s : Nat, ∀ b : Option Nat,
      companies_house_query (ch_const (.resp 502 b)) mt s =
        (.exhausted, ⟨mt + 1, mt * (2 * s)⟩)) := by
  refine ⟨?_, ?_, ?_, ?_, ?_, ?_, ?_, ?_, ?_⟩
  · intro m s b
    simp only [companies_house_query, ch_const]
    rw [chq_loop_200 _ _ _ _ m _ b rfl]
  · intro m s b
    simp only [companies_house_query, ch_const]
    rw [chq_loop_403 _ _ _ _ m _ b rfl]
  · intro m s b
    simp only [companies_house_query, ch_const]
    rw [chq_loop_401 _ _ _ _ m _ b rfl]
  · intro m s b
    simp only [companies_house_query, ch_const]
    rw [chq_loop_404 _ _ _ _ m _ b rfl]
  · intro m s b
    simp only [companies_house_query, ch_const]
    rw [chq_loop_500_step _ _ _ _ (m+2) _ b rfl (by omega)]
    rw [chq_loop_500_step _ _ _ _ (m+1) _ b rfl (by omega)]
    rw [chq_loop_500_ret _ _ _ _ m _ b rfl (by omega)]
    have harith : 0 + s + s = 2 * s := by omega
    rw [harith]
  · intro s b
    simp only [companies_house_query, ch_const]
    rw [chq_loop_500_step _ _ _ _ 0 _ b rfl (by omega)]
    rw [chq_loop_zero]
    have harith : 0 + s = s := by omega
    rw [harith]
  · intro s b
    simp only [companies_house_query, ch_const]
    rw [chq_loop_500_step _ _ _ _ 1 _ b rfl (by omega)]
    rw [chq_loop_500_step _ _ _ _ 0 _ b rfl (by omega)]
    rw [chq_loop_zero]
    have harith : 0 + s + s = 2 * s := by omega
    rw [harith]
  · intro m s b c
    simp only [companies_house_query]
    rw [chq_loop_502_step _ _ _ _ (m+1) _ c (by norm_num)]
    rw [chq_loop_200 _ _ _ _ m _ b (by norm_num)]
    have harith : 0 + s + s = 2 * s := by omega
    rw [harith]
    norm_num
  · intro mt s b
    simp only [companies_house_query, ch_const]
    rw [chq_loop_502_all]
    have harith : 0 + mt * (2 * s) = mt * (2 * s) := by omega
    have hb : 1 + mt = mt + 1 := by omega
    rw [harith, hb]

/-- A networkx-style undirected attributed graph.  `nodes` is the node dict
in insertion order: a node maps to `some a` when its attribute dictionary
has been populated by `add_node`, and to `none` when the node was
auto-created by `add_edge` with an empty attribute dictionary.  `edges`
stores each undirected edge once, in insertion order, with its `data`
attribute. -/
structure NxGraph (κ α ε : Type) where
  nodes : List (κ × Option α)
  edges : List (κ × κ × ε)
  deriving DecidableEq

/-- The empty graph (`networkx.Graph()`). -/
def NxGraph.empty : NxGraph κ α ε := ⟨[], []⟩

/-- Python `x in g.nodes`. -/
def NxGraph.hasNode [BEq κ] (g : NxGraph κ α ε) (x : κ) : Bool :=
  g.nodes.any (fun p => p.1 == x)

/-- Attribute lookup: `none` if the node is absent, `some attrs` if present
(`attrs = none` models an empty attribute dictionary). -/
def NxGraph.lookupNode [BEq κ] (g : NxGraph κ α ε) (x : κ) : Option (Option α) :=
  (g.nodes.find? (fun p => p.1 == x)).map Prod.snd

/-- `g.add_node(x, **attrs)`: a new node is appended; an existing node's
attribute dictionary is updated.  Every `add_node` call in the embedded
code passes the node's full attribute set, so the dictionary update is a
replacement here. -/
def NxGraph.addNode [BEq κ] (g : NxGraph κ α ε) (x : κ) (a : Option α) :
    NxGraph κ α ε :=
  if g.hasNode x then
    { g with nodes := g.nodes.map (fun p => if p.1 == x then (p.1, a) else p) }
  else
    { g with nodes := g.nodes ++ [(x, a)] }

/-- A node-dict update with an EMPTY attribute dictionary (used by
`networkx.compose` when the right graph's node carries no attributes): adds
a missing node but leaves an existing node's attributes unchanged. -/
def NxGraph.mergeNode [BEq κ] (g : NxGraph κ α ε) (x : κ) (a : Option α) :
    NxGraph κ α ε :=
  match a with
  | none => if g.hasNode x then g else { g with nodes := g.nodes ++ [(x, none)] }
  | some b => g.addNode x (some b)

/-- Auto-creation of a missing `add_edge` endpoint (empty attribute dict). -/
def NxGraph.ensureNode [BEq κ] (g : NxGraph κ α ε) (x : κ) : NxGraph κ α ε :=
  if g.hasNode x then g else { g with nodes := g.nodes ++ [(x, none)] }

def NxGraph.hasEdge [BEq κ] (g : NxGraph κ α ε) (u v : κ) : Bool :=
  g.edges.any (fun e => (e.1 == u && e.2.1 == v) || (e.1 == v && e.2.1 == u))

/-- `g.add_edge(u, v, data=d)`: missing endpoints are auto-created with
empty attribute dictionaries; an existing edge's `data` attribute is
replaced, a new edge is appended. -/
def NxGraph.addEdge [BEq κ] (g : NxGraph κ α ε) (u v : κ) (d : ε) :
    NxGraph κ α ε :=
  let g1 := (g.ensureNode u).ensureNode v
  if g1.hasEdge u v then
    { g1 with
      edges := g1.edges.map (fun e =>
        if (e.1 == u && e.2.1 == v) || (e.1 == v && e.2.1 == u) then
          (e.1, e.2.1, d)
        else e) }
  else { g1 with edges := g1.edges ++ [(u, v, d)] }

/-- `g.remove_nodes_from(ids)` (used by `filter_active_board_members`):
drops the listed nodes and every edge touching one of them. -/
def NxGraph.removeNodesFrom [BEq κ] (g : NxGraph κ α ε) (ids : List κ) :
    NxGraph κ α ε :=
  { nodes := g.nodes.filter (fun p => !(ids.contains p.1)),
    edges := g.edges.filter (fun e =>
      !(ids.contains e.1) && !(ids.contains e.2.1)) }

/-- `networkx.compose(g, h)`: node and edge sets are unioned; `h`'s
attributes win where both carry attributes. -/
def NxGraph.compose [BEq κ] (g h : NxGraph κ α ε) : NxGraph κ α ε :=
  let g1 := h.nodes.foldl (fun acc p => acc.mergeNode p.1 p.2) g
  h.edges.foldl (fun acc e => acc.addEdge e.1 e.2.1 e.2.2) g1

/-- `len(g)`: the number of nodes. -/
def NxGraph.size (g : NxGraph κ α ε) : Nat := g.nodes.length

/-- `networkx.is_bipartite(g)`: the graph is 2-colorable.  Decided by
enumerating the `2 ^ n` colorings of the `n` stored nodes; every edge
endpoint is a stored node because `add_edge` auto-creates its endpoints. -/
def NxGraph.isBipartite [BEq κ] (g : NxGraph κ α ε) : Bool :=
  let ids := g.nodes.map Prod.fst
  (List.range (2 ^ ids.length)).any (fun m =>
    g.edges.all (fun e =>
      (ids.indexOf? e.1).map (m.testBit) != (ids.indexOf? e.2.1).map (m.testBit)))

/-- One entry of an officer's appointments listing
(`appointments_data["items"][i]`). -/
structure Appointment where
  /-- `appointment["appointed_to"]["company_number"]`. -/
  companyNumber : String
  /-- `appointment["name"]`; the empty string models a null/absent name. -/
  name : String
  /-- The `"resigned_on"` key, when present. -/
  resignedOn : Option Nat
  deriving Repr, DecidableEq

/-- A `/officers/(id)/appointments` result; the `"items"` key may be
missing. -/
structure AppointmentsData where
  items : Option (List Appointment)
  deriving Repr, DecidableEq

/-- One entry of a company's officers listing. -/
structure Officer where
  name : String
  /-- The `"resigned_on"` key, when present. -/
  resignedOn : Option Nat
  /-- `officer["links"]["officer"]["appointments"]`. -/
  appointmentsLink : String
  deriving Repr, DecidableEq

/-- A `/company/(id)/officers` result. -/
structure OfficersData where
  items : List Officer
  deriving Repr, DecidableEq

/-- One entry of a significant-controllers listing. -/
structure Controller where
  name : String
  /-- The `"ceased_on"` key, when present. -/
  ceasedOn : Option Nat
  /-- `controller["links"]["self"]`. -/
  selfLink : String
  deriving Repr, DecidableEq

/-- A `/company/(id)/persons-with-significant-control` result. -/
structure ControllersData where
  items : List Controller
  deriving Repr, DecidableEq

/-- An individual/corporate controller detail record. -/
structure ControllerDetail where
  name : String
  ceasedOn : Option Nat
  deriving Repr, DecidableEq

/-- A company record (`/company/(id)`), with the fields the crawler
reads: `company_name`, the optional `company_status` key, and whether
`"links" in data and "officers" in data["links"]`. -/
structure CompanyData where
  companyName : String
  companyStatus : Option String
  hasOfficersLink : Bool
  deriving Repr, DecidableEq

/-- The Companies House transport environment: each endpoint maps the query
key to `some` parsed record, or `none` for the recoverable failures
(404 or the 500-give-up path) that the fetch helpers pass back to the
crawler as `None`.  `today` is `datetime.today()` as a day ordinal. -/
structure Registry where
  today : Nat
  company : String → Option CompanyData
  officers : String → Option OfficersData
  appointments : String → Option AppointmentsData
  controllers : String → Option ControllersData
  controllerQuery : String → Option ControllerDetail

def COMPANIES_HOUSE_RESIGNATION_KEYWORD : String := "resigned_on"

def COMPANIES_HOUSE_CEASED_KEYWORD : String := "ceased_on"

/-- `is_inactive` (companies.py:1142-1152): true iff the record carries the
date keyword and that date is strictly before today.  `person_dates` is the
record's date-valued key lookup. -/
def is_inactive (person_dates : String → Option Nat) (keyword : String)
    (today : Nat) : Bool :=
  match person_dates keyword with
  | some d => decide (d < today)
  | none => false

/-- Date-key view of an officer listing record. -/
def Officer.dates (o : Officer) : String → Option Nat :=
  fun k => if k = COMPANIES_HOUSE_RESIGNATION_KEYWORD then o.resignedOn else none

/-- Date-key view of a controller listing record. -/
def Controller.dates (c : Controller) : String → Option Nat :=
  fun k => if k = COMPANIES_HOUSE_CEASED_KEYWORD then c.ceasedOn else none

/-- Kernel-reducible single-character split used for Python's
`link.split("/")` (a left fold over the character list; `"".split("/")`
yields `[""]`, matching Python). -/
def splitOnCharAux (c : Char) : List Char → List (List Char)
  | [] => [[]]
  | x :: xs =>
    let r := splitOnCharAux c xs
    if x = c then [] :: r
    else
      match r with
      | [] => [[x]]
      | h :: t => (x :: h) :: t

/-- Python `s.split("/")`. -/
def splitSlash (s : String) : List String :=
  (splitOnCharAux '/' s.data).map (fun l => ⟨l⟩)

/-- Substring search on character lists. -/
def containsSub (pat : List Char) : List Char → Bool
  | [] => pat.isEmpty
  | x :: xs => pat.isPrefixOf (x :: xs) || containsSub pat xs

/-- Python `sub in s` on strings (substring test). -/
def strContains (s sub : String) : Bool := containsSub sub.data s.data

def COMPANY_SUFFIXES : List String := ["LTD", "LIMITED", "LLC"]

/-- `is_person` (companies.py:1160-1167): a name without a corporate suffix
is presumed to be a person. -/
def is_person (name : String) : Bool :=
  COMPANY_SUFFIXES.all (fun suffix => !(strContains name suffix))

/-- `is_individual_controller_url` (companies.py:1155-1157). -/
def is_individual_controller_url (url : String) : Bool :=
  strContains url "persons" && strContains url "individual"

/-- `COMPANIES_HOUSE_URI_CODES` (ukboards/company_codes.py): the merge of
the three prefix tables (all keys distinct). -/
def COMPANIES_HOUSE_URI_CODES : List (String × String) := [
  ("CE", "Charitable incorporated organisation"),
  ("CS", "Scottish charitable incorporated organisation"),
  ("SG", "Scottish qualifying partnership"),
  ("IP", "Industrial & Provident Company"),
  ("SP", "Scottish Industrial/Provident Company"),
  ("IC", "ICVC (Investment Company with Variable Capital"),
  ("SI", "Scottish ICVC (Investment Company with Variable Capital"),
  ("NP", "Northern Ireland Industrial/Provident Company or Credit Union"),
  ("NV", "Northern Ireland ICVC (Investment Company with Variable Capital"),
  ("RC", "Royal Charter Companies (English/Wales"),
  ("SR", "Scottish Royal Charter Companies"),
  ("NR", "Northern Ireland Royal Charter Companies"),
  ("NO", "Northern Ireland Credit Union Industrial/Provident Society"),
  ("", "England & Wales Company"),
  ("AC", "Assurance Company for England & Wales"),
  ("ZC", "Unregistered Companies (S 1043 - Not Cos Act for England & Wales"),
  ("FC", "Overseas Company"),
  ("GE", "European Economic Interest Grouping (EEIG for England & Wales"),
  ("LP", "Limited for England & Wales"),
  ("OC", "Limited Liability Partnership for England & Wales"),
  ("SE", "European Company (Societas Europaea for England & Wales"),
  ("SA", "Assurance Company for Scotland"),
  ("SZ", "Unregistered Companies (S 1043 Not Cos Act for Scotland"),
  ("SF", "Overseas Company registered in Scotland (pre 1/10/09"),
  ("GS", "European Economic Interest Grouping (EEIG for Scotland"),
  ("SL", "Limited Partnership for Scotland"),
  ("SO", "Limited Liability Partnership for Scotland"),
  ("SC", "Scottish Company"),
  ("ES", "European Company (Societas Europaea for Scotland"),
  ("NA", "Assurance Company for Northern Ireland"),
  ("NZ", "Unregistered Companies (S 1043 Not Cos Act for Northern Ireland"),
  ("NF", "Overseas Company registered in Northern Ireland (pre 1/10/09"),
  ("GN", "European Economic Interest Grouping (EEIG for Northern Ireland"),
  ("NL", "Limited Partnership for Northern Ireland"),
  ("NC", "Limited Liability Partnership for Northern Ireland"),
  ("R0", "Northern Ireland Company (pre-partition"),
  ("NI", "Northern Ireland Company (post-partition"),
  ("EN", "European Company (Societas Europaea for Northern Ireland")]

/-- Python `str.isdigit`: non-empty and all digits. -/
def strIsDigit (s : String) : Bool :=
  !s.data.isEmpty && s.data.all (fun c => c.isDigit)

/-- `get_company_category` (companies.py:1182-1193): classify by the first
two characters of the stringified id; purely numeric ids take the default
entry; an unlisted prefix raises `KeyError`. -/
def get_company_category (company_id : String) : Except PyErr String :=
  let cid := stringify_company_id (.str company_id)
  if strIsDigit cid then
    match COMPANIES_HOUSE_URI_CODES.lookup "" with
    | some v => .ok v
    | none => .error .keyError
  else
    match COMPANIES_HOUSE_URI_CODES.lookup (cid.take 2) with
    | some v => .ok v
    | none => .error .keyError

/-- `get_company_data` (companies.py:942-964): stringify, fetch, and under
`exclude_non_active_companies` drop records whose `company_status` key is
present and not "active". -/
def get_company_data (reg : Registry) (company_id : String)
    (exclude_non_active_companies : Bool) : Option CompanyData :=
  let cid := stringify_company_id (.str company_id)
  match reg.company cid with
  | none => none
  | some company =>
    if exclude_non_active_companies then
      match company.companyStatus with
      | some status => if status ≠ "active" then none else some company
      | none => some company
    else some company

/-- `link.split("/")[i]`.  Python raises `IndexError` when the link has too
few segments; such degenerate links never occur in the data the claims
quantify over, and the embedding totalizes the access with "". -/
def splitIdx (s : String) (i : Nat) : String := (splitSlash s).getD i ""

/-- `link.split("/")[-1]` (`splitOn` never returns an empty list). -/
def splitLast (s : String) : String := (splitSlash s).reverse.headD ""

/-- `get_company_officers` (companies.py:978-1004): a falsy
`officers_query` is re-fetched; each non-excluded officer is yielded as
`(officer_id, record)` with the id parsed from the appointments link. -/
def get_company_officers (reg : Registry) (company_id : String)
    (exclude_resigned_board_members : Bool)
    (officers_query : Option OfficersData) : List (String × Officer) :=
  let oq := match officers_query with
    | none => reg.officers company_id
    | some q => some q
  match oq with
  | none => []
  | some q =>
    q.items.filterMap (fun officer =>
      if exclude_resigned_board_members &&
          is_inactive officer.dates COMPANIES_HOUSE_RESIGNATION_KEYWORD
            reg.today then
        none
      else some (splitIdx officer.appointmentsLink 2, officer))

/-- `get_significant_controllers` (companies.py:1062-1090): a falsy
`controllers_data` is re-fetched; then each item is processed.

BUG-FAITHFUL: in the source the `continue` at companies.py:1087 is indented
under `if exclude_ceased_controllers:` but OUTSIDE the nested
`if is_inactive(...)` check (contrast `get_company_officers`, where the
`continue` is inside the date check), so when the flag is set EVERY
controller is skipped — ceased or not — and the generator yields nothing. -/
def get_significant_controllers (reg : Registry) (company_id : String)
    (controllers_data : Option ControllersData)
    (exclude_ceased_controllers : Bool) : List (String × Controller) :=
  let cd := match controllers_data with
    | none => reg.controllers company_id
    | some q => some q
  match cd with
  | none => []
  | some q =>
    q.items.filterMap (fun controller =>
      if exclude_ceased_controllers then none
      else some (splitLast controller.selfLink, controller))

/-- `get_significant_controller_person_or_company_data`
(companies.py:1093-1117): choose the detail endpoint from the shape of the
controller's self link (Python's negative indices `ll[-2]`, `ll[-4]`,
`ll[-1]` are length-relative accesses). -/
def get_significant_controller_person_or_company_data (reg : Registry)
    (controller_data : Controller) : Option ControllerDetail :=
  let link := controller_data.selfLink
  let ll := splitSlash link
  let n := ll.length
  if ll.getD (n - 2) "" = "individual" then
    reg.controllerQuery ("/company/" ++ ll.getD (n - 4) "" ++
      "/persons-with-significant-control/individual/" ++ ll.getD (n - 1) "")
  else if ll.getD (n - 4) "" = "corporate-entity" then
    reg.controllerQuery ("/company/" ++ ll.getD (n - 4) "" ++
      "/persons-with-significant-control/corporate-entity/" ++
      ll.getD (n - 1) "")
  else
    reg.controllerQuery link

/-- A transport where every query fails (used where the registry is never
actually consulted). -/
def emptyRegistry : Registry :=
  ⟨0, fun _ => none, fun _ => none, fun _ => none, fun _ => none, fun _ => none⟩

/-- The significant-controllers listing used to exercise C2: one ceased
controller (ceased on day 5, before today = 10) and one active
controller. -/
def c2_controllers_listing : ControllersData :=
  ⟨[⟨"Ms Active Controller", none,
      "/company/00000101/persons-with-significant-control/individual/CTRLA"⟩,
    ⟨"Mr Ceased Controller", some 5,
      "/company/00000101/persons-with-significant-control/individual/CTRLB"⟩]⟩

def c2_registry : Registry :=
  ⟨10, fun _ => none, fun _ => none, fun _ => none, fun _ => none,
    fun _ => none⟩

/-- C2: evaluating `get_significant_controllers` at the failing input: with
`exclude_ceased_controllers=True` the generator yields NOTHING — the active
controller CTRLA is dropped together with the ceased CTRLB — while with the
flag off both are yielded; the claim (and the evident intent, matching
`get_company_officers`) is that only the ceased CTRLB be skipped. -/
theorem claim_C2_code_bug_eval :
    get_significant_controllers c2_registry "00000101"
        (some c2_controllers_listing) true = [] ∧
      get_significant_controllers c2_registry "00000101"
          (some c2_controllers_listing) false =
        [("CTRLA", ⟨"Ms Active Controller", none,
            "/company/00000101/persons-with-significant-control/individual/CTRLA"⟩),
          ("CTRLB", ⟨"Mr Ceased Controller", some 5,
            "/company/00000101/persons-with-significant-control/individual/CTRLB"⟩)] ∧
      is_inactive (Controller.dates ⟨"Ms Active Controller", none,
          "/company/00000101/persons-with-significant-control/individual/CTRLA"⟩)
        COMPANIES_HOUSE_CEASED_KEYWORD c2_registry.today = false := by
  refine ⟨by decide, by decide, by decide⟩

/-- The record attached to an edge (and passed to `_add_officer` /
`_add_controller`): an officer listing record or a controller listing
record. -/
inductive PersonRec where
  | officer (o : Officer)
  | controller (c : Controller)
  deriving Repr, DecidableEq

/-- Duck-typed `board_data["name"]`. -/
def PersonRec.name : PersonRec → String
  | .officer o => o.name
  | .controller c => c.name

/-- The `company_info_dict` built by `_get_network`: `{"company": ...}`,
later mutated in place by `_include_officers` /
`_include_controllers` (the graph node's `data` attribute aliases it). -/
structure CompanyInfo where
  company : CompanyData
  /-- The `"officers"` key once `_include_officers` sets it (its value may
  itself be `None`). -/
  officers : Option (Option OfficersData)
  /-- The `"significant_controllers"` key once `_include_controllers` sets
  it. -/
  significantControllers : Option (Option ControllersData)
  deriving Repr, DecidableEq

/-- The payloads stored under a node's `data` attribute across the
repository's graph builders: the client stores `company_info_dict` on
company nodes, the full appointments listing on officer nodes and the
controller detail record on controller nodes; the function-based
`get_company_network` stores the officer listing record itself. -/
inductive NodeData where
  | companyInfo (info : CompanyInfo)
  | officerAppointments (a : AppointmentsData)
  | officerRecord (o : Officer)
  | controllerDetail (d : ControllerDetail)
  deriving Repr, DecidableEq

/-- Date-valued key lookup on a node's `data` payload (what
`is_inactive(data["data"])` inspects): only an officer listing record
carries a top-level `"resigned_on"` key, and only a controller record a
`"ceased_on"` key. -/
def NodeData.dates : NodeData → String → Option Nat
  | .companyInfo _, _ => none
  | .officerAppointments _, _ => none
  | .officerRecord o, k => o.dates k
  | .controllerDetail d, k =>
    if k = COMPANIES_HOUSE_CEASED_KEYWORD then d.ceasedOn else none

/-- Node attribute dictionaries written by the client's `add_node` calls:
company nodes carry all six keys, officer/controller nodes all but
`category`; `data = none` models a `data=None` attribute. -/
structure CompanyNodeAttrs where
  name : String
  bipartite : Nat
  kind : String
  isPerson : Bool
  category : Option String
  data : Option NodeData
  deriving Repr, DecidableEq

abbrev CompanyGraph := NxGraph String CompanyNodeAttrs (Option PersonRec)

def COMPANY_NETWORK_KINDS : List String := ["company", "officer", "controller"]

/-- The `__init__` parameters of `CompanyNetworkClient`
(companies.py:331-356).  `branches : Nat` because `__init__` raises
`NegativeIntBranchException` for anything but a non-negative int before any
state exists. -/
structure ClientConfig where
  branches : Nat
  include_significant_controllers : Bool
  include_officers : Bool
  include_edge_data : Bool
  enforce_missing_ties : Bool
  exclude_non_active_companies : Bool
  exclude_resigned_board_members : Bool
  exclude_ceased_controllers : Bool
  reset_cache : Bool
  compose_queried_networks : Bool
  deriving Repr, DecidableEq

/-- The mutable state of a `CompanyNetworkClient`: configuration,
`_root_id`, `_graph`, `_officer_appointments_cache`, and the `_runs` ledger
(modelled by the run roots; the timing / statistics fields of
`CompanyRunConfig` are written but never read by any claim). -/
structure ClientState where
  cfg : ClientConfig
  root_id : Option String
  graph : CompanyGraph
  cache : List (String × List (String × Appointment))
  runs : List String

/-- A fresh client (`CompanyNetworkClient(**cfg)`). -/
def init_client (cfg : ClientConfig) : ClientState :=
  ⟨cfg, none, NxGraph.empty, [], []⟩

/-- Python dict assignment `d[k] = v`: overwrite in place or append. -/
def dictInsert [BEq κ] (d : List (κ × β)) (k : κ) (v : β) : List (κ × β) :=
  if d.any (fun p => p.1 == k) then
    d.map (fun p => if p.1 == k then (p.1, v) else p)
  else d ++ [(k, v)]

/-- The in-place mutation `company_info_dict["officers"] = officers_data`
seen through the company node's aliased `data` attribute. -/
def setInfoOfficers (g : CompanyGraph) (company_id : String)
    (od : Option OfficersData) : CompanyGraph :=
  { g with nodes := g.nodes.map (fun p =>
      if p.1 == company_id then
        (p.1, p.2.map (fun a =>
          { a with data := match a.data with
            | some (.companyInfo info) =>
              some (.companyInfo { info with officers := some od })
            | other => other }))
      else p) }

/-- The in-place mutation
`company_info_dict["significant_controllers"] = controllers_data`. -/
def setInfoControllers (g : CompanyGraph) (company_id : String)
    (cd : Option ControllersData) : CompanyGraph :=
  { g with nodes := g.nodes.map (fun p =>
      if p.1 == company_id then
        (p.1, p.2.map (fun a =>
          { a with data := match a.data with
            | some (.companyInfo info) =>
              some (.companyInfo { info with significantControllers := some cd })
            | other => other }))
      else p) }

/-- The fallback branch of `_get_officer_name` without a company id: return
the first name in the officer node's stored appointments items, or "". The
client never takes this branch (it always passes `company_id` and
`board_data`); accesses Python would crash on are totalized with "". -/
def officer_name_from_graph (st : ClientState) (officer_id : String) : String :=
  match st.graph.lookupNode officer_id with
  | some (some a) =>
    match a.data with
    | some (.officerAppointments ad) =>
      match ad.items with
      | some (appointment :: _) => appointment.name
      | _ => ""
    | _ => ""
  | _ => ""

/-- `_get_officer_name` (companies.py:504-558): prefer the name cached for
this company in the officer's appointments, fall back to the board record's
name (a missing `"name"` key and a null name both fall through, modelled by
the empty string). -/
def client_get_officer_name (st : ClientState) (officer_id : String)
    (company_id : Option String) (board_data : Option PersonRec) : String :=
  match company_id, board_data with
  | some cid, some bd =>
    if cid = "" then officer_name_from_graph st officer_id
    else
      let cached : Option String :=
        match st.cache.lookup officer_id with
        | some inner =>
          match inner.lookup cid with
          | some appointment => some appointment.name
          | none => none
        | none => none
      match cached with
      | some nm => if nm ≠ "" then nm else bd.name
      | none => bd.name
  | _, _ => officer_name_from_graph st officer_id

/-- `_add_officer` (companies.py:590-628): fetch the appointments listing,
populate `_officer_appointments_cache[officer_id]` keyed by company number
(dropping entries carrying a `"resigned_on"` key when
`exclude_resigned_board_members` is set), resolve the display name, and add
the officer node with `bipartite=1`. -/
def client_add_officer (reg : Registry) (officer_id company_id : String)
    (officer_board_data : PersonRec) (st : ClientState) : ClientState :=
  let appointments_data := reg.appointments officer_id
  let st := match appointments_data with
    | some ad =>
      match ad.items with
      | some items =>
        let entries := if st.cfg.exclude_resigned_board_members then
            items.filter (fun a => a.resignedOn.isNone)
          else items
        let inner := entries.foldl
          (fun d a => dictInsert d a.companyNumber a) []
        { st with cache := dictInsert st.cache officer_id inner }
      | none => st
    | none => st
  let name := client_get_officer_name st officer_id (some company_id)
    (some officer_board_data)
  { st with graph := st.graph.addNode officer_id (some
    { name := name, bipartite := 1, kind := "officer",
      isPerson := is_person name, category := none,
      data := match appointments_data with
        | none => none
        | some ad => some (.officerAppointments ad) }) }

/-- `_add_controller` (companies.py:630-659): fetch the detail record named
by the self link, classify person vs corporate entity, and add the
controller node with `bipartite=1`. -/
def client_add_controller (reg : Registry) (controller_id company_id : String)
    (controller_company_data : Controller) (st : ClientState) : ClientState :=
  let controller_individual_data :=
    get_significant_controller_person_or_company_data reg
      controller_company_data
  let name := controller_company_data.name
  let is_individual :=
    is_individual_controller_url controller_company_data.selfLink &&
      is_person name
  { st with graph := st.graph.addNode controller_id (some
    { name := name, bipartite := 1, kind := "controller",
      isPerson := is_individual, category := none,
      data := match controller_individual_data with
        | none => none
        | some d => some (.controllerDetail d) }) }

/-- `get_kinds_ids_dict` (utils.py:151-160) at the company kinds: group
node ids by their `kind` attribute; a node without attributes, or with a
kind outside the table, raises `KeyError`.  (Python collects Python sets;
node ids are unique, so insertion-ordered lists stand in.) -/
def get_kinds_ids_dict (g : CompanyGraph) (kinds : List String) :
    Except PyErr (List (String × List String)) :=
  g.nodes.foldl (fun acc p =>
    match acc with
    | .error e => .error e
    | .ok d =>
      match p.2 with
      | none => .error .keyError
      | some a =>
        if kinds.contains a.kind then
          .ok (d.map (fun q => if q.1 == a.kind then (q.1, q.2 ++ [p.1]) else q))
        else .error .keyError)
    (.ok (kinds.map (fun k => (k, ([] : List String)))))

/-- One pending call of the crawler's mutually recursive methods
(`_get_network`, `_include_officers` / `_include_controllers` and their
item loops, `_add_person_edge_branch`, `_get_network_branches` and its
loop).  The Python methods are mutually recursive; the embedding
defunctionalizes them into one structurally recursive step function over
this call type so that concrete runs reduce inside the kernel. -/
inductive CrawlCall where
  | getNetworkAux (company_id_arg : Option String) (branch_iterator : Nat)
  | includeOfficers (company_id : String) (branch_iterator : Nat)
  | officersLoop (officers : List (String × Officer)) (company_id : String)
      (branch_iterator : Nat)
  | includeControllers (company_id : String) (branch_iterator : Nat)
  | controllersLoop (controllers : List (String × Controller))
      (company_id : String) (branch_iterator : Nat)
  | addPersonEdgeBranch (person_id company_id : String) (data : PersonRec)
      (branch_iterator : Nat)
  | getNetworkBranches (person_id : String) (branch_iteration : Nat)
  | branchesLoop (related_ids : List String) (person_id : String)
      (branch_iteration : Nat)
  deriving Repr

/-- The crawler's recursive core.  Each `CrawlCall` case is the direct
translation of the corresponding method body:

* `getNetworkAux` — `_get_network` (companies.py:679-717): resolve
  `company_id or self._root_id` (an empty string is falsy) and
  `assert company_id`; fetch the record and stop silently when it is
  missing or excluded; add the company node (`get_company_category` is
  evaluated among the `add_node` arguments, so its `KeyError` aborts before
  the node is added); follow officers when enabled and the record links
  them, then significant controllers when enabled.
* `includeOfficers` — `_include_officers` (companies.py:560-571): fetch the
  officers listing, store it under the aliased `company_info_dict`
  (`setInfoOfficers`), and loop over `get_company_officers`.
* `includeControllers` — `_include_controllers` (companies.py:573-588):
  the same flow through `get_significant_controllers`.
* `addPersonEdgeBranch` — `_add_person_edge_branch`
  (companies.py:661-677): add the person node if absent (`_add_officer`
  for officer records, `_add_controller` for controller records —
  `method_name` always matches the record type at both call sites), always
  (re-)add the edge, recurse into branches while
  `0 <= branch_iterator < self.branches`; a negative iterator cannot occur
  with `Nat`, and one above `self.branches` raises
  `ExceededMaxBranchesException`.
* `getNetworkBranches` — `_get_network_branches` (companies.py:719-747):
  iterate the person's cached related companies (`KeyError` — no cache
  entry — is caught and only logged); recurse into each related company not
  yet in the graph, and under `enforce_missing_ties` force-add the
  person-to-company edge with null data (even when the recursive fetch
  added no node, in which case `add_edge` auto-creates an attribute-less
  endpoint).

The post-`assert` body of `_get_network` (companies.py:686-717) is split
into `client_get_network_body`, parameterized by the continuation `next`
that runs the nested method calls. -/
def client_get_network_body
    (next : CrawlCall → ClientState → ClientState × Option PyErr)
    (reg : Registry) (company_id : String) (branch_iterator : Nat)
    (st : ClientState) : ClientState × Option PyErr :=
  match get_company_data reg company_id
      st.cfg.exclude_non_active_companies with
  | none => (st, none)
  | some company_data =>
    match get_company_category company_id with
    | .error e => (st, some e)
    | .ok category =>
      let st := { st with graph := st.graph.addNode company_id (some
        { name := company_data.companyName, bipartite := 0,
          kind := "company", isPerson := false,
          category := some category,
          data := some (.companyInfo ⟨company_data, none, none⟩) }) }
      let step1 : ClientState × Option PyErr :=
        if st.cfg.include_officers && company_data.hasOfficersLink then
          next (.includeOfficers company_id branch_iterator) st
        else (st, none)
      match step1 with
      | (st, some e) => (st, some e)
      | (st, none) =>
        if st.cfg.include_significant_controllers then
          next (.includeControllers company_id branch_iterator) st
        else (st, none)

/-- The crawler's recursive core dispatching on `CrawlCall` (the method
bodies are documented on `client_get_network_body` above). -/
def client_step (fuel : Nat) (reg : Registry) (call : CrawlCall)
    (st : ClientState) : ClientState × Option PyErr :=
  match fuel with
  | 0 => (st, some .outOfFuel)
  | fuel + 1 =>
    match call with
    | .getNetworkAux company_id_arg branch_iterator =>
      let resolved : Option String := match company_id_arg with
        | some c => if c = "" then st.root_id else some c
        | none => st.root_id
      match resolved with
      | none => (st, some .assertionError)
      | some company_id =>
        if company_id = "" then (st, some .assertionError)
        else
          client_get_network_body (client_step fuel reg) reg company_id
            branch_iterator st
    | .includeOfficers company_id branch_iterator =>
      let officers_data := reg.officers company_id
      let st := { st with
        graph := setInfoOfficers st.graph company_id officers_data }
      let officers := get_company_officers reg company_id
        st.cfg.exclude_resigned_board_members officers_data
      client_step fuel reg
        (.officersLoop officers company_id branch_iterator) st
    | .officersLoop officers company_id branch_iterator =>
      match officers with
      | [] => (st, none)
      | (officer_id, officer_board_data) :: rest =>
        match client_step fuel reg
            (.addPersonEdgeBranch officer_id company_id
              (.officer officer_board_data) branch_iterator) st with
        | (st, some e) => (st, some e)
        | (st, none) =>
          client_step fuel reg
            (.officersLoop rest company_id branch_iterator) st
    | .includeControllers company_id branch_iterator =>
      let controllers_data := reg.controllers company_id
      let st := { st with
        graph := setInfoControllers st.graph company_id controllers_data }
      let controllers := get_significant_controllers reg company_id
        controllers_data st.cfg.exclude_ceased_controllers
      client_step fuel reg
        (.controllersLoop controllers company_id branch_iterator) st
    | .controllersLoop controllers company_id branch_iterator =>
      match controllers with
      | [] => (st, none)
      | (controller_id, controller_company_data) :: rest =>
        match client_step fuel reg
            (.addPersonEdgeBranch controller_id company_id
              (.controller controller_company_data) branch_iterator) st with
        | (st, some e) => (st, some e)
        | (st, none) =>
          client_step fuel reg
            (.controllersLoop rest company_id branch_iterator) st
    | .addPersonEdgeBranch person_id company_id data branch_iterator =>
      let st :=
        if st.graph.hasNode person_id then st
        else
          match data with
          | .officer _ => client_add_officer reg person_id company_id data st
          | .controller c =>
            client_add_controller reg person_id company_id c st
      let st := { st with
        graph := st.graph.addEdge company_id person_id (some data) }
      if branch_iterator < st.cfg.branches then
        client_step fuel reg
          (.getNetworkBranches person_id branch_iterator) st
      else if branch_iterator > st.cfg.branches then
        (st, some .exceededMaxBranches)
      else (st, none)
    | .getNetworkBranches person_id branch_iteration =>
      match st.cache.lookup person_id with
      | none => (st, none)
      | some inner =>
        client_step fuel reg
          (.branchesLoop (inner.map Prod.fst) person_id branch_iteration) st
    | .branchesLoop related_ids person_id branch_iteration =>
      match related_ids with
      | [] => (st, none)
      | related_company_id :: rest =>
        if st.graph.hasNode related_company_id then
          client_step fuel reg
            (.branchesLoop rest person_id branch_iteration) st
        else
          match client_step fuel reg
              (.getNetworkAux (some related_company_id)
                (branch_iteration + 1)) st with
          | (st, some e) => (st, some e)
          | (st, none) =>
            let st := if st.cfg.enforce_missing_ties then
                { st with graph :=
                  st.graph.addEdge person_id related_company_id none }
              else st
            client_step fuel reg
              (.branchesLoop rest person_id branch_iteration) st

/-- `_get_network` as the crawl entry point. -/
def client_get_network_aux (fuel : Nat) (reg : Registry)
    (company_id_arg : Option String) (branch_iterator : Nat)
    (st : ClientState) : ClientState × Option PyErr :=
  client_step fuel reg (.getNetworkAux company_id_arg branch_iterator) st

/-- `get_network` (companies.py:399-449): when `reset_cache` is set, the
graph is empty, or runs compose, append a run record, set `_root_id`, reset
graph and cache unless composing without reset, crawl, and record run
statistics (`get_kinds_ids_dict` raises `KeyError` on a node without
attributes); otherwise return the accumulated graph untouched. -/
def client_get_network (fuel : Nat) (reg : Registry) (root_id : String)
    (st : ClientState) : ClientState × Except PyErr CompanyGraph :=
  let root := stringify_company_id (.str root_id)
  if st.cfg.reset_cache || st.graph.nodes.isEmpty ||
      st.cfg.compose_queried_networks then
    let st := { st with runs := st.runs ++ [root] }
    let st := { st with root_id := some root }
    let st := if !st.cfg.compose_queried_networks || st.cfg.reset_cache then
        { st with graph := NxGraph.empty, cache := [] }
      else st
    match client_get_network_aux fuel reg none 0 st with
    | (st, some e) => (st, .error e)
    | (st, none) =>
      match get_kinds_ids_dict st.graph COMPANY_NETWORK_KINDS with
      | .error e => (st, .error e)
      | .ok _ => (st, .ok st.graph)
  else (st, .ok st.graph)

/-- `networks_generator` (companies.py:451-463), materialized: query the
root ids in order, optionally installing the next parameter state before
each query (`next()` on an exhausted iterator raises).  Python's
`composed_query` flag only controls logging. -/
def networks_generator (fuel : Nat) (reg : Registry) (root_ids : List String)
    (parameter_states : Option (List ClientConfig)) (st : ClientState) :
    ClientState × Except PyErr (List CompanyGraph) :=
  match root_ids with
  | [] => (st, .ok [])
  | root_id :: rest =>
    match parameter_states with
    | some [] => (st, .error .stopIteration)
    | some (c :: cs) =>
      match client_get_network fuel reg root_id { st with cfg := c } with
      | (st, .error e) => (st, .error e)
      | (st, .ok g) =>
        match networks_generator fuel reg rest (some cs) st with
        | (st2, .error e) => (st2, .error e)
        | (st2, .ok gs) => (st2, .ok (g :: gs))
    | none =>
      match client_get_network fuel reg root_id st with
      | (st, .error e) => (st, .error e)
      | (st, .ok g) =>
        match networks_generator fuel reg rest none st with
        | (st2, .error e) => (st2, .error e)
        | (st2, .ok gs) => (st2, .ok (g :: gs))

/-- `get_composed_network` (companies.py:465-473): drain the generator,
then return `self._graph`. -/
def get_composed_network (fuel : Nat) (reg : Registry)
    (root_ids : List String) (parameter_states : Option (List ClientConfig))
    (st : ClientState) : ClientState × Except PyErr CompanyGraph :=
  match networks_generator fuel reg root_ids parameter_states st with
  | (st, .error e) => (st, .error e)
  | (st, .ok _) => (st, .ok st.graph)

/-- `async_networks_generator` (companies.py:475-492): the async generator
iterates `root_ids` with the same body as `networks_generator`; it suspends
only at its `yield` points and the draining comprehension resumes it
immediately, so its effect sequence is the sequential loop's. -/
def async_networks_generator (fuel : Nat) (reg : Registry)
    (root_ids : List String) (parameter_states : Option (List ClientConfig))
    (st : ClientState) : ClientState × Except PyErr (List CompanyGraph) :=
  match root_ids with
  | [] => (st, .ok [])
  | root_id :: rest =>
    match parameter_states with
    | some [] => (st, .error .stopIteration)
    | some (c :: cs) =>
      match client_get_network fuel reg root_id { st with cfg := c } with
      | (st, .error e) => (st, .error e)
      | (st, .ok g) =>
        match async_networks_generator fuel reg rest (some cs) st with
        | (st2, .error e) => (st2, .error e)
        | (st2, .ok gs) => (st2, .ok (g :: gs))
    | none =>
      match client_get_network fuel reg root_id st with
      | (st, .error e) => (st, .error e)
      | (st, .ok g) =>
        match async_networks_generator fuel reg rest none st with
        | (st2, .error e) => (st2, .error e)
        | (st2, .ok gs) => (st2, .ok (g :: gs))

/-- `async_get_composed_network` (companies.py:494-502): drain the async
generator with `[g async for g in ...]`, then return `self._graph`. -/
def async_get_composed_network (fuel : Nat) (reg : Registry)
    (root_ids : List String) (parameter_states : Option (List ClientConfig))
    (st : ClientState) : ClientState × Except PyErr CompanyGraph :=
  match async_networks_generator fuel reg root_ids parameter_states st with
  | (st, .error e) => (st, .error e)
  | (st, .ok _) => (st, .ok st.graph)

/-- The two generators agree on every input. -/
theorem async_networks_generator_eq (fuel : Nat) (reg : Registry) :
    ∀ (root_ids : List String)
      (parameter_states : Option (List ClientConfig)) (st : ClientState),
      async_networks_generator fuel reg root_ids parameter_states st =
        networks_generator fuel reg root_ids parameter_states st := by
  intro root_ids
  induction root_ids with
  | nil =>
    intro ps st
    rfl
  | cons r rest ih =>
    intro ps st
    match ps with
    | some [] => rfl
    | some (c :: cs) =>
      simp only [async_networks_generator, networks_generator, ih]
    | none =>
      simp only [async_networks_generator, networks_generator, ih]

/-- C9: for every fixed seed list, fixed client state and fixed registry
responses, `async_get_composed_network(seeds)` and the sequential
`get_composed_network(seeds)` return identical results — the same final
state, hence graphs with identical node sets, edge sets and node/edge
attributes. -/
theorem claim_C9_composition_equivalence (fuel : Nat) (reg : Registry)
    (root_ids : List String)
    (parameter_states : Option (List ClientConfig)) (st : ClientState) :
    async_get_composed_network fuel reg root_ids parameter_states st =
      get_composed_network fuel reg root_ids parameter_states st := by
  unfold async_get_composed_network get_composed_network
  rw [async_networks_generator_eq]

/-- C10: on a client whose `reset_cache` and `compose_queried_networks` are
both false and whose graph is non-empty, `get_network(root_id)` is a
complete no-op: the result does not depend on the registry or on `root_id`
(so no fetch is performed), the state — graph, appointments cache, run
ledger, `_root_id` — is returned unchanged, and the previously accumulated
graph is returned. -/
theorem claim_C10_get_network_frame (fuel : Nat) (reg : Registry)
    (root_id : String) (st : ClientState)
    (h1 : st.cfg.reset_cache = false)
    (h2 : st.cfg.compose_queried_networks = false)
    (h3 : st.graph.nodes ≠ []) :
    client_get_network fuel reg root_id st = (st, .ok st.graph) := by
  have hempty : st.graph.nodes.isEmpty = false := by
    cases hn : st.graph.nodes with
    | nil => exact absurd hn h3
    | cons a l => rfl
  unfold client_get_network
  rw [h1, h2, hempty]
  rfl

def c10_config : ClientConfig :=
  ⟨0, false, true, false, false, false, false, false, false, false⟩

def c10_state : ClientState :=
  { cfg := c10_config, root_id := some "00000001",
    graph := ⟨[("00000001", some ⟨"Org A", 0, "company", false,
      some "England & Wales Company", none⟩)], []⟩,
    cache := [], runs := ["00000001"] }

/-- Witness for C10 at a concrete accumulated state: the call ignores both
the registry and the new root id and changes nothing. -/
theorem claim_C10_witness :
    c10_state.cfg.reset_cache = false ∧
      c10_state.cfg.compose_queried_networks = false ∧
      c10_state.graph.nodes ≠ [] ∧
      client_get_network 7 emptyRegistry "99999999" c10_state =
        (c10_state, .ok c10_state.graph) :=
  ⟨rfl, rfl, by simp [c10_state],
    claim_C10_get_network_frame 7 emptyRegistry "99999999" c10_state rfl rfl
      (by simp [c10_state])⟩

instance exceptDecEq {e a : Type} [DecidableEq e] [DecidableEq a] :
    DecidableEq (Except e a)
  | .error e1, .error e2 =>
    if h : e1 = e2 then isTrue (by rw [h])
    else isFalse (by intro hh; cases hh; exact h rfl)
  | .error _, .ok _ => isFalse (by intro hh; cases hh)
  | .ok _, .error _ => isFalse (by intro hh; cases hh)
  | .ok v1, .ok v2 =>
    if h : v1 = v2 then isTrue (by rw [h])
    else isFalse (by intro hh; cases hh; exact h rfl)

/-- The node's `name` attribute, when the node exists and has attributes. -/
def node_name (g : CompanyGraph) (id : String) : Option String :=
  match g.lookupNode id with
  | some (some a) => some a.name
  | _ => none

/-- Registry for the C1 counterexample: company `00000001` has one officer
`OFF1` whose appointments also list company `00000002`, and the fetch of
`00000002` fails (404). -/
def c1_registry : Registry :=
  { today := 0
    company := fun c =>
      if c = "00000001" then some ⟨"Org A", none, true⟩ else none
    officers := fun c =>
      if c = "00000001" then
        some ⟨[⟨"P One", none, "/officers/OFF1/appointments"⟩]⟩
      else none
    appointments := fun o =>
      if o = "OFF1" then some ⟨some [⟨"00000002", "P One", none⟩]⟩ else none
    controllers := fun _ => none
    controllerQuery := fun _ => none }

/-- `branches=1`, `enforce_missing_ties=True`, officers on. -/
def c1_config : ClientConfig :=
  ⟨1, false, true, false, true, false, false, false, true, false⟩

/-- C1 counterexample: after a crawl with `enforce_missing_ties` in which
the related organisation's fetch fails, the graph held by the client
contains the node `00000002` WITHOUT any attributes — in particular with no
`bipartite` attribute at all — as the endpoint of the enforced edge from
officer `OFF1`; the `bipartite=0/1` node labelling claimed invariant is
violated (and the `get_network` call itself then crashes with `KeyError`
when `get_kinds_ids_dict` reads the orphan's `kind`). -/
theorem claim_C1_counterexample :
    (client_get_network 20 c1_registry "00000001"
        (init_client c1_config)).1.graph.lookupNode "00000002" = some none ∧
      (client_get_network 20 c1_registry "00000001"
          (init_client c1_config)).1.graph.edges =
        [("00000001", "OFF1",
            some (.officer ⟨"P One", none, "/officers/OFF1/appointments"⟩)),
          ("OFF1", "00000002", none)] ∧
      (client_get_network 20 c1_registry "00000001"
          (init_client c1_config)).2 = .error .keyError := by
  refine ⟨by decide, by decide, by decide⟩

/-- First-run registry for the C4 counterexample. -/
def c4_registry_first : Registry :=
  { today := 0
    company := fun c =>
      if c = "00000001" then some ⟨"Org X", none, false⟩ else none
    officers := fun _ => none
    appointments := fun _ => none
    controllers := fun _ => none
    controllerQuery := fun _ => none }

/-- Second-run registry: the same company, whose registry record changed
between the two crawl calls. -/
def c4_registry_second : Registry :=
  { today := 0
    company := fun c =>
      if c = "00000001" then some ⟨"Org Y", none, false⟩ else none
    officers := fun _ => none
    appointments := fun _ => none
    controllers := fun _ => none
    controllerQuery := fun _ => none }

/-- A composing client: `compose_queried_networks=True`,
`reset_cache=False`. -/
def c4_config : ClientConfig :=
  ⟨0, false, true, false, false, false, false, false, false, true⟩

/-- C4 counterexample: re-crawling an organisation as the root of a later
composed run is NOT a no-op on its stored attributes: `_get_network` calls
`add_node` on the existing id again and networkx overwrites the attribute
dictionary with the freshly fetched record (last-write-wins), so the node's
`name` changes from "Org X" to "Org Y". -/
theorem claim_C4_counterexample :
    node_name (client_get_network 20 c4_registry_first "00000001"
        (init_client c4_config)).1.graph "00000001" = some "Org X" ∧
      node_name (client_get_network 20 c4_registry_second "00000001"
          (client_get_network 20 c4_registry_first "00000001"
            (init_client c4_config)).1).1.graph "00000001" = some "Org Y" ∧
      ("Org X" : String) ≠ "Org Y" := by
  refine ⟨by decide, by decide, by decide⟩

section ListFindLemmas

variable {κ : Type} [BEq κ] [LawfulBEq κ]

theorem find?_append_of_none {β : Type} {p : κ × β → Bool}
    {l1 l2 : List (κ × β)} (h : l1.find? p = none) :
    (l1 ++ l2).find? p = l2.find? p := by
  induction l1 with
  | nil => simp
  | cons q l ih =>
    rw [List.find?_cons] at h
    rw [List.cons_append, List.find?_cons]
    cases hq : p q with
    | true => rw [hq] at h; exact absurd h (by simp)
    | false =>
      rw [hq] at h
      exact ih h

theorem find?_append_of_some {β : Type} {p : κ × β → Bool}
    {l1 l2 : List (κ × β)} {q : κ × β} (h : l1.find? p = some q) :
    (l1 ++ l2).find? p = some q := by
  induction l1 with
  | nil => simp at h
  | cons r l ih =>
    rw [List.find?_cons] at h
    rw [List.cons_append, List.find?_cons]
    cases hr : p r with
    | true => rw [hr] at h; rw [h]
    | false => rw [hr] at h; exact ih h

/-- The overwrite map of `addNode` does not disturb lookups of other keys. -/
theorem find?_overwrite_ne {β : Type} {l : List (κ × β)} {y : κ} {a : β}
    {x : κ} (h : x ≠ y) :
    (l.map (fun p => if p.1 == y then (p.1, a) else p)).find?
        (fun p => p.1 == x) =
      l.find? (fun p => p.1 == x) := by
  induction l with
  | nil => rfl
  | cons q l ih =>
    by_cases hq : q.1 == y
    · have hq1 : q.1 = y := by simpa using hq
      have hqx : (q.1 == x) = false := by
        simp [hq1]
        intro hc
        exact h hc.symm
      simp only [List.map_cons, if_pos hq]
      rw [List.find?_cons_of_neg _ (by simpa using hqx),
        List.find?_cons_of_neg _ (by simpa using hqx)]
      exact ih
    · simp only [List.map_cons, if_neg hq]
      by_cases hqx : q.1 == x
      · rw [List.find?_cons_of_pos _ (by simpa using hqx),
          List.find?_cons_of_pos _ (by simpa using hqx)]
      · rw [List.find?_cons_of_neg _ (by simpa using hqx),
          List.find?_cons_of_neg _ (by simpa using hqx)]
        exact ih

/-- The overwrite map of `addNode` rewrites the looked-up value at the
overwritten key. -/
theorem find?_overwrite_self {β : Type} {l : List (κ × β)} {y : κ} {a : β}
    (h : ∃ p ∈ l, p.1 = y) :
    ((l.map (fun p => if p.1 == y then (p.1, a) else p)).find?
        (fun p => p.1 == y)).map Prod.snd = some a := by
  induction l with
  | nil => simp at h
  | cons q l ih =>
    by_cases hq : q.1 == y
    · simp only [List.map_cons, if_pos hq]
      rw [List.find?_cons_of_pos _ (by simpa using hq)]
      rfl
    · simp only [List.map_cons, if_neg hq]
      rw [List.find?_cons_of_neg _ (by simpa using hq)]
      apply ih
      obtain ⟨p, hp, hpe⟩ := h
      rcases List.mem_cons.mp hp with hpq | hpl
      · exact absurd (hpq ▸ hpe) (by simpa using hq)
      · exact ⟨p, hpl, hpe⟩

theorem keys_overwrite {β : Type} {l : List (κ × β)} {y : κ} {a : β} :
    (l.map (fun p => if p.1 == y then (p.1, a) else p)).map Prod.fst =
      l.map Prod.fst := by
  induction l with
  | nil => rfl
  | cons q l ih =>
    by_cases hq : q.1 == y
    · simp only [List.map_cons, if_pos hq, ih]
    · simp only [List.map_cons, if_neg hq, ih]

theorem mem_overwrite {β : Type} {l : List (κ × β)} {y : κ} {a : β}
    {p : κ × β}
    (hp : p ∈ l.map (fun p => if p.1 == y then (p.1, a) else p)) :
    (p.1 = y ∧ p.2 = a) ∨ (p ∈ l ∧ p.1 ≠ y) := by
  simp only [List.mem_map] at hp
  obtain ⟨q, hq, hqe⟩ := hp
  by_cases hqy : q.1 == y
  · rw [if_pos hqy] at hqe
    left
    rw [← hqe]
    exact ⟨by simpa using hqy, rfl⟩
  · rw [if_neg hqy] at hqe
    right
    rw [← hqe]
    exact ⟨hq, by simpa using hqy⟩

end ListFindLemmas

section GraphLemmas

variable {κ α ε : Type} [BEq κ] [LawfulBEq κ]

theorem hasNode_true_iff (g : NxGraph κ α ε) (x : κ) :
    g.hasNode x = true ↔ ∃ p ∈ g.nodes, p.1 = x := by
  simp only [NxGraph.hasNode, List.any_eq_true]
  constructor
  · rintro ⟨p, hp, hpe⟩
    exact ⟨p, hp, by simpa using hpe⟩
  · rintro ⟨p, hp, hpe⟩
    exact ⟨p, hp, by simpa using hpe⟩

theorem hasNode_false_iff (g : NxGraph κ α ε) (x : κ) :
    g.hasNode x = false ↔ ∀ p ∈ g.nodes, p.1 ≠ x := by
  constructor
  · intro h p hp hpe
    have ht : g.hasNode x = true := (hasNode_true_iff g x).mpr ⟨p, hp, hpe⟩
    rw [h] at ht
    exact absurd ht (by simp)
  · intro h
    cases hH : g.hasNode x with
    | false => rfl
    | true =>
      obtain ⟨p, hp, hpe⟩ := (hasNode_true_iff g x).mp hH
      exact absurd hpe (h p hp)

theorem find?_nodes_of_hasNode_false {g : NxGraph κ α ε} {x : κ}
    (h : g.hasNode x = false) :
    g.nodes.find? (fun p => p.1 == x) = none := by
  rw [List.find?_eq_none]
  intro p hp
  simpa using (hasNode_false_iff g x).mp h p hp

theorem lookup_some_of_mem {g : NxGraph κ α ε} {x : κ}
    (h : ∃ p ∈ g.nodes, p.1 = x) : ∃ a, g.lookupNode x = some a := by
  unfold NxGraph.lookupNode
  have hs : (g.nodes.find? (fun p => p.1 == x)).isSome := by
    rw [List.find?_isSome]
    obtain ⟨p, hp, hpe⟩ := h
    exact ⟨p, hp, by simpa using hpe⟩
  cases hf : g.nodes.find? (fun p => p.1 == x) with
  | none => rw [hf] at hs; simp at hs
  | some p => exact ⟨p.2, rfl⟩

theorem hasNode_of_lookup_some {g : NxGraph κ α ε} {x : κ} {a : Option α}
    (h : g.lookupNode x = some a) : g.hasNode x = true := by
  unfold NxGraph.lookupNode at h
  cases hf : g.nodes.find? (fun p => p.1 == x) with
  | none => rw [hf] at h; simp at h
  | some p =>
    have hp := List.find?_some hf
    have hmem := List.mem_of_find?_eq_some hf
    simp only [NxGraph.hasNode, List.any_eq_true]
    exact ⟨p, hmem, hp⟩

theorem mem_of_lookup_some {g : NxGraph κ α ε} {x : κ} {a : Option α}
    (h : g.lookupNode x = some a) : (x, a) ∈ g.nodes := by
  unfold NxGraph.lookupNode at h
  cases hf : g.nodes.find? (fun p => p.1 == x) with
  | none => rw [hf] at h; simp at h
  | some p =>
    have hp := List.find?_some hf
    have hmem := List.mem_of_find?_eq_some hf
    rw [hf] at h
    have hpx : p.1 = x := by simpa using hp
    have hpa : p.2 = a := by simpa using h
    have : p = (x, a) := by
      cases p
      simp only at hpx hpa
      rw [hpx, hpa]
    rw [← this]
    exact hmem

theorem lookup_of_hasNode {g : NxGraph κ α ε} {x : κ}
    (h : g.hasNode x = true) : ∃ a, g.lookupNode x = some a :=
  lookup_some_of_mem ((hasNode_true_iff g x).mp h)

theorem mem_nodes_addNode {g : NxGraph κ α ε} {y : κ} {a : Option α}
    {p : κ × Option α} (hp : p ∈ (g.addNode y a).nodes) :
    (p.1 = y ∧ p.2 = a) ∨ (p ∈ g.nodes ∧ p.1 ≠ y) := by
  unfold NxGraph.addNode at hp
  by_cases h : g.hasNode y
  · rw [if_pos h] at hp
    exact mem_overwrite hp
  · rw [if_neg h] at hp
    simp only [List.mem_append, List.mem_singleton] at hp
    rcases hp with hp | hp
    · right
      refine ⟨hp, ?_⟩
      rw [Bool.not_eq_true] at h
      exact (hasNode_false_iff g y).mp h p hp
    · left
      rw [hp]
      exact ⟨rfl, rfl⟩

theorem keys_addNode (g : NxGraph κ α ε) (y : κ) (a : Option α) :
    ((g.addNode y a).nodes.map Prod.fst) =
      if g.hasNode y then g.nodes.map Prod.fst
      else g.nodes.map Prod.fst ++ [y] := by
  unfold NxGraph.addNode
  by_cases h : g.hasNode y
  · rw [if_pos h, if_pos h]
    exact keys_overwrite
  · rw [if_neg h, if_neg h]
    simp

theorem nodup_keys_addNode {g : NxGraph κ α ε} {y : κ} {a : Option α}
    (h : (g.nodes.map Prod.fst).Nodup) :
    ((g.addNode y a).nodes.map Prod.fst).Nodup := by
  rw [keys_addNode]
  by_cases hy : g.hasNode y
  · rw [if_pos hy]
    exact h
  · rw [if_neg hy]
    rw [Bool.not_eq_true] at hy
    have hnot : y ∉ g.nodes.map Prod.fst := by
      simp only [List.mem_map]
      rintro ⟨p, hp, hpe⟩
      exact (hasNode_false_iff g y).mp hy p hp hpe
    simp [List.nodup_append, h, hnot]

theorem lookup_addNode_self (g : NxGraph κ α ε) (y : κ) (a : Option α) :
    (g.addNode y a).lookupNode y = some a := by
  unfold NxGraph.addNode NxGraph.lookupNode
  by_cases h : g.hasNode y
  · rw [if_pos h]
    exact find?_overwrite_self ((hasNode_true_iff g y).mp h)
  · rw [if_neg h]
    rw [find?_append_of_none (find?_nodes_of_hasNode_false (by simpa using h))]
    simp

theorem lookup_addNode_ne (g : NxGraph κ α ε) (y : κ) (a : Option α) (x : κ)
    (h : x ≠ y) : (g.addNode y a).lookupNode x = g.lookupNode x := by
  unfold NxGraph.addNode NxGraph.lookupNode
  by_cases hy : g.hasNode y
  · rw [if_pos hy]
    rw [find?_overwrite_ne h]
  · rw [if_neg hy]
    cases hf : g.nodes.find? (fun p => p.1 == x) with
    | none =>
      rw [find?_append_of_none hf]
      have hsing :
          List.find? (fun p : κ × Option α => p.1 == x) [(y, a)] = none := by
        rw [List.find?_eq_none]
        intro q hq
        rw [List.mem_singleton] at hq
        rw [hq]
        simp
        intro hc
        exact h hc.symm
      rw [hsing]
    | some p =>
      rw [find?_append_of_some hf]

theorem hasNode_addNode_mono {g : NxGraph κ α ε} {y : κ} {a : Option α}
    {x : κ} (h : g.hasNode x = true) : (g.addNode y a).hasNode x = true := by
  rw [hasNode_true_iff] at h ⊢
  obtain ⟨p, hp, hpe⟩ := h
  unfold NxGraph.addNode
  by_cases hy : g.hasNode y
  · rw [if_pos hy]
    by_cases hpy : p.1 == y
    · exact ⟨(p.1, a), List.mem_map.mpr ⟨p, hp, by rw [if_pos hpy]⟩, hpe⟩
    · exact ⟨p, List.mem_map.mpr ⟨p, hp, by rw [if_neg hpy]⟩, hpe⟩
  · rw [if_neg hy]
    exact ⟨p, List.mem_append.mpr (Or.inl hp), hpe⟩

theorem hasNode_addNode_self (g : NxGraph κ α ε) (y : κ) (a : Option α) :
    (g.addNode y a).hasNode y = true :=
  hasNode_of_lookup_some (lookup_addNode_self g y a)

theorem edges_addNode (g : NxGraph κ α ε) (y : κ) (a : Option α) :
    (g.addNode y a).edges = g.edges := by
  unfold NxGraph.addNode
  by_cases h : g.hasNode y
  · rw [if_pos h]
  · rw [if_neg h]

theorem mem_nodes_ensureNode {g : NxGraph κ α ε} {y : κ}
    {p : κ × Option α} (hp : p ∈ (g.ensureNode y).nodes) :
    p ∈ g.nodes ∨ p = (y, none) := by
  unfold NxGraph.ensureNode at hp
  by_cases h : g.hasNode y
  · rw [if_pos h] at hp
    exact Or.inl hp
  · rw [if_neg h] at hp
    simp only [List.mem_append, List.mem_singleton] at hp
    exact hp

theorem keys_ensureNode (g : NxGraph κ α ε) (y : κ) :
    ((g.ensureNode y).nodes.map Prod.fst) =
      if g.hasNode y then g.nodes.map Prod.fst
      else g.nodes.map Prod.fst ++ [y] := by
  unfold NxGraph.ensureNode
  by_cases h : g.hasNode y
  · rw [if_pos h, if_pos h]
  · rw [if_neg h, if_neg h]
    simp

theorem nodup_keys_ensureNode {g : NxGraph κ α ε} {y : κ}
    (h : (g.nodes.map Prod.fst).Nodup) :
    ((g.ensureNode y).nodes.map Prod.fst).Nodup := by
  rw [keys_ensureNode]
  by_cases hy : g.hasNode y
  · rw [if_pos hy]
    exact h
  · rw [if_neg hy]
    rw [Bool.not_eq_true] at hy
    have hnot : y ∉ g.nodes.map Prod.fst := by
      simp only [List.mem_map]
      rintro ⟨p, hp, hpe⟩
      exact (hasNode_false_iff g y).mp hy p hp hpe
    simp [List.nodup_append, h, hnot]

theorem lookup_ensureNode_present {g : NxGraph κ α ε} {y x : κ}
    {a : Option α} (h : g.lookupNode x = some a) :
    (g.ensureNode y).lookupNode x = some a := by
  unfold NxGraph.ensureNode
  by_cases hy : g.hasNode y
  · rw [if_pos hy]
    exact h
  · rw [if_neg hy]
    unfold NxGraph.lookupNode at h ⊢
    cases hf : g.nodes.find? (fun p => p.1 == x) with
    | none => rw [hf] at h; simp at h
    | some p =>
      rw [hf] at h
      rw [find?_append_of_some hf]
      exact h

theorem hasNode_ensureNode_mono {g : NxGraph κ α ε} {y x : κ}
    (h : g.hasNode x = true) : (g.ensureNode y).hasNode x = true := by
  rw [hasNode_true_iff] at h ⊢
  obtain ⟨p, hp, hpe⟩ := h
  unfold NxGraph.ensureNode
  by_cases hy : g.hasNode y
  · rw [if_pos hy]
    exact ⟨p, hp, hpe⟩
  · rw [if_neg hy]
    exact ⟨p, List.mem_append.mpr (Or.inl hp), hpe⟩

theorem hasNode_ensureNode_self (g : NxGraph κ α ε) (y : κ) :
    (g.ensureNode y).hasNode y = true := by
  unfold NxGraph.ensureNode
  by_cases hy : g.hasNode y
  · rw [if_pos hy]
    exact hy
  · rw [if_neg hy]
    rw [hasNode_true_iff]
    exact ⟨(y, none), List.mem_append.mpr (Or.inr (List.mem_singleton.mpr rfl)), rfl⟩

theorem edges_ensureNode (g : NxGraph κ α ε) (y : κ) :
    (g.ensureNode y).edges = g.edges := by
  unfold NxGraph.ensureNode
  by_cases h : g.hasNode y
  · rw [if_pos h]
  · rw [if_neg h]

theorem nodes_addEdge (g : NxGraph κ α ε) (u v : κ) (d : ε) :
    (g.addEdge u v d).nodes = ((g.ensureNode u).ensureNode v).nodes := by
  unfold NxGraph.addEdge
  by_cases h : ((g.ensureNode u).ensureNode v).hasEdge u v
  · simp only [if_pos h]
  · simp only [if_neg h]

theorem mem_nodes_addEdge {g : NxGraph κ α ε} {u v : κ} {d : ε}
    {p : κ × Option α} (hp : p ∈ (g.addEdge u v d).nodes) :
    p ∈ g.nodes ∨ p = (u, none) ∨ p = (v, none) := by
  rw [nodes_addEdge] at hp
  rcases mem_nodes_ensureNode hp with hp2 | hp2
  · rcases mem_nodes_ensureNode hp2 with hp3 | hp3
    · exact Or.inl hp3
    · exact Or.inr (Or.inl hp3)
  · exact Or.inr (Or.inr hp2)

theorem lookup_addEdge_present {g : NxGraph κ α ε} {u v x : κ} {d : ε}
    {a : Option α} (h : g.lookupNode x = some a) :
    (g.addEdge u v d).lookupNode x = some a := by
  have h2 : (g.ensureNode u).lookupNode x = some a :=
    lookup_ensureNode_present h
  have h3 : ((g.ensureNode u).ensureNode v).lookupNode x = some a :=
    lookup_ensureNode_present h2
  unfold NxGraph.lookupNode at h3 ⊢
  rw [nodes_addEdge]
  exact h3

theorem hasNode_addEdge_mono {g : NxGraph κ α ε} {u v x : κ} {d : ε}
    (h : g.hasNode x = true) : (g.addEdge u v d).hasNode x = true := by
  have h2 : (g.ensureNode u).hasNode x = true := hasNode_ensureNode_mono h
  have h3 : ((g.ensureNode u).ensureNode v).hasNode x = true :=
    hasNode_ensureNode_mono h2
  unfold NxGraph.hasNode at h3 ⊢
  rw [nodes_addEdge]
  exact h3

theorem nodup_keys_addEdge {g : NxGraph κ α ε} {u v : κ} {d : ε}
    (h : (g.nodes.map Prod.fst).Nodup) :
    ((g.addEdge u v d).nodes.map Prod.fst).Nodup := by
  rw [nodes_addEdge]
  exact nodup_keys_ensureNode (nodup_keys_ensureNode h)

theorem mem_edges_addEdge {g : NxGraph κ α ε} {u v : κ} {d : ε}
    {e : κ × κ × ε} (he : e ∈ (g.addEdge u v d).edges) :
    (∃ e0 ∈ g.edges, e.1 = e0.1 ∧ e.2.1 = e0.2.1) ∨ (e.1 = u ∧ e.2.1 = v) := by
  unfold NxGraph.addEdge at he
  by_cases h : ((g.ensureNode u).ensureNode v).hasEdge u v
  · simp only [if_pos h] at he
    rw [edges_ensureNode, edges_ensureNode] at he
    simp only [List.mem_map] at he
    obtain ⟨e0, he0, heq⟩ := he
    by_cases hc : (e0.1 == u && e0.2.1 == v) || (e0.1 == v && e0.2.1 == u)
    · rw [if_pos hc] at heq
      left
      exact ⟨e0, he0, by rw [← heq], by rw [← heq]⟩
    · rw [if_neg hc] at heq
      left
      exact ⟨e0, he0, by rw [← heq], by rw [← heq]⟩
  · simp only [if_neg h] at he
    rw [edges_ensureNode, edges_ensureNode] at he
    rcases List.mem_append.mp he with he2 | he2
    · left
      exact ⟨e, he2, rfl, rfl⟩
    · right
      rw [List.mem_singleton] at he2
      rw [he2]
      exact ⟨rfl, rfl⟩

/-- The `(bipartite, kind)` view of an optional attribute dictionary: the
fields `setInfoOfficers` / `setInfoControllers` leave untouched. -/
def bipKind (a : Option CompanyNodeAttrs) : Option (Nat × String) :=
  a.map (fun x => (x.bipartite, x.kind))

theorem keys_setInfoOfficers (g : CompanyGraph) (c : String)
    (od : Option OfficersData) :
    ((setInfoOfficers g c od).nodes.map Prod.fst) = g.nodes.map Prod.fst := by
  unfold setInfoOfficers
  simp only [List.map_map]
  apply List.map_congr_left
  intro p _
  by_cases hp : p.1 == c
  · simp only [Function.comp, if_pos hp]
  · simp only [Function.comp, if_neg hp]

theorem edges_setInfoOfficers (g : CompanyGraph) (c : String)
    (od : Option OfficersData) : (setInfoOfficers g c od).edges = g.edges := rfl

theorem mem_nodes_setInfoOfficers {g : CompanyGraph} {c : String}
    {od : Option OfficersData} {p : String × Option CompanyNodeAttrs}
    (hp : p ∈ (setInfoOfficers g c od).nodes) :
    ∃ q ∈ g.nodes, p.1 = q.1 ∧ bipKind p.2 = bipKind q.2 := by
  unfold setInfoOfficers at hp
  simp only [List.mem_map] at hp
  obtain ⟨q, hq, hqe⟩ := hp
  by_cases hqc : q.1 == c
  · rw [if_pos hqc] at hqe
    refine ⟨q, hq, by rw [← hqe], ?_⟩
    rw [← hqe]
    cases hq2 : q.2 with
    | none => rfl
    | some b => rfl
  · rw [if_neg hqc] at hqe
    refine ⟨q, hq, by rw [← hqe], ?_⟩
    rw [← hqe]

theorem lookup_setInfoOfficers_ne {g : CompanyGraph} {c x : String}
    {od : Option OfficersData} (h : x ≠ c) :
    (setInfoOfficers g c od).lookupNode x = g.lookupNode x := by
  unfold setInfoOfficers NxGraph.lookupNode
  simp only
  induction g.nodes with
  | nil => rfl
  | cons q l ih =>
    by_cases hqc : q.1 == c
    · have hqx : (q.1 == x) = false := by
        have : q.1 = c := by simpa using hqc
        simp [this]
        intro hc
        exact h hc.symm
      simp only [List.map_cons, if_pos hqc]
      rw [List.find?_cons_of_neg _ (by simpa using hqx),
        List.find?_cons_of_neg _ (by simpa using hqx)]
      exact ih
    · simp only [List.map_cons, if_neg hqc]
      by_cases hqx : q.1 == x
      · rw [List.find?_cons_of_pos _ (by simpa using hqx),
          List.find?_cons_of_pos _ (by simpa using hqx)]
      · rw [List.find?_cons_of_neg _ (by simpa using hqx),
          List.find?_cons_of_neg _ (by simpa using hqx)]
        exact ih

theorem keys_setInfoControllers (g : CompanyGraph) (c : String)
    (cd : Option ControllersData) :
    ((setInfoControllers g c cd).nodes.map Prod.fst) =
      g.nodes.map Prod.fst := by
  unfold setInfoControllers
  simp only [List.map_map]
  apply List.map_congr_left
  intro p _
  by_cases hp : p.1 == c
  · simp only [Function.comp, if_pos hp]
  · simp only [Function.comp, if_neg hp]

theorem edges_setInfoControllers (g : CompanyGraph) (c : String)
    (cd : Option ControllersData) :
    (setInfoControllers g c cd).edges = g.edges := rfl

theorem mem_nodes_setInfoControllers {g : CompanyGraph} {c : String}
    {cd : Option ControllersData} {p : String × Option CompanyNodeAttrs}
    (hp : p ∈ (setInfoControllers g c cd).nodes) :
    ∃ q ∈ g.nodes, p.1 = q.1 ∧ bipKind p.2 = bipKind q.2 := by
  unfold setInfoControllers at hp
  simp only [List.mem_map] at hp
  obtain ⟨q, hq, hqe⟩ := hp
  by_cases hqc : q.1 == c
  · rw [if_pos hqc] at hqe
    refine ⟨q, hq, by rw [← hqe], ?_⟩
    rw [← hqe]
    cases hq2 : q.2 with
    | none => rfl
    | some b => rfl
  · rw [if_neg hqc] at hqe
    refine ⟨q, hq, by rw [← hqe], ?_⟩
    rw [← hqe]

theorem lookup_setInfoControllers_ne {g : CompanyGraph} {c x : String}
    {cd : Option ControllersData} (h : x ≠ c) :
    (setInfoControllers g c cd).lookupNode x = g.lookupNode x := by
  unfold setInfoControllers NxGraph.lookupNode
  simp only
  induction g.nodes with
  | nil => rfl
  | cons q l ih =>
    by_cases hqc : q.1 == c
    · have hqx : (q.1 == x) = false := by
        have : q.1 = c := by simpa using hqc
        simp [this]
        intro hc
        exact h hc.symm
      simp only [List.map_cons, if_pos hqc]
      rw [List.find?_cons_of_neg _ (by simpa using hqx),
        List.find?_cons_of_neg _ (by simpa using hqx)]
      exact ih
    · simp only [List.map_cons, if_neg hqc]
      by_cases hqx : q.1 == x
      · rw [List.find?_cons_of_pos _ (by simpa using hqx),
          List.find?_cons_of_pos _ (by simpa using hqx)]
      · rw [List.find?_cons_of_neg _ (by simpa using hqx),
          List.find?_cons_of_neg _ (by simpa using hqx)]
        exact ih

theorem hasNode_setInfoOfficers (g : CompanyGraph) (c x : String)
    (od : Option OfficersData) :
    (setInfoOfficers g c od).hasNode x = g.hasNode x := by
  unfold setInfoOfficers NxGraph.hasNode
  simp only
  induction g.nodes with
  | nil => rfl
  | cons q l ih =>
    by_cases hqc : q.1 == c
    · simp only [List.map_cons, if_pos hqc, List.any_cons, ih]
    · simp only [List.map_cons, if_neg hqc, List.any_cons, ih]

theorem hasNode_setInfoControllers (g : CompanyGraph) (c x : String)
    (cd : Option ControllersData) :
    (setInfoControllers g c cd).hasNode x = g.hasNode x := by
  unfold setInfoControllers NxGraph.hasNode
  simp only
  induction g.nodes with
  | nil => rfl
  | cons q l ih =>
    by_cases hqc : q.1 == c
    · simp only [List.map_cons, if_pos hqc, List.any_cons, ih]
    · simp only [List.map_cons, if_neg hqc, List.any_cons, ih]

end GraphLemmas

/-- The ids whose attributes a crawl call may rewrite among nodes that
already exist: the call's own company argument and the current root (an
empty-string company argument, and `company_id=None` at the top call,
resolve to `self._root_id`, so the root is re-insertable from any depth). -/
def rootTouch (st : ClientState) : List String :=
  match st.root_id with
  | some r => [r]
  | none => []

def callTouch (st : ClientState) : CrawlCall → List String
  | .getNetworkAux cid _ =>
    (match cid with | some c => [c] | none => []) ++ rootTouch st
  | .includeOfficers c _ => c :: rootTouch st
  | .officersLoop _ c _ => c :: rootTouch st
  | .includeControllers c _ => c :: rootTouch st
  | .controllersLoop _ c _ => c :: rootTouch st
  | .addPersonEdgeBranch _ _ _ _ => rootTouch st
  | .getNetworkBranches _ _ => rootTouch st
  | .branchesLoop _ _ _ => rootTouch st

theorem mem_dictInsert {κ β : Type} [BEq κ] [LawfulBEq κ]
    {d : List (κ × β)} {k : κ} {v : β} {pr : κ × β}
    (h : pr ∈ dictInsert d k v) : pr ∈ d ∨ pr = (k, v) := by
  unfold dictInsert at h
  by_cases hd : d.any (fun p => p.1 == k)
  · rw [if_pos hd] at h
    rcases mem_overwrite h with ⟨h1, h2⟩ | ⟨h1, _⟩
    · right
      cases pr
      simp only at h1 h2
      rw [h1, h2]
    · exact Or.inl h1
  · rw [if_neg hd] at h
    rcases List.mem_append.mp h with h1 | h1
    · exact Or.inl h1
    · exact Or.inr (List.mem_singleton.mp h1)

theorem mem_foldl_dictInsert {entries : List Appointment}
    {d0 : List (String × Appointment)} {q : String × Appointment}
    (h : q ∈ entries.foldl (fun d a => dictInsert d a.companyNumber a) d0) :
    q ∈ d0 ∨ ∃ a ∈ entries, q = (a.companyNumber, a) := by
  induction entries generalizing d0 with
  | nil => exact Or.inl h
  | cons a rest ih =>
    rw [List.foldl_cons] at h
    rcases ih h with h1 | ⟨b, hb, hq⟩
    · rcases mem_dictInsert h1 with h2 | h2
      · exact Or.inl h2
      · exact Or.inr ⟨a, List.mem_cons_self a rest, h2⟩
    · exact Or.inr ⟨b, List.mem_cons_of_mem a hb, hq⟩

theorem add_officer_cfg (reg : Registry) (p c : String) (d : PersonRec)
    (st : ClientState) :
    (client_add_officer reg p c d st).cfg = st.cfg ∧
      (client_add_officer reg p c d st).root_id = st.root_id ∧
      (client_add_officer reg p c d st).runs = st.runs := by
  unfold client_add_officer
  cases ha : reg.appointments p with
  | none => exact ⟨rfl, rfl, rfl⟩
  | some ad =>
    dsimp only
    cases hi : ad.items with
    | none => exact ⟨rfl, rfl, rfl⟩
    | some items => exact ⟨rfl, rfl, rfl⟩

theorem add_officer_lookup_ne (reg : Registry) (p c : String) (d : PersonRec)
    (st : ClientState) (x : String) (hx : x ≠ p) :
    (client_add_officer reg p c d st).graph.lookupNode x =
      st.graph.lookupNode x := by
  unfold client_add_officer
  cases ha : reg.appointments p with
  | none => exact lookup_addNode_ne _ _ _ _ hx
  | some ad =>
    dsimp only
    cases hi : ad.items with
    | none => exact lookup_addNode_ne _ _ _ _ hx
    | some items => exact lookup_addNode_ne _ _ _ _ hx

theorem add_officer_hasNode_mono (reg : Registry) (p c : String)
    (d : PersonRec) (st : ClientState) (x : String)
    (hx : st.graph.hasNode x = true) :
    (client_add_officer reg p c d st).graph.hasNode x = true := by
  unfold client_add_officer
  cases ha : reg.appointments p with
  | none => exact hasNode_addNode_mono hx
  | some ad =>
    dsimp only
    cases hi : ad.items with
    | none => exact hasNode_addNode_mono hx
    | some items => exact hasNode_addNode_mono hx

theorem add_officer_hasNode_self (reg : Registry) (p c : String)
    (d : PersonRec) (st : ClientState) :
    (client_add_officer reg p c d st).graph.hasNode p = true := by
  unfold client_add_officer
  cases ha : reg.appointments p with
  | none => exact hasNode_addNode_self _ _ _
  | some ad =>
    dsimp only
    cases hi : ad.items with
    | none => exact hasNode_addNode_self _ _ _
    | some items => exact hasNode_addNode_self _ _ _

theorem add_officer_mem_nodes (reg : Registry) (p c : String) (d : PersonRec)
    (st : ClientState) (q : String × Option CompanyNodeAttrs)
    (hq : q ∈ (client_add_officer reg p c d st).graph.nodes) :
    (q ∈ st.graph.nodes ∧ q.1 ≠ p) ∨
      (q.1 = p ∧ ∃ A, q.2 = some A ∧ A.bipartite = 1 ∧ A.kind = "officer") := by
  unfold client_add_officer at hq
  cases ha : reg.appointments p with
  | none =>
    rw [ha] at hq
    rcases mem_nodes_addNode hq with ⟨h1, h2⟩ | ⟨h1, h2⟩
    · exact Or.inr ⟨h1, _, h2, rfl, rfl⟩
    · exact Or.inl ⟨h1, h2⟩
  | some ad =>
    rw [ha] at hq
    dsimp only at hq
    cases hi : ad.items with
    | none =>
      rw [hi] at hq
      rcases mem_nodes_addNode hq with ⟨h1, h2⟩ | ⟨h1, h2⟩
      · exact Or.inr ⟨h1, _, h2, rfl, rfl⟩
      · exact Or.inl ⟨h1, h2⟩
    | some items =>
      rw [hi] at hq
      rcases mem_nodes_addNode hq with ⟨h1, h2⟩ | ⟨h1, h2⟩
      · exact Or.inr ⟨h1, _, h2, rfl, rfl⟩
      · exact Or.inl ⟨h1, h2⟩

theorem add_officer_nodup (reg : Registry) (p c : String) (d : PersonRec)
    (st : ClientState) (h : (st.graph.nodes.map Prod.fst).Nodup) :
    ((client_add_officer reg p c d st).graph.nodes.map Prod.fst).Nodup := by
  unfold client_add_officer
  cases ha : reg.appointments p with
  | none => exact nodup_keys_addNode h
  | some ad =>
    dsimp only
    cases hi : ad.items with
    | none => exact nodup_keys_addNode h
    | some items => exact nodup_keys_addNode h

theorem add_officer_edges (reg : Registry) (p c : String) (d : PersonRec)
    (st : ClientState) :
    (client_add_officer reg p c d st).graph.edges = st.graph.edges := by
  unfold client_add_officer
  cases ha : reg.appointments p with
  | none => exact edges_addNode _ _ _
  | some ad =>
    dsimp only
    cases hi : ad.items with
    | none => exact edges_addNode _ _ _
    | some items => exact edges_addNode _ _ _

theorem add_officer_cache_mem (reg : Registry) (p c : String) (d : PersonRec)
    (st : ClientState) (pr : String × List (String × Appointment))
    (hpr : pr ∈ (client_add_officer reg p c d st).cache) :
    pr ∈ st.cache ∨
      ∃ ad items, reg.appointments p = some ad ∧ ad.items = some items ∧
        ∀ q ∈ pr.2, ∃ a ∈ items, q = (a.companyNumber, a) := by
  unfold client_add_officer at hpr
  cases ha : reg.appointments p with
  | none =>
    rw [ha] at hpr
    exact Or.inl hpr
  | some ad =>
    rw [ha] at hpr
    dsimp only at hpr
    cases hi : ad.items with
    | none =>
      rw [hi] at hpr
      exact Or.inl hpr
    | some items =>
      rw [hi] at hpr
      rcases mem_dictInsert hpr with h1 | h1
      · exact Or.inl h1
      · right
        refine ⟨ad, items, rfl, hi, ?_⟩
        intro q hq
        rw [h1] at hq
        simp only at hq
        rcases mem_foldl_dictInsert hq with h2 | ⟨a, hain, hqa⟩
        · exact absurd h2 (List.not_mem_nil q)
        · by_cases hex : st.cfg.exclude_resigned_board_members
          · rw [if_pos hex] at hain
            exact ⟨a, List.mem_of_mem_filter hain, hqa⟩
          · rw [if_neg hex] at hain
            exact ⟨a, hain, hqa⟩

theorem add_controller_cfg (reg : Registry) (p c : String) (d : Controller)
    (st : ClientState) :
    (client_add_controller reg p c d st).cfg = st.cfg ∧
      (client_add_controller reg p c d st).root_id = st.root_id ∧
      (client_add_controller reg p c d st).runs = st.runs :=
  ⟨rfl, rfl, rfl⟩

theorem add_controller_cache (reg : Registry) (p c : String) (d : Controller)
    (st : ClientState) :
    (client_add_controller reg p c d st).cache = st.cache := rfl

theorem add_controller_lookup_ne (reg : Registry) (p c : String)
    (d : Controller) (st : ClientState) (x : String) (hx : x ≠ p) :
    (client_add_controller reg p c d st).graph.lookupNode x =
      st.graph.lookupNode x :=
  lookup_addNode_ne _ _ _ _ hx

theorem add_controller_hasNode_mono (reg : Registry) (p c : String)
    (d : Controller) (st : ClientState) (x : String)
    (hx : st.graph.hasNode x = true) :
    (client_add_controller reg p c d st).graph.hasNode x = true :=
  hasNode_addNode_mono hx

theorem add_controller_hasNode_self (reg : Registry) (p c : String)
    (d : Controller) (st : ClientState) :
    (client_add_controller reg p c d st).graph.hasNode p = true :=
  hasNode_addNode_self _ _ _

theorem add_controller_mem_nodes (reg : Registry) (p c : String)
    (d : Controller) (st : ClientState) (q : String × Option CompanyNodeAttrs)
    (hq : q ∈ (client_add_controller reg p c d st).graph.nodes) :
    (q ∈ st.graph.nodes ∧ q.1 ≠ p) ∨
      (q.1 = p ∧ ∃ A, q.2 = some A ∧ A.bipartite = 1 ∧
        A.kind = "controller") := by
  rcases mem_nodes_addNode hq with ⟨h1, h2⟩ | ⟨h1, h2⟩
  · exact Or.inr ⟨h1, _, h2, rfl, rfl⟩
  · exact Or.inl ⟨h1, h2⟩

theorem add_controller_nodup (reg : Registry) (p c : String) (d : Controller)
    (st : ClientState) (h : (st.graph.nodes.map Prod.fst).Nodup) :
    ((client_add_controller reg p c d st).graph.nodes.map Prod.fst).Nodup :=
  nodup_keys_addNode h

theorem add_controller_edges (reg : Registry) (p c : String) (d : Controller)
    (st : ClientState) :
    (client_add_controller reg p c d st).graph.edges = st.graph.edges :=
  edges_addNode _ _ _

theorem rootTouch_congr {st st2 : ClientState} (h : st2.root_id = st.root_id) :
    rootTouch st2 = rootTouch st := by
  unfold rootTouch
  rw [h]

/-- Frame of one crawl state transition: configuration, root and run ledger
are untouched, nodes are never removed, and every node outside `touch`
keeps its exact attribute dictionary. -/
def StepFrame (st st2 : ClientState) (touch : List String) : Prop :=
  (st2.cfg = st.cfg ∧ st2.root_id = st.root_id ∧ st2.runs = st.runs) ∧
  (∀ x, st.graph.hasNode x = true → st2.graph.hasNode x = true) ∧
  (∀ x a, st.graph.lookupNode x = some a → x ∉ touch →
    st2.graph.lookupNode x = some a)

theorem stepFrame_refl (st : ClientState) (touch : List String) :
    StepFrame st st touch :=
  ⟨⟨rfl, rfl, rfl⟩, fun _ h => h, fun _ _ h _ => h⟩

theorem stepFrame_trans {st st2 st3 : ClientState}
    {touch touch2 : List String} (h1 : StepFrame st st2 touch)
    (h2 : StepFrame st2 st3 touch2)
    (hsub : ∀ x, x ∉ touch → x ∉ touch2) : StepFrame st st3 touch :=
  ⟨⟨h2.1.1.trans h1.1.1, h2.1.2.1.trans h1.1.2.1, h2.1.2.2.trans h1.1.2.2⟩,
    fun x hx => h2.2.1 x (h1.2.1 x hx),
    fun x a hl hnx => h2.2.2 x a (h1.2.2 x a hl hnx) (hsub x hnx)⟩

theorem stepFrame_widen {st st2 : ClientState} {touch touch2 : List String}
    (h : StepFrame st st2 touch) (hsub : ∀ x, x ∉ touch2 → x ∉ touch) :
    StepFrame st st2 touch2 :=
  ⟨h.1, h.2.1, fun x a hl hnx => h.2.2 x a hl (hsub x hnx)⟩

theorem stepFrame_widen_present {st st2 : ClientState}
    {touch touch2 : List String} (h : StepFrame st st2 touch)
    (hsub : ∀ x, st.graph.hasNode x = true → x ∉ touch2 → x ∉ touch) :
    StepFrame st st2 touch2 :=
  ⟨h.1, h.2.1, fun x a hl hnx =>
    h.2.2 x a hl (hsub x (hasNode_of_lookup_some hl) hnx)⟩

/-- Frame of the `_get_network` body: only the fetched company (and, via
nested recursion, the root) can have an existing attribute dictionary
rewritten. -/
theorem client_get_network_body_frame
    (next : CrawlCall → ClientState → ClientState × Option PyErr)
    (reg : Registry) (company_id : String) (k : Nat) (st : ClientState)
    (hnext : ∀ call s, StepFrame s (next call s).1 (callTouch s call)) :
    StepFrame st (client_get_network_body next reg company_id k st).1
      (company_id :: rootTouch st) := by
  unfold client_get_network_body
  cases hd : get_company_data reg company_id
      st.cfg.exclude_non_active_companies with
  | none => exact stepFrame_refl st _
  | some company_data =>
    cases hcat : get_company_category company_id with
    | error e => exact stepFrame_refl st _
    | ok category =>
      dsimp only
      set st1 : ClientState :=
        { st with graph := st.graph.addNode company_id (some
          { name := company_data.companyName, bipartite := 0,
            kind := "company", isPerson := false,
            category := some category,
            data := some (.companyInfo ⟨company_data, none, none⟩) }) }
        with hst1
      have frame1 : StepFrame st st1 (company_id :: rootTouch st) := by
        refine ⟨⟨rfl, rfl, rfl⟩, ?_, ?_⟩
        · intro x hx
          exact hasNode_addNode_mono hx
        · intro x a hl hnx
          have hxc : x ≠ company_id := fun hxe =>
            hnx (hxe ▸ List.mem_cons_self company_id (rootTouch st))
          rw [hst1]
          dsimp only
          rw [lookup_addNode_ne _ _ _ _ hxc]
          exact hl
      have hsub1 : ∀ x, x ∉ (company_id :: rootTouch st) →
          x ∉ callTouch st1 (.includeOfficers company_id k) := by
        intro x hx
        unfold callTouch
        rw [rootTouch_congr (show st1.root_id = st.root_id from rfl)]
        exact hx
      have hsub2 : ∀ s2 : ClientState, s2.root_id = st.root_id →
          ∀ x, x ∉ (company_id :: rootTouch st) →
          x ∉ callTouch s2 (.includeControllers company_id k) := by
        intro s2 hs2 x hx
        unfold callTouch
        rw [rootTouch_congr hs2]
        exact hx
      by_cases hio : st.cfg.include_officers && company_data.hasOfficersLink
      · rw [if_pos hio]
        have f2 := hnext (.includeOfficers company_id k) st1
        cases hs2 : next (.includeOfficers company_id k) st1 with
        | mk st2 err2 =>
          rw [hs2] at f2
          have frame12 : StepFrame st st2 (company_id :: rootTouch st) :=
            stepFrame_trans frame1 f2 hsub1
          cases err2 with
          | some e => exact frame12
          | none =>
            dsimp only
            by_cases hic : st2.cfg.include_significant_controllers
            · rw [if_pos hic]
              have f3 := hnext (.includeControllers company_id k) st2
              exact stepFrame_trans frame12 f3
                (hsub2 st2 (f2.1.2.1.trans rfl))
            · rw [if_neg hic]
              exact frame12
      · rw [if_neg hio]
        dsimp only
        by_cases hic : st1.cfg.include_significant_controllers
        · rw [if_pos hic]
          have f3 := hnext (.includeControllers company_id k) st1
          exact stepFrame_trans frame1 f3 (hsub2 st1 rfl)
        · rw [if_neg hic]
          exact frame1

/-- Frame, monotonicity and stability of every crawl step. -/
theorem client_step_frame (reg : Registry) : ∀ (fuel : Nat) (call : CrawlCall)
    (st : ClientState),
    StepFrame st (client_step fuel reg call st).1 (callTouch st call) := by
  intro fuel
  induction fuel with
  | zero =>
    intro call st
    exact stepFrame_refl st _
  | succ n ih =>
    intro call st
    cases call with
    | getNetworkAux cid k =>
      simp only [client_step]
      cases cid with
      | none =>
        cases hr : st.root_id with
        | none => exact stepFrame_refl st _
        | some r =>
          dsimp only
          by_cases hre : r = ""
          · rw [if_pos hre]
            exact stepFrame_refl st _
          · rw [if_neg hre]
            apply stepFrame_widen
              (client_get_network_body_frame (client_step n reg) reg r k st
                (fun call s => ih call s))
            intro x hx hmem
            rcases List.mem_cons.mp hmem with h1 | h1
            · apply hx
              unfold callTouch rootTouch
              rw [hr, h1]
              simp
            · exact hx (by
                unfold callTouch
                exact List.mem_append.mpr (Or.inr h1))
      | some c =>
        by_cases hc : c = ""
        · rw [hc]
          dsimp only
          cases hr : st.root_id with
          | none => exact stepFrame_refl st _
          | some r =>
            have hresr : (if ("" : String) = "" then some r
                else some ("" : String)) = some r := if_pos rfl
            rw [hresr]
            dsimp only
            by_cases hre : r = ""
            · rw [if_pos hre]
              exact stepFrame_refl st _
            · rw [if_neg hre]
              apply stepFrame_widen
                (client_get_network_body_frame (client_step n reg) reg r k st
                  (fun call s => ih call s))
              intro x hx hmem
              rcases List.mem_cons.mp hmem with h1 | h1
              · apply hx
                unfold callTouch rootTouch
                rw [hr, h1]
                simp
              · exact hx (by
                  unfold callTouch
                  exact List.mem_append.mpr (Or.inr h1))
        · have hres : (if c = "" then st.root_id else some c) = some c :=
            if_neg hc
          dsimp only
          rw [hres]
          dsimp only
          rw [if_neg hc]
          apply stepFrame_widen
            (client_get_network_body_frame (client_step n reg) reg c k st
              (fun call s => ih call s))
          intro x hx hmem
          rcases List.mem_cons.mp hmem with h1 | h1
          · apply hx
            unfold callTouch
            rw [h1]
            simp
          · exact hx (by
              unfold callTouch
              exact List.mem_append.mpr (Or.inr h1))
    | includeOfficers c k =>
      simp only [client_step]
      set st1 : ClientState :=
        { st with graph := setInfoOfficers st.graph c (reg.officers c) }
        with hst1
      have frame1 : StepFrame st st1 (callTouch st (.includeOfficers c k)) := by
        refine ⟨⟨rfl, rfl, rfl⟩, ?_, ?_⟩
        · intro x hx
          rw [hst1]
          dsimp only
          rw [hasNode_setInfoOfficers]
          exact hx
        · intro x a hl hnx
          have hxc : x ≠ c := fun hxe => hnx (by
            rw [hxe]
            unfold callTouch
            exact List.mem_cons_self c (rootTouch st))
          rw [hst1]
          dsimp only
          rw [lookup_setInfoOfficers_ne hxc]
          exact hl
      have f2 := ih (.officersLoop
        (get_company_officers reg c st.cfg.exclude_resigned_board_members
          (reg.officers c)) c k) st1
      apply stepFrame_trans frame1 f2
      intro x hx
      unfold callTouch
      rw [rootTouch_congr (show st1.root_id = st.root_id from rfl)]
      exact hx
    | officersLoop offs c k =>
      cases offs with
      | nil =>
        exact stepFrame_refl st _
      | cons head rest =>
        obtain ⟨oid, od⟩ := head
        simp only [client_step]
        have f1 := ih (.addPersonEdgeBranch oid c (.officer od) k) st
        cases hs1 : client_step n reg
            (.addPersonEdgeBranch oid c (.officer od) k) st with
        | mk st2 err2 =>
          rw [hs1] at f1
          have frame1 : StepFrame st st2 (callTouch st (.officersLoop
              ((oid, od) :: rest) c k)) := by
            apply stepFrame_widen f1
            intro x hx
            unfold callTouch
            intro hmem
            apply hx
            unfold callTouch
            exact List.mem_cons_of_mem c hmem
          cases err2 with
          | some e => exact frame1
          | none =>
            have f2 := ih (.officersLoop rest c k) st2
            apply stepFrame_trans frame1 f2
            intro x hx
            unfold callTouch
            rw [rootTouch_congr f1.1.2.1]
            exact hx
    | includeControllers c k =>
      simp only [client_step]
      set st1 : ClientState :=
        { st with graph := setInfoControllers st.graph c (reg.controllers c) }
        with hst1
      have frame1 : StepFrame st st1
          (callTouch st (.includeControllers c k)) := by
        refine ⟨⟨rfl, rfl, rfl⟩, ?_, ?_⟩
        · intro x hx
          rw [hst1]
          dsimp only
          rw [hasNode_setInfoControllers]
          exact hx
        · intro x a hl hnx
          have hxc : x ≠ c := fun hxe => hnx (by
            rw [hxe]
            unfold callTouch
            exact List.mem_cons_self c (rootTouch st))
          rw [hst1]
          dsimp only
          rw [lookup_setInfoControllers_ne hxc]
          exact hl
      have f2 := ih (.controllersLoop
        (get_significant_controllers reg c (reg.controllers c)
          st.cfg.exclude_ceased_controllers) c k) st1
      apply stepFrame_trans frame1 f2
      intro x hx
      unfold callTouch
      rw [rootTouch_congr (show st1.root_id = st.root_id from rfl)]
      exact hx
    | controllersLoop ctls c k =>
      cases ctls with
      | nil =>
        exact stepFrame_refl st _
      | cons head rest =>
        obtain ⟨tid, td⟩ := head
        simp only [client_step]
        have f1 := ih (.addPersonEdgeBranch tid c (.controller td) k) st
        cases hs1 : client_step n reg
            (.addPersonEdgeBranch tid c (.controller td) k) st with
        | mk st2 err2 =>
          rw [hs1] at f1
          have frame1 : StepFrame st st2 (callTouch st (.controllersLoop
              ((tid, td) :: rest) c k)) := by
            apply stepFrame_widen f1
            intro x hx
            unfold callTouch
            intro hmem
            apply hx
            unfold callTouch
            exact List.mem_cons_of_mem c hmem
          cases err2 with
          | some e => exact frame1
          | none =>
            have f2 := ih (.controllersLoop rest c k) st2
            apply stepFrame_trans frame1 f2
            intro x hx
            unfold callTouch
            rw [rootTouch_congr f1.1.2.1]
            exact hx
    | addPersonEdgeBranch p c d k =>
      simp only [client_step]
      by_cases hp : st.graph.hasNode p
      · rw [if_pos hp]
        have frame2 : StepFrame st
            { st with graph := st.graph.addEdge c p (some d) }
            (callTouch st (.addPersonEdgeBranch p c d k)) := by
          refine ⟨⟨rfl, rfl, rfl⟩, ?_, ?_⟩
          · intro x hx
            exact hasNode_addEdge_mono hx
          · intro x a hl _
            exact lookup_addEdge_present hl
        by_cases hk : k < st.cfg.branches
        · rw [if_pos hk]
          have f3 := ih (.getNetworkBranches p k)
            { st with graph := st.graph.addEdge c p (some d) }
          apply stepFrame_trans frame2 f3
          intro x hx
          unfold callTouch
          exact hx
        · rw [if_neg hk]
          by_cases hk2 : k > st.cfg.branches
          · rw [if_pos hk2]
            exact frame2
          · rw [if_neg hk2]
            exact frame2
      · rw [if_neg hp]
        cases d with
        | officer od =>
          set st1 : ClientState :=
            client_add_officer reg p c (.officer od) st with hst1
          have frame1 : StepFrame st st1
              (callTouch st (.addPersonEdgeBranch p c (.officer od) k)) := by
            refine ⟨add_officer_cfg reg p c (.officer od) st, ?_, ?_⟩
            · intro x hx
              exact add_officer_hasNode_mono reg p c (.officer od) st x hx
            · intro x a hl _
              have hxp : x ≠ p := by
                intro hxe
                rw [← hxe] at hp
                exact hp (hasNode_of_lookup_some hl)
              rw [hst1, add_officer_lookup_ne reg p c (.officer od) st x hxp]
              exact hl
          have frame2 : StepFrame st1
              { st1 with graph := st1.graph.addEdge c p (some (.officer od)) }
              (callTouch st (.addPersonEdgeBranch p c (.officer od) k)) := by
            refine ⟨⟨rfl, rfl, rfl⟩, ?_, ?_⟩
            · intro x hx
              exact hasNode_addEdge_mono hx
            · intro x a hl _
              exact lookup_addEdge_present hl
          have frame12 := stepFrame_trans frame1 frame2 (fun x hx => hx)
          by_cases hk : k < st1.cfg.branches
          · rw [if_pos hk]
            have f3 := ih (.getNetworkBranches p k)
              { st1 with graph := st1.graph.addEdge c p (some (.officer od)) }
            apply stepFrame_trans frame12 f3
            intro x hx
            unfold callTouch
            have hroot2 : ({ st1 with
                graph := st1.graph.addEdge c p (some (.officer od)) } :
                ClientState).root_id = st.root_id :=
              (add_officer_cfg reg p c (.officer od) st).2.1
            rw [rootTouch_congr hroot2]
            exact hx
          · rw [if_neg hk]
            by_cases hk2 : k > st1.cfg.branches
            · rw [if_pos hk2]
              exact frame12
            · rw [if_neg hk2]
              exact frame12
        | controller td =>
          set st1 : ClientState :=
            client_add_controller reg p c td st with hst1
          have frame1 : StepFrame st st1
              (callTouch st (.addPersonEdgeBranch p c (.controller td) k)) := by
            refine ⟨add_controller_cfg reg p c td st, ?_, ?_⟩
            · intro x hx
              exact add_controller_hasNode_mono reg p c td st x hx
            · intro x a hl _
              have hxp : x ≠ p := by
                intro hxe
                rw [← hxe] at hp
                exact hp (hasNode_of_lookup_some hl)
              rw [hst1, add_controller_lookup_ne reg p c td st x hxp]
              exact hl
          have frame2 : StepFrame st1
              { st1 with
                graph := st1.graph.addEdge c p (some (.controller td)) }
              (callTouch st (.addPersonEdgeBranch p c (.controller td) k)) := by
            refine ⟨⟨rfl, rfl, rfl⟩, ?_, ?_⟩
            · intro x hx
              exact hasNode_addEdge_mono hx
            · intro x a hl _
              exact lookup_addEdge_present hl
          have frame12 := stepFrame_trans frame1 frame2 (fun x hx => hx)
          by_cases hk : k < st1.cfg.branches
          · rw [if_pos hk]
            have f3 := ih (.getNetworkBranches p k)
              { st1 with
                graph := st1.graph.addEdge c p (some (.controller td)) }
            apply stepFrame_trans frame12 f3
            intro x hx
            unfold callTouch
            have hroot2 : ({ st1 with
                graph := st1.graph.addEdge c p (some (.controller td)) } :
                ClientState).root_id = st.root_id :=
              (add_controller_cfg reg p c td st).2.1
            rw [rootTouch_congr hroot2]
            exact hx
          · rw [if_neg hk]
            by_cases hk2 : k > st1.cfg.branches
            · rw [if_pos hk2]
              exact frame12
            · rw [if_neg hk2]
              exact frame12
    | getNetworkBranches p k =>
      simp only [client_step]
      cases hl : st.cache.lookup p with
      | none => exact stepFrame_refl st _
      | some inner =>
        have f1 := ih (.branchesLoop (inner.map Prod.fst) p k) st
        apply stepFrame_widen f1
        intro x hx
        unfold callTouch
        exact hx
    | branchesLoop rels p k =>
      cases rels with
      | nil => exact stepFrame_refl st _
      | cons rid rest =>
        simp only [client_step]
        by_cases hrid : st.graph.hasNode rid
        · rw [if_pos hrid]
          have f1 := ih (.branchesLoop rest p k) st
          apply stepFrame_widen f1
          intro x hx
          unfold callTouch
          exact hx
        · rw [if_neg hrid]
          have f1 := ih (.getNetworkAux (some rid) (k + 1)) st
          cases hs1 : client_step n reg (.getNetworkAux (some rid) (k + 1))
              st with
          | mk st2 err2 =>
            rw [hs1] at f1
            have frame1 : StepFrame st st2
                (callTouch st (.branchesLoop (rid :: rest) p k)) := by
              apply stepFrame_widen_present f1
              intro x hxnode hx hmem
              unfold callTouch at hmem
              rcases List.mem_append.mp hmem with h1 | h1
              · rw [List.mem_singleton] at h1
                rw [h1] at hxnode
                exact hrid hxnode
              · exact hx h1
            cases err2 with
            | some e => exact frame1
            | none =>
              have frame2 : StepFrame st2
                  (if st2.cfg.enforce_missing_ties then
                    { st2 with graph := st2.graph.addEdge p rid none }
                  else st2)
                  (callTouch st (.branchesLoop (rid :: rest) p k)) := by
                by_cases he : st2.cfg.enforce_missing_ties
                · rw [if_pos he]
                  refine ⟨⟨rfl, rfl, rfl⟩, ?_, ?_⟩
                  · intro x hx
                    exact hasNode_addEdge_mono hx
                  · intro x a hl2 _
                    exact lookup_addEdge_present hl2
                · rw [if_neg he]
                  exact stepFrame_refl st2 _
              have frame12 := stepFrame_trans frame1 frame2 (fun x hx => hx)
              set st3 : ClientState := if st2.cfg.enforce_missing_ties then
                  { st2 with graph := st2.graph.addEdge p rid none }
                else st2 with hst3
              have hroot3 : st3.root_id = st.root_id := by
                rw [hst3]
                by_cases he : st2.cfg.enforce_missing_ties
                · rw [if_pos he]
                  exact f1.1.2.1
                · rw [if_neg he]
                  exact f1.1.2.1
              have f3 := ih (.branchesLoop rest p k) st3
              apply stepFrame_trans frame12 f3
              intro x hx
              unfold callTouch
              rw [rootTouch_congr hroot3]
              intro hmem
              apply hx
              unfold callTouch
              exact hmem
section MoreGraphLemmas

variable {κ α ε : Type} [BEq κ] [LawfulBEq κ]

theorem mem_nodes_ensureNode_absent {g : NxGraph κ α ε} {y : κ}
    {p : κ × Option α} (hp : p ∈ (g.ensureNode y).nodes) :
    p ∈ g.nodes ∨ (p = (y, none) ∧ g.hasNode y = false) := by
  unfold NxGraph.ensureNode at hp
  by_cases h : g.hasNode y
  · rw [if_pos h] at hp
    exact Or.inl hp
  · rw [if_neg h] at hp
    rcases List.mem_append.mp hp with h1 | h1
    · exact Or.inl h1
    · refine Or.inr ⟨List.mem_singleton.mp h1, ?_⟩
      rw [Bool.not_eq_true] at h
      exact h

theorem mem_nodes_addEdge_absent {g : NxGraph κ α ε} {u v : κ} {d : ε}
    {p : κ × Option α} (hp : p ∈ (g.addEdge u v d).nodes) :
    p ∈ g.nodes ∨ (p = (u, none) ∧ g.hasNode u = false) ∨
      (p = (v, none) ∧ g.hasNode v = false) := by
  rw [nodes_addEdge] at hp
  rcases mem_nodes_ensureNode_absent hp with hp2 | ⟨hpe, hpn⟩
  · rcases mem_nodes_ensureNode_absent hp2 with hp3 | hp3
    · exact Or.inl hp3
    · exact Or.inr (Or.inl hp3)
  · refine Or.inr (Or.inr ⟨hpe, ?_⟩)
    by_cases hv : g.hasNode v
    · exact absurd (hasNode_ensureNode_mono hv) (by rw [hpn]; exact fun h => by cases h)
    · rw [Bool.not_eq_true] at hv
      exact hv

theorem hasNode_addEdge_eq (g : NxGraph κ α ε) (u v x : κ) (d : ε) :
    (g.addEdge u v d).hasNode x = ((g.ensureNode u).ensureNode v).hasNode x := by
  unfold NxGraph.hasNode
  rw [nodes_addEdge]

theorem hasNode_addEdge_left (g : NxGraph κ α ε) (u v : κ) (d : ε) :
    (g.addEdge u v d).hasNode u = true := by
  rw [hasNode_addEdge_eq]
  exact hasNode_ensureNode_mono (hasNode_ensureNode_self g u)

theorem hasNode_addEdge_right (g : NxGraph κ α ε) (u v : κ) (d : ε) :
    (g.addEdge u v d).hasNode v = true := by
  rw [hasNode_addEdge_eq]
  exact hasNode_ensureNode_self _ v

theorem mem_of_lookup_list {β : Type} {l : List (κ × β)} {k : κ} {v : β}
    (h : l.lookup k = some v) : (k, v) ∈ l := by
  induction l with
  | nil => cases h
  | cons pr rest ih =>
    obtain ⟨a, b⟩ := pr
    by_cases hk : k == a
    · have hka : k = a := by simpa using hk
      simp only [List.lookup, hk] at h
      cases h
      rw [hka]
      exact List.mem_cons_self _ _
    · have hk2 : (k == a) = false := by
        rw [Bool.not_eq_true] at hk
        exact hk
      simp only [List.lookup, hk2] at h
      exact List.mem_cons_of_mem _ (ih h)

end MoreGraphLemmas

/-- Node discipline under a company/person labelling of ids (`side x = true`
for organisation ids): an attributed node's `bipartite` value matches its
side, and an attribute-less node (an auto-created `add_edge` endpoint) is a
company-side id that only `enforce_missing_ties` can produce. -/
def NodeOk (enforce : Bool) (side : String → Bool)
    (p : String × Option CompanyNodeAttrs) : Prop :=
  match p.2 with
  | none => enforce = true ∧ side p.1 = true
  | some a => (side p.1 = true ∧ a.bipartite = 0) ∨
      (side p.1 = false ∧ a.bipartite = 1)

/-- Edge discipline: ordinary edges run company-to-person; only
`enforce_missing_ties` writes the reversed person-to-company ties. -/
def EdgeOk (enforce : Bool) (side : String → Bool)
    (e : String × String × Option PersonRec) : Prop :=
  (side e.1 = true ∧ side e.2.1 = false) ∨
    (enforce = true ∧ side e.1 = false ∧ side e.2.1 = true)

/-- The full graph invariant: sided nodes and edges, every edge endpoint
stored as a node, and unique node ids. -/
def GraphSides (enforce : Bool) (side : String → Bool) (g : CompanyGraph) :
    Prop :=
  (∀ p ∈ g.nodes, NodeOk enforce side p) ∧
  (∀ e ∈ g.edges, EdgeOk enforce side e) ∧
  (∀ e ∈ g.edges, g.hasNode e.1 = true ∧ g.hasNode e.2.1 = true) ∧
  (g.nodes.map Prod.fst).Nodup

/-- Every company number in the appointments cache is company-side. -/
def CacheSides (side : String → Bool)
    (cache : List (String × List (String × Appointment))) : Prop :=
  ∀ pr ∈ cache, ∀ q ∈ pr.2, side q.1 = true

/-- The client-state invariant: sided graph and cache, company-side root. -/
def StateSides (side : String → Bool) (st : ClientState) : Prop :=
  GraphSides st.cfg.enforce_missing_ties side st.graph ∧
  CacheSides side st.cache ∧
  (∀ r, st.root_id = some r → side r = true)

/-- The transport respects the labelling: officer and controller listing
entries parse to person-side ids, appointment entries name company-side
company numbers. -/
def RegistrySides (reg : Registry) (side : String → Bool) : Prop :=
  (∀ c od, reg.officers c = some od →
    ∀ o ∈ od.items, side (splitIdx o.appointmentsLink 2) = false) ∧
  (∀ c cd, reg.controllers c = some cd →
    ∀ ct ∈ cd.items, side (splitLast ct.selfLink) = false) ∧
  (∀ p ad items, reg.appointments p = some ad → ad.items = some items →
    ∀ a ∈ items, side a.companyNumber = true)

/-- The labelling preconditions each crawl call carries: company arguments
are company-side and already stored, loop items are person-side (officer /
controller listings) or company-side (cached related companies). -/
def CallSides (side : String → Bool) (st : ClientState) : CrawlCall → Prop
  | .getNetworkAux cid _ => ∀ c, cid = some c → c ≠ "" → side c = true
  | .includeOfficers c _ => side c = true ∧ st.graph.hasNode c = true
  | .officersLoop offs c _ => side c = true ∧ st.graph.hasNode c = true ∧
      ∀ pr ∈ offs, side pr.1 = false
  | .includeControllers c _ => side c = true ∧ st.graph.hasNode c = true
  | .controllersLoop ctls c _ => side c = true ∧ st.graph.hasNode c = true ∧
      ∀ pr ∈ ctls, side pr.1 = false
  | .addPersonEdgeBranch p c _ _ =>
      side p = false ∧ side c = true ∧ st.graph.hasNode c = true
  | .getNetworkBranches p _ => side p = false ∧ st.graph.hasNode p = true
  | .branchesLoop rels p _ => side p = false ∧ st.graph.hasNode p = true ∧
      ∀ x ∈ rels, side x = true

theorem nodeOk_of_bipKind {enforce : Bool} {side : String → Bool}
    {p q : String × Option CompanyNodeAttrs} (h : NodeOk enforce side q)
    (h1 : p.1 = q.1) (h2 : bipKind p.2 = bipKind q.2) :
    NodeOk enforce side p := by
  unfold NodeOk at h ⊢
  cases hp : p.2 with
  | none =>
    cases hq : q.2 with
    | none =>
      rw [hq] at h
      exact ⟨h.1, h1 ▸ h.2⟩
    | some b =>
      rw [hp, hq] at h2
      cases h2
  | some a =>
    cases hq : q.2 with
    | none =>
      rw [hp, hq] at h2
      cases h2
    | some b =>
      rw [hp, hq] at h2
      have h3 : (some (a.bipartite, a.kind) : Option (Nat × String)) =
          some (b.bipartite, b.kind) := h2
      have hbip : a.bipartite = b.bipartite :=
        congrArg Prod.fst (Option.some.inj h3)
      rw [hq] at h
      rcases h with ⟨hs, hb⟩ | ⟨hs, hb⟩
      · exact Or.inl ⟨h1 ▸ hs, hbip ▸ hb⟩
      · exact Or.inr ⟨h1 ▸ hs, hbip ▸ hb⟩

theorem edgeOk_of_ends {enforce : Bool} {side : String → Bool}
    {e e0 : String × String × Option PersonRec} (h : EdgeOk enforce side e0)
    (h1 : e.1 = e0.1) (h2 : e.2.1 = e0.2.1) : EdgeOk enforce side e := by
  unfold EdgeOk at h ⊢
  rw [h1, h2]
  exact h

theorem graphSides_addNode {enforce : Bool} {side : String → Bool}
    {g : CompanyGraph} (hg : GraphSides enforce side g) (y : String)
    (A : CompanyNodeAttrs)
    (hA : (side y = true ∧ A.bipartite = 0) ∨
      (side y = false ∧ A.bipartite = 1)) :
    GraphSides enforce side (g.addNode y (some A)) := by
  refine ⟨?_, ?_, ?_, nodup_keys_addNode hg.2.2.2⟩
  · intro p hp
    rcases mem_nodes_addNode hp with ⟨h1, h2⟩ | ⟨h1, _⟩
    · unfold NodeOk
      rw [h2]
      rcases hA with ⟨hs, hb⟩ | ⟨hs, hb⟩
      · exact Or.inl ⟨h1 ▸ hs, hb⟩
      · exact Or.inr ⟨h1 ▸ hs, hb⟩
    · exact hg.1 p h1
  · intro e he
    rw [edges_addNode] at he
    exact hg.2.1 e he
  · intro e he
    rw [edges_addNode] at he
    obtain ⟨hu, hv⟩ := hg.2.2.1 e he
    exact ⟨hasNode_addNode_mono hu, hasNode_addNode_mono hv⟩

theorem graphSides_setInfoOfficers {enforce : Bool} {side : String → Bool}
    {g : CompanyGraph} (hg : GraphSides enforce side g) (c : String)
    (od : Option OfficersData) :
    GraphSides enforce side (setInfoOfficers g c od) := by
  refine ⟨?_, ?_, ?_, ?_⟩
  · intro p hp
    obtain ⟨q, hq, h1, h2⟩ := mem_nodes_setInfoOfficers hp
    exact nodeOk_of_bipKind (hg.1 q hq) h1 h2
  · intro e he
    rw [edges_setInfoOfficers] at he
    exact hg.2.1 e he
  · intro e he
    rw [edges_setInfoOfficers] at he
    obtain ⟨hu, hv⟩ := hg.2.2.1 e he
    rw [hasNode_setInfoOfficers, hasNode_setInfoOfficers]
    exact ⟨hu, hv⟩
  · rw [keys_setInfoOfficers]
    exact hg.2.2.2

theorem graphSides_setInfoControllers {enforce : Bool} {side : String → Bool}
    {g : CompanyGraph} (hg : GraphSides enforce side g) (c : String)
    (cd : Option ControllersData) :
    GraphSides enforce side (setInfoControllers g c cd) := by
  refine ⟨?_, ?_, ?_, ?_⟩
  · intro p hp
    obtain ⟨q, hq, h1, h2⟩ := mem_nodes_setInfoControllers hp
    exact nodeOk_of_bipKind (hg.1 q hq) h1 h2
  · intro e he
    rw [edges_setInfoControllers] at he
    exact hg.2.1 e he
  · intro e he
    rw [edges_setInfoControllers] at he
    obtain ⟨hu, hv⟩ := hg.2.2.1 e he
    rw [hasNode_setInfoControllers, hasNode_setInfoControllers]
    exact ⟨hu, hv⟩
  · rw [keys_setInfoControllers]
    exact hg.2.2.2

theorem graphSides_addEdge {enforce : Bool} {side : String → Bool}
    {g : CompanyGraph} (hg : GraphSides enforce side g) {u v : String}
    (d : Option PersonRec) (hE : EdgeOk enforce side (u, v, d))
    (hu : g.hasNode u = true)
    (hv : g.hasNode v = false → enforce = true ∧ side v = true) :
    GraphSides enforce side (g.addEdge u v d) := by
  refine ⟨?_, ?_, ?_, nodup_keys_addEdge hg.2.2.2⟩
  · intro p hp
    rcases mem_nodes_addEdge_absent hp with h1 | ⟨h1, h2⟩ | ⟨h1, h2⟩
    · exact hg.1 p h1
    · rw [h2] at hu
      cases hu
    · obtain ⟨he, hs⟩ := hv h2
      unfold NodeOk
      rw [h1]
      exact ⟨he, hs⟩
  · intro e he
    rcases mem_edges_addEdge he with ⟨e0, he0, h1, h2⟩ | ⟨h1, h2⟩
    · exact edgeOk_of_ends (hg.2.1 e0 he0) h1 h2
    · exact edgeOk_of_ends hE h1 h2
  · intro e he
    rcases mem_edges_addEdge he with ⟨e0, he0, h1, h2⟩ | ⟨h1, h2⟩
    · obtain ⟨hu0, hv0⟩ := hg.2.2.1 e0 he0
      rw [h1, h2]
      exact ⟨hasNode_addEdge_mono hu0, hasNode_addEdge_mono hv0⟩
    · rw [h1, h2]
      exact ⟨hasNode_addEdge_left g u v d, hasNode_addEdge_right g u v d⟩

theorem get_company_officers_person {reg : Registry} {side : String → Bool}
    (hreg : RegistrySides reg side) (c : String) (ex : Bool) :
    ∀ pr ∈ get_company_officers reg c ex (reg.officers c),
      side pr.1 = false := by
  intro pr hpr
  unfold get_company_officers at hpr
  cases ho : reg.officers c with
  | none =>
    rw [ho] at hpr
    exact absurd hpr (List.not_mem_nil pr)
  | some od =>
    rw [ho] at hpr
    have hpr2 : pr ∈ od.items.filterMap (fun officer =>
        if ex && is_inactive officer.dates
            COMPANIES_HOUSE_RESIGNATION_KEYWORD reg.today then none
        else some (splitIdx officer.appointmentsLink 2, officer)) := hpr
    rw [List.mem_filterMap] at hpr2
    obtain ⟨o, ho2, hoe⟩ := hpr2
    by_cases hskip : ex && is_inactive o.dates
        COMPANIES_HOUSE_RESIGNATION_KEYWORD reg.today
    · rw [if_pos hskip] at hoe
      cases hoe
    · rw [if_neg hskip] at hoe
      cases hoe
      exact hreg.1 c od ho o ho2

theorem get_significant_controllers_person {reg : Registry}
    {side : String → Bool} (hreg : RegistrySides reg side) (c : String)
    (ex : Bool) :
    ∀ pr ∈ get_significant_controllers reg c (reg.controllers c) ex,
      side pr.1 = false := by
  intro pr hpr
  unfold get_significant_controllers at hpr
  cases hc : reg.controllers c with
  | none =>
    rw [hc] at hpr
    exact absurd hpr (List.not_mem_nil pr)
  | some cd =>
    rw [hc] at hpr
    have hpr2 : pr ∈ cd.items.filterMap (fun controller =>
        if ex then none
        else some (splitLast controller.selfLink, controller)) := hpr
    rw [List.mem_filterMap] at hpr2
    obtain ⟨ct, hc2, hce⟩ := hpr2
    by_cases hskip : ex
    · rw [if_pos hskip] at hce
      cases hce
    · rw [if_neg hskip] at hce
      cases hce
      exact hreg.2.1 c cd hc ct hc2
theorem nodeOk_some {enforce : Bool} {side : String → Bool}
    {q : String × Option CompanyNodeAttrs} {A : CompanyNodeAttrs}
    (hq : q.2 = some A)
    (h : (side q.1 = true ∧ A.bipartite = 0) ∨
      (side q.1 = false ∧ A.bipartite = 1)) : NodeOk enforce side q := by
  obtain ⟨q1, q2⟩ := q
  dsimp only at hq
  subst hq
  exact h

/-- The `_get_network` body preserves the labelling invariant when its
company argument is company-side. -/
theorem client_get_network_body_sides
    (next : CrawlCall → ClientState → ClientState × Option PyErr)
    (reg : Registry) (side : String → Bool)
    (hnextF : ∀ call s, StepFrame s (next call s).1 (callTouch s call))
    (hnextS : ∀ call s, StateSides side s → CallSides side s call →
      StateSides side (next call s).1)
    (company_id : String) (hc : side company_id = true) (k : Nat)
    (st : ClientState) (hst : StateSides side st) :
    StateSides side (client_get_network_body next reg company_id k st).1 := by
  unfold client_get_network_body
  cases hd : get_company_data reg company_id
      st.cfg.exclude_non_active_companies with
  | none => exact hst
  | some company_data =>
    cases hcat : get_company_category company_id with
    | error e => exact hst
    | ok category =>
      dsimp only
      set st1 : ClientState :=
        { st with graph := st.graph.addNode company_id (some
          { name := company_data.companyName, bipartite := 0,
            kind := "company", isPerson := false,
            category := some category,
            data := some (.companyInfo ⟨company_data, none, none⟩) }) }
        with hst1
      have hst1S : StateSides side st1 :=
        ⟨graphSides_addNode hst.1 company_id _ (Or.inl ⟨hc, rfl⟩),
          hst.2.1, hst.2.2⟩
      have hhn1 : st1.graph.hasNode company_id = true :=
        hasNode_addNode_self _ _ _
      by_cases hio : st.cfg.include_officers && company_data.hasOfficersLink
      · rw [if_pos hio]
        have hS2 := hnextS (.includeOfficers company_id k) st1 hst1S
          ⟨hc, hhn1⟩
        have hF2 := hnextF (.includeOfficers company_id k) st1
        cases hs2 : next (.includeOfficers company_id k) st1 with
        | mk st2 err2 =>
          rw [hs2] at hS2 hF2
          cases err2 with
          | some e => exact hS2
          | none =>
            dsimp only
            by_cases hic : st2.cfg.include_significant_controllers
            · rw [if_pos hic]
              exact hnextS (.includeControllers company_id k) st2 hS2
                ⟨hc, hF2.2.1 company_id hhn1⟩
            · rw [if_neg hic]
              exact hS2
      · rw [if_neg hio]
        dsimp only
        by_cases hic : st1.cfg.include_significant_controllers
        · rw [if_pos hic]
          exact hnextS (.includeControllers company_id k) st1 hst1S
            ⟨hc, hhn1⟩
        · rw [if_neg hic]
          exact hst1S

/-- Every crawl step preserves the labelling invariant: under a transport
whose listings respect the company/person sides, each graph or cache
mutation keeps nodes, edges and cache entries correctly sided. -/
theorem client_step_sides (reg : Registry) (side : String → Bool)
    (hreg : RegistrySides reg side) : ∀ (fuel : Nat) (call : CrawlCall)
    (st : ClientState), StateSides side st → CallSides side st call →
    StateSides side (client_step fuel reg call st).1 := by
  intro fuel
  induction fuel with
  | zero =>
    intro call st hst _
    exact hst
  | succ n ih =>
    intro call st hst hcall
    cases call with
    | getNetworkAux cid k =>
      simp only [client_step]
      cases cid with
      | none =>
        cases hr : st.root_id with
        | none => exact hst
        | some r =>
          dsimp only
          by_cases hre : r = ""
          · rw [if_pos hre]
            exact hst
          · rw [if_neg hre]
            exact client_get_network_body_sides (client_step n reg) reg side
              (fun call s => client_step_frame reg n call s)
              (fun call s h1 h2 => ih call s h1 h2) r (hst.2.2 r hr) k st hst
      | some c =>
        by_cases hc : c = ""
        · rw [hc]
          dsimp only
          cases hr : st.root_id with
          | none => exact hst
          | some r =>
            have hresr : (if ("" : String) = "" then some r
                else some ("" : String)) = some r := if_pos rfl
            rw [hresr]
            dsimp only
            by_cases hre : r = ""
            · rw [if_pos hre]
              exact hst
            · rw [if_neg hre]
              exact client_get_network_body_sides (client_step n reg) reg side
                (fun call s => client_step_frame reg n call s)
                (fun call s h1 h2 => ih call s h1 h2) r (hst.2.2 r hr) k st hst
        · have hres : (if c = "" then st.root_id else some c) = some c :=
            if_neg hc
          dsimp only
          rw [hres]
          dsimp only
          rw [if_neg hc]
          exact client_get_network_body_sides (client_step n reg) reg side
            (fun call s => client_step_frame reg n call s)
            (fun call s h1 h2 => ih call s h1 h2) c (hcall c rfl hc) k st hst
    | includeOfficers c k =>
      simp only [client_step]
      set st1 : ClientState :=
        { st with graph := setInfoOfficers st.graph c (reg.officers c) }
        with hst1
      have hst1S : StateSides side st1 :=
        ⟨graphSides_setInfoOfficers hst.1 c (reg.officers c),
          hst.2.1, hst.2.2⟩
      refine ih (.officersLoop
        (get_company_officers reg c st.cfg.exclude_resigned_board_members
          (reg.officers c)) c k) st1 hst1S ⟨hcall.1, ?_, ?_⟩
      · rw [hst1]
        dsimp only
        rw [hasNode_setInfoOfficers]
        exact hcall.2
      · exact get_company_officers_person hreg c _
    | officersLoop offs c k =>
      cases offs with
      | nil => exact hst
      | cons head rest =>
        obtain ⟨oid, od⟩ := head
        simp only [client_step]
        have hS1 := ih (.addPersonEdgeBranch oid c (.officer od) k) st hst
          ⟨hcall.2.2 (oid, od) (List.mem_cons_self _ _), hcall.1, hcall.2.1⟩
        have hF1 := client_step_frame reg n
          (.addPersonEdgeBranch oid c (.officer od) k) st
        cases hs1 : client_step n reg
            (.addPersonEdgeBranch oid c (.officer od) k) st with
        | mk st2 err2 =>
          rw [hs1] at hS1 hF1
          cases err2 with
          | some e => exact hS1
          | none =>
            exact ih (.officersLoop rest c k) st2 hS1
              ⟨hcall.1, hF1.2.1 c hcall.2.1,
                fun pr hpr => hcall.2.2 pr (List.mem_cons_of_mem _ hpr)⟩
    | includeControllers c k =>
      simp only [client_step]
      set st1 : ClientState :=
        { st with graph := setInfoControllers st.graph c (reg.controllers c) }
        with hst1
      have hst1S : StateSides side st1 :=
        ⟨graphSides_setInfoControllers hst.1 c (reg.controllers c),
          hst.2.1, hst.2.2⟩
      refine ih (.controllersLoop
        (get_significant_controllers reg c (reg.controllers c)
          st.cfg.exclude_ceased_controllers) c k) st1 hst1S
        ⟨hcall.1, ?_, ?_⟩
      · rw [hst1]
        dsimp only
        rw [hasNode_setInfoControllers]
        exact hcall.2
      · exact get_significant_controllers_person hreg c _
    | controllersLoop ctls c k =>
      cases ctls with
      | nil => exact hst
      | cons head rest =>
        obtain ⟨tid, td⟩ := head
        simp only [client_step]
        have hS1 := ih (.addPersonEdgeBranch tid c (.controller td) k) st hst
          ⟨hcall.2.2 (tid, td) (List.mem_cons_self _ _), hcall.1, hcall.2.1⟩
        have hF1 := client_step_frame reg n
          (.addPersonEdgeBranch tid c (.controller td) k) st
        cases hs1 : client_step n reg
            (.addPersonEdgeBranch tid c (.controller td) k) st with
        | mk st2 err2 =>
          rw [hs1] at hS1 hF1
          cases err2 with
          | some e => exact hS1
          | none =>
            exact ih (.controllersLoop rest c k) st2 hS1
              ⟨hcall.1, hF1.2.1 c hcall.2.1,
                fun pr hpr => hcall.2.2 pr (List.mem_cons_of_mem _ hpr)⟩
    | addPersonEdgeBranch p c d k =>
      simp only [client_step]
      obtain ⟨hps, hcs, hcn⟩ := hcall
      by_cases hp : st.graph.hasNode p
      · rw [if_pos hp]
        have hS2 : StateSides side
            { st with graph := st.graph.addEdge c p (some d) } := by
          refine ⟨?_, hst.2.1, hst.2.2⟩
          refine graphSides_addEdge hst.1 (some d) (Or.inl ⟨hcs, hps⟩) hcn ?_
          intro habs
          rw [hp] at habs
          cases habs
        by_cases hk : k < st.cfg.branches
        · rw [if_pos hk]
          exact ih (.getNetworkBranches p k)
            { st with graph := st.graph.addEdge c p (some d) } hS2
            ⟨hps, hasNode_addEdge_mono hp⟩
        · rw [if_neg hk]
          by_cases hk2 : k > st.cfg.branches
          · rw [if_pos hk2]
            exact hS2
          · rw [if_neg hk2]
            exact hS2
      · rw [if_neg hp]
        cases d with
        | officer od =>
          set st1 : ClientState :=
            client_add_officer reg p c (.officer od) st with hst1
          have hcfg1 : st1.cfg = st.cfg :=
            (add_officer_cfg reg p c (.officer od) st).1
          have hroot1 : st1.root_id = st.root_id :=
            (add_officer_cfg reg p c (.officer od) st).2.1
          have hG1 : GraphSides st1.cfg.enforce_missing_ties side
              st1.graph := by
            rw [hcfg1]
            refine ⟨?_, ?_, ?_, add_officer_nodup reg p c (.officer od) st
              hst.1.2.2.2⟩
            · intro q hq
              rcases add_officer_mem_nodes reg p c (.officer od) st q hq with
                ⟨h1, _⟩ | ⟨h1, A, h2, h3, _⟩
              · exact hst.1.1 q h1
              · exact nodeOk_some h2 (Or.inr ⟨h1 ▸ hps, h3⟩)
            · intro e he
              rw [add_officer_edges] at he
              exact hst.1.2.1 e he
            · intro e he
              rw [add_officer_edges] at he
              obtain ⟨hu, hv⟩ := hst.1.2.2.1 e he
              exact ⟨add_officer_hasNode_mono reg p c (.officer od) st _ hu,
                add_officer_hasNode_mono reg p c (.officer od) st _ hv⟩
          have hC1 : CacheSides side st1.cache := by
            intro pr hpr
            rcases add_officer_cache_mem reg p c (.officer od) st pr hpr with
              h1 | ⟨ad, items, ha, hi, hall⟩
            · exact hst.2.1 pr h1
            · intro q hq
              obtain ⟨a, hain, hqa⟩ := hall q hq
              have := hreg.2.2 p ad items ha hi a hain
              rw [hqa]
              exact this
          have hS1 : StateSides side st1 :=
            ⟨hG1, hC1, fun r hr => hst.2.2 r (hroot1 ▸ hr)⟩
          have hpn1 : st1.graph.hasNode p = true :=
            add_officer_hasNode_self reg p c (.officer od) st
          have hcn1 : st1.graph.hasNode c = true :=
            add_officer_hasNode_mono reg p c (.officer od) st c hcn
          have hS2 : StateSides side { st1 with
              graph := st1.graph.addEdge c p (some (.officer od)) } := by
            refine ⟨?_, hS1.2.1, hS1.2.2⟩
            refine graphSides_addEdge hS1.1 (some (.officer od))
              (Or.inl ⟨hcs, hps⟩) hcn1 ?_
            intro habs
            rw [hpn1] at habs
            cases habs
          by_cases hk : k < st1.cfg.branches
          · rw [if_pos hk]
            exact ih (.getNetworkBranches p k)
              { st1 with graph := st1.graph.addEdge c p (some (.officer od)) }
              hS2 ⟨hps, hasNode_addEdge_mono hpn1⟩
          · rw [if_neg hk]
            by_cases hk2 : k > st1.cfg.branches
            · rw [if_pos hk2]
              exact hS2
            · rw [if_neg hk2]
              exact hS2
        | controller td =>
          set st1 : ClientState :=
            client_add_controller reg p c td st with hst1
          have hG1 : GraphSides st1.cfg.enforce_missing_ties side
              st1.graph := by
            refine ⟨?_, ?_, ?_, add_controller_nodup reg p c td st
              hst.1.2.2.2⟩
            · intro q hq
              rcases add_controller_mem_nodes reg p c td st q hq with
                ⟨h1, _⟩ | ⟨h1, A, h2, h3, _⟩
              · exact hst.1.1 q h1
              · exact nodeOk_some h2 (Or.inr ⟨h1 ▸ hps, h3⟩)
            · intro e he
              rw [add_controller_edges] at he
              exact hst.1.2.1 e he
            · intro e he
              rw [add_controller_edges] at he
              obtain ⟨hu, hv⟩ := hst.1.2.2.1 e he
              exact ⟨add_controller_hasNode_mono reg p c td st _ hu,
                add_controller_hasNode_mono reg p c td st _ hv⟩
          have hS1 : StateSides side st1 :=
            ⟨hG1, hst.2.1, hst.2.2⟩
          have hpn1 : st1.graph.hasNode p = true :=
            add_controller_hasNode_self reg p c td st
          have hcn1 : st1.graph.hasNode c = true :=
            add_controller_hasNode_mono reg p c td st c hcn
          have hS2 : StateSides side { st1 with
              graph := st1.graph.addEdge c p (some (.controller td)) } := by
            refine ⟨?_, hS1.2.1, hS1.2.2⟩
            refine graphSides_addEdge hS1.1 (some (.controller td))
              (Or.inl ⟨hcs, hps⟩) hcn1 ?_
            intro habs
            rw [hpn1] at habs
            cases habs
          by_cases hk : k < st1.cfg.branches
          · rw [if_pos hk]
            exact ih (.getNetworkBranches p k)
              { st1 with
                graph := st1.graph.addEdge c p (some (.controller td)) }
              hS2 ⟨hps, hasNode_addEdge_mono hpn1⟩
          · rw [if_neg hk]
            by_cases hk2 : k > st1.cfg.branches
            · rw [if_pos hk2]
              exact hS2
            · rw [if_neg hk2]
              exact hS2
    | getNetworkBranches p k =>
      simp only [client_step]
      cases hl : st.cache.lookup p with
      | none => exact hst
      | some inner =>
        refine ih (.branchesLoop (inner.map Prod.fst) p k) st hst
          ⟨hcall.1, hcall.2, ?_⟩
        intro x hx
        rw [List.mem_map] at hx
        obtain ⟨q, hq, hqx⟩ := hx
        exact hqx ▸ hst.2.1 (p, inner) (mem_of_lookup_list hl) q hq
    | branchesLoop rels p k =>
      cases rels with
      | nil => exact hst
      | cons rid rest =>
        simp only [client_step]
        obtain ⟨hps, hpn, hrels⟩ := hcall
        by_cases hrid : st.graph.hasNode rid
        · rw [if_pos hrid]
          exact ih (.branchesLoop rest p k) st hst
            ⟨hps, hpn, fun x hx => hrels x (List.mem_cons_of_mem _ hx)⟩
        · rw [if_neg hrid]
          have hS1 := ih (.getNetworkAux (some rid) (k + 1)) st hst
            (fun cc hcc _ => by
              cases hcc
              exact hrels rid (List.mem_cons_self _ _))
          have hF1 := client_step_frame reg n
            (.getNetworkAux (some rid) (k + 1)) st
          cases hs1 : client_step n reg (.getNetworkAux (some rid) (k + 1))
              st with
          | mk st2 err2 =>
            rw [hs1] at hS1 hF1
            cases err2 with
            | some e => exact hS1
            | none =>
              have hpn2 : st2.graph.hasNode p = true := hF1.2.1 p hpn
              have hsrid : side rid = true :=
                hrels rid (List.mem_cons_self _ _)
              set st3 : ClientState := if st2.cfg.enforce_missing_ties then
                  { st2 with graph := st2.graph.addEdge p rid none }
                else st2 with hst3
              have hS3 : StateSides side st3 := by
                rw [hst3]
                by_cases he : st2.cfg.enforce_missing_ties
                · rw [if_pos he]
                  refine ⟨?_, hS1.2.1, hS1.2.2⟩
                  refine graphSides_addEdge hS1.1 none
                    (Or.inr ⟨he, hps, hsrid⟩) hpn2 ?_
                  intro _
                  exact ⟨he, hsrid⟩
                · rw [if_neg he]
                  exact hS1
              have hpn3 : st3.graph.hasNode p = true := by
                rw [hst3]
                by_cases he : st2.cfg.enforce_missing_ties
                · rw [if_pos he]
                  exact hasNode_addEdge_mono hpn2
                · rw [if_neg he]
                  exact hpn2
              exact ih (.branchesLoop rest p k) st3 hS3
                ⟨hps, hpn3, fun x hx => hrels x (List.mem_cons_of_mem _ hx)⟩
/-- Node-id uniqueness of the client's graph, on its own (independent of any
labelling hypothesis on the transport). -/
def NodupKeys (st : ClientState) : Prop :=
  (st.graph.nodes.map Prod.fst).Nodup

theorem client_get_network_body_nodup
    (next : CrawlCall → ClientState → ClientState × Option PyErr)
    (reg : Registry) (company_id : String) (k : Nat) (st : ClientState)
    (hnext : ∀ call s, NodupKeys s → NodupKeys (next call s).1)
    (hst : NodupKeys st) :
    NodupKeys (client_get_network_body next reg company_id k st).1 := by
  unfold client_get_network_body
  cases hd : get_company_data reg company_id
      st.cfg.exclude_non_active_companies with
  | none => exact hst
  | some company_data =>
    cases hcat : get_company_category company_id with
    | error e => exact hst
    | ok category =>
      dsimp only
      set st1 : ClientState :=
        { st with graph := st.graph.addNode company_id (some
          { name := company_data.companyName, bipartite := 0,
            kind := "company", isPerson := false,
            category := some category,
            data := some (.companyInfo ⟨company_data, none, none⟩) }) }
        with hst1
      have hst1N : NodupKeys st1 := nodup_keys_addNode hst
      by_cases hio : st.cfg.include_officers && company_data.hasOfficersLink
      · rw [if_pos hio]
        have hN2 := hnext (.includeOfficers company_id k) st1 hst1N
        cases hs2 : next (.includeOfficers company_id k) st1 with
        | mk st2 err2 =>
          rw [hs2] at hN2
          cases err2 with
          | some e => exact hN2
          | none =>
            dsimp only
            by_cases hic : st2.cfg.include_significant_controllers
            · rw [if_pos hic]
              exact hnext (.includeControllers company_id k) st2 hN2
            · rw [if_neg hic]
              exact hN2
      · rw [if_neg hio]
        dsimp only
        by_cases hic : st1.cfg.include_significant_controllers
        · rw [if_pos hic]
          exact hnext (.includeControllers company_id k) st1 hst1N
        · rw [if_neg hic]
          exact hst1N

/-- Every crawl step keeps node ids unique: `add_node` updates in place,
`add_edge` only auto-creates endpoints that are absent. -/
theorem client_step_nodup (reg : Registry) : ∀ (fuel : Nat)
    (call : CrawlCall) (st : ClientState), NodupKeys st →
    NodupKeys (client_step fuel reg call st).1 := by
  intro fuel
  induction fuel with
  | zero =>
    intro call st hst
    exact hst
  | succ n ih =>
    intro call st hst
    cases call with
    | getNetworkAux cid k =>
      simp only [client_step]
      cases cid with
      | none =>
        cases hr : st.root_id with
        | none => exact hst
        | some r =>
          dsimp only
          by_cases hre : r = ""
          · rw [if_pos hre]
            exact hst
          · rw [if_neg hre]
            exact client_get_network_body_nodup (client_step n reg) reg r k st
              (fun call s h => ih call s h) hst
      | some c =>
        by_cases hc : c = ""
        · rw [hc]
          dsimp only
          cases hr : st.root_id with
          | none => exact hst
          | some r =>
            have hresr : (if ("" : String) = "" then some r
                else some ("" : String)) = some r := if_pos rfl
            rw [hresr]
            dsimp only
            by_cases hre : r = ""
            · rw [if_pos hre]
              exact hst
            · rw [if_neg hre]
              exact client_get_network_body_nodup (client_step n reg) reg r k
                st (fun call s h => ih call s h) hst
        · have hres : (if c = "" then st.root_id else some c) = some c :=
            if_neg hc
          dsimp only
          rw [hres]
          dsimp only
          rw [if_neg hc]
          exact client_get_network_body_nodup (client_step n reg) reg c k st
            (fun call s h => ih call s h) hst
    | includeOfficers c k =>
      simp only [client_step]
      refine ih (.officersLoop
        (get_company_officers reg c st.cfg.exclude_resigned_board_members
          (reg.officers c)) c k)
        { st with graph := setInfoOfficers st.graph c (reg.officers c) } ?_
      show ((setInfoOfficers st.graph c (reg.officers c)).nodes.map
        Prod.fst).Nodup
      rw [keys_setInfoOfficers]
      exact hst
    | officersLoop offs c k =>
      cases offs with
      | nil => exact hst
      | cons head rest =>
        obtain ⟨oid, od⟩ := head
        simp only [client_step]
        have hN1 := ih (.addPersonEdgeBranch oid c (.officer od) k) st hst
        cases hs1 : client_step n reg
            (.addPersonEdgeBranch oid c (.officer od) k) st with
        | mk st2 err2 =>
          rw [hs1] at hN1
          cases err2 with
          | some e => exact hN1
          | none => exact ih (.officersLoop rest c k) st2 hN1
    | includeControllers c k =>
      simp only [client_step]
      refine ih (.controllersLoop
        (get_significant_controllers reg c (reg.controllers c)
          st.cfg.exclude_ceased_controllers) c k)
        { st with graph := setInfoControllers st.graph c (reg.controllers c) }
        ?_
      show ((setInfoControllers st.graph c (reg.controllers c)).nodes.map
        Prod.fst).Nodup
      rw [keys_setInfoControllers]
      exact hst
    | controllersLoop ctls c k =>
      cases ctls with
      | nil => exact hst
      | cons head rest =>
        obtain ⟨tid, td⟩ := head
        simp only [client_step]
        have hN1 := ih (.addPersonEdgeBranch tid c (.controller td) k) st hst
        cases hs1 : client_step n reg
            (.addPersonEdgeBranch tid c (.controller td) k) st with
        | mk st2 err2 =>
          rw [hs1] at hN1
          cases err2 with
          | some e => exact hN1
          | none => exact ih (.controllersLoop rest c k) st2 hN1
    | addPersonEdgeBranch p c d k =>
      simp only [client_step]
      by_cases hp : st.graph.hasNode p
      · rw [if_pos hp]
        have hN2 : NodupKeys
            { st with graph := st.graph.addEdge c p (some d) } :=
          nodup_keys_addEdge hst
        by_cases hk : k < st.cfg.branches
        · rw [if_pos hk]
          exact ih (.getNetworkBranches p k)
            { st with graph := st.graph.addEdge c p (some d) } hN2
        · rw [if_neg hk]
          by_cases hk2 : k > st.cfg.branches
          · rw [if_pos hk2]
            exact hN2
          · rw [if_neg hk2]
            exact hN2
      · rw [if_neg hp]
        cases d with
        | officer od =>
          set st1 : ClientState :=
            client_add_officer reg p c (.officer od) st with hst1
          have hN1 : NodupKeys st1 :=
            add_officer_nodup reg p c (.officer od) st hst
          have hN2 : NodupKeys { st1 with
              graph := st1.graph.addEdge c p (some (.officer od)) } :=
            nodup_keys_addEdge hN1
          by_cases hk : k < st1.cfg.branches
          · rw [if_pos hk]
            exact ih (.getNetworkBranches p k)
              { st1 with graph := st1.graph.addEdge c p (some (.officer od)) }
              hN2
          · rw [if_neg hk]
            by_cases hk2 : k > st1.cfg.branches
            · rw [if_pos hk2]
              exact hN2
            · rw [if_neg hk2]
              exact hN2
        | controller td =>
          set st1 : ClientState :=
            client_add_controller reg p c td st with hst1
          have hN1 : NodupKeys st1 :=
            add_controller_nodup reg p c td st hst
          have hN2 : NodupKeys { st1 with
              graph := st1.graph.addEdge c p (some (.controller td)) } :=
            nodup_keys_addEdge hN1
          by_cases hk : k < st1.cfg.branches
          · rw [if_pos hk]
            exact ih (.getNetworkBranches p k)
              { st1 with
                graph := st1.graph.addEdge c p (some (.controller td)) } hN2
          · rw [if_neg hk]
            by_cases hk2 : k > st1.cfg.branches
            · rw [if_pos hk2]
              exact hN2
            · rw [if_neg hk2]
              exact hN2
    | getNetworkBranches p k =>
      simp only [client_step]
      cases hl : st.cache.lookup p with
      | none => exact hst
      | some inner =>
        exact ih (.branchesLoop (inner.map Prod.fst) p k) st hst
    | branchesLoop rels p k =>
      cases rels with
      | nil => exact hst
      | cons rid rest =>
        simp only [client_step]
        by_cases hrid : st.graph.hasNode rid
        · rw [if_pos hrid]
          exact ih (.branchesLoop rest p k) st hst
        · rw [if_neg hrid]
          have hN1 := ih (.getNetworkAux (some rid) (k + 1)) st hst
          cases hs1 : client_step n reg (.getNetworkAux (some rid) (k + 1))
              st with
          | mk st2 err2 =>
            rw [hs1] at hN1
            cases err2 with
            | some e => exact hN1
            | none =>
              set st3 : ClientState := if st2.cfg.enforce_missing_ties then
                  { st2 with graph := st2.graph.addEdge p rid none }
                else st2 with hst3
              have hN3 : NodupKeys st3 := by
                rw [hst3]
                by_cases he : st2.cfg.enforce_missing_ties
                · rw [if_pos he]
                  exact nodup_keys_addEdge hN1
                · rw [if_neg he]
                  exact hN1
              exact ih (.branchesLoop rest p k) st3 hN3
theorem graphSides_empty (enforce : Bool) (side : String → Bool) :
    GraphSides enforce side (NxGraph.empty : CompanyGraph) := by
  refine ⟨?_, ?_, ?_, ?_⟩
  · intro p hp
    exact absurd hp (List.not_mem_nil p)
  · intro e he
    exact absurd he (List.not_mem_nil e)
  · intro e he
    exact absurd he (List.not_mem_nil e)
  · exact List.nodup_nil

theorem stateSides_init (side : String → Bool) (cfg : ClientConfig) :
    StateSides side (init_client cfg) := by
  refine ⟨graphSides_empty _ side, ?_, ?_⟩
  · intro pr hpr
    exact absurd hpr (List.not_mem_nil pr)
  · intro r hr
    cases hr

theorem client_get_network_run_sides (fuel : Nat) (reg : Registry)
    (side : String → Bool) (hreg : RegistrySides reg side)
    (st3 : ClientState) (hS3 : StateSides side st3) :
    StateSides side
      ((match client_get_network_aux fuel reg none 0 st3 with
        | (st, some e) => (st, Except.error e)
        | (st, none) =>
          match get_kinds_ids_dict st.graph COMPANY_NETWORK_KINDS with
          | .error e => (st, .error e)
          | .ok _ => (st, .ok st.graph)) :
        ClientState × Except PyErr CompanyGraph).1 := by
  have h5 : StateSides side (client_get_network_aux fuel reg none 0 st3).1 :=
    client_step_sides reg side hreg fuel (.getNetworkAux none 0) st3 hS3
      (fun c hc => by cases hc)
  cases hs : client_get_network_aux fuel reg none 0 st3 with
  | mk s4 err =>
    rw [hs] at h5
    cases err with
    | some e => exact h5
    | none =>
      dsimp only
      cases get_kinds_ids_dict s4.graph COMPANY_NETWORK_KINDS with
      | error e2 => exact h5
      | ok l => exact h5

theorem client_get_network_run_nodup (fuel : Nat) (reg : Registry)
    (st3 : ClientState) (hN3 : NodupKeys st3) :
    NodupKeys
      ((match client_get_network_aux fuel reg none 0 st3 with
        | (st, some e) => (st, Except.error e)
        | (st, none) =>
          match get_kinds_ids_dict st.graph COMPANY_NETWORK_KINDS with
          | .error e => (st, .error e)
          | .ok _ => (st, .ok st.graph)) :
        ClientState × Except PyErr CompanyGraph).1 := by
  have h5 : NodupKeys (client_get_network_aux fuel reg none 0 st3).1 :=
    client_step_nodup reg fuel (.getNetworkAux none 0) st3 hN3
  cases hs : client_get_network_aux fuel reg none 0 st3 with
  | mk s4 err =>
    rw [hs] at h5
    cases err with
    | some e => exact h5
    | none =>
      dsimp only
      cases get_kinds_ids_dict s4.graph COMPANY_NETWORK_KINDS with
      | error e2 => exact h5
      | ok l => exact h5

theorem client_get_network_run_frame (fuel : Nat) (reg : Registry)
    (st3 : ClientState) :
    StepFrame st3
      ((match client_get_network_aux fuel reg none 0 st3 with
        | (st, some e) => (st, Except.error e)
        | (st, none) =>
          match get_kinds_ids_dict st.graph COMPANY_NETWORK_KINDS with
          | .error e => (st, .error e)
          | .ok _ => (st, .ok st.graph)) :
        ClientState × Except PyErr CompanyGraph).1
      (callTouch st3 (.getNetworkAux none 0)) := by
  have h5 : StepFrame st3 (client_get_network_aux fuel reg none 0 st3).1
      (callTouch st3 (.getNetworkAux none 0)) :=
    client_step_frame reg fuel (.getNetworkAux none 0) st3
  cases hs : client_get_network_aux fuel reg none 0 st3 with
  | mk s4 err =>
    rw [hs] at h5
    cases err with
    | some e => exact h5
    | none =>
      dsimp only
      cases get_kinds_ids_dict s4.graph COMPANY_NETWORK_KINDS with
      | error e2 => exact h5
      | ok l => exact h5

/-- `get_network` preserves the labelling invariant when the requested root
normalizes to a company-side id. -/
theorem client_get_network_sides (fuel : Nat) (reg : Registry)
    (side : String → Bool) (hreg : RegistrySides reg side) (root_id : String)
    (st : ClientState)
    (hroot : side (stringify_company_id (.str root_id)) = true)
    (hst : StateSides side st) :
    StateSides side (client_get_network fuel reg root_id st).1 := by
  unfold client_get_network
  by_cases hcond : st.cfg.reset_cache || st.graph.nodes.isEmpty ||
      st.cfg.compose_queried_networks
  · rw [if_pos hcond]
    dsimp only
    refine client_get_network_run_sides fuel reg side hreg _ ?_
    by_cases hb : !st.cfg.compose_queried_networks || st.cfg.reset_cache
    · rw [if_pos hb]
      refine ⟨graphSides_empty _ side, ?_, ?_⟩
      · intro pr hpr
        exact absurd hpr (List.not_mem_nil pr)
      · intro r hr
        have h2 : some (stringify_company_id (.str root_id)) = some r := hr
        cases h2
        exact hroot
    · rw [if_neg hb]
      refine ⟨hst.1, hst.2.1, ?_⟩
      intro r hr
      have h2 : some (stringify_company_id (.str root_id)) = some r := hr
      cases h2
      exact hroot
  · rw [if_neg hcond]
    exact hst

/-- `get_network` keeps node ids unique. -/
theorem client_get_network_nodup (fuel : Nat) (reg : Registry)
    (root_id : String) (st : ClientState) (hst : NodupKeys st) :
    NodupKeys (client_get_network fuel reg root_id st).1 := by
  unfold client_get_network
  by_cases hcond : st.cfg.reset_cache || st.graph.nodes.isEmpty ||
      st.cfg.compose_queried_networks
  · rw [if_pos hcond]
    dsimp only
    refine client_get_network_run_nodup fuel reg _ ?_
    by_cases hb : !st.cfg.compose_queried_networks || st.cfg.reset_cache
    · rw [if_pos hb]
      exact List.nodup_nil
    · rw [if_neg hb]
      exact hst
  · rw [if_neg hcond]
    exact hst

/-- `get_network` never changes the configuration. -/
theorem client_get_network_cfg (fuel : Nat) (reg : Registry)
    (root_id : String) (st : ClientState) :
    (client_get_network fuel reg root_id st).1.cfg = st.cfg := by
  unfold client_get_network
  by_cases hcond : st.cfg.reset_cache || st.graph.nodes.isEmpty ||
      st.cfg.compose_queried_networks
  · rw [if_pos hcond]
    dsimp only
    by_cases hb : !st.cfg.compose_queried_networks || st.cfg.reset_cache
    · rw [if_pos hb]
      exact (client_get_network_run_frame fuel reg _).1.1
    · rw [if_neg hb]
      exact (client_get_network_run_frame fuel reg _).1.1
  · rw [if_neg hcond]

/-- On a composing, non-resetting client, `get_network` removes no node and
rewrites no stored attribute dictionary other than (possibly) the requested
root's. -/
theorem client_get_network_stable (fuel : Nat) (reg : Registry)
    (root_id : String) (st : ClientState)
    (hcompose : st.cfg.compose_queried_networks = true)
    (hreset : st.cfg.reset_cache = false) :
    (∀ x, st.graph.hasNode x = true →
      (client_get_network fuel reg root_id st).1.graph.hasNode x = true) ∧
    (∀ x a, st.graph.lookupNode x = some a →
      x ≠ stringify_company_id (.str root_id) →
      (client_get_network fuel reg root_id st).1.graph.lookupNode x =
        some a) := by
  unfold client_get_network
  have hcond : (st.cfg.reset_cache || st.graph.nodes.isEmpty ||
      st.cfg.compose_queried_networks) = true := by
    rw [hcompose, Bool.or_true]
  rw [if_pos hcond]
  dsimp only
  rw [hcompose, hreset]
  simp only [Bool.not_true, Bool.or_false]
  rw [if_neg Bool.false_ne_true]
  have hframe := client_get_network_run_frame fuel reg
    { { st with runs := st.runs ++ [stringify_company_id (.str root_id)] }
      with root_id := some (stringify_company_id (.str root_id)) }
  constructor
  · intro x hx
    exact hframe.2.1 x hx
  · intro x a hl hx
    refine hframe.2.2 x a hl ?_
    intro hmem
    have hmem2 : x ∈ ([] : List String) ++
        [stringify_company_id (.str root_id)] := hmem
    rw [List.nil_append, List.mem_singleton] at hmem2
    exact hx hmem2

/-- A sequence of `get_network` calls (the states traversed by
`networks_generator` / `get_composed_network` with a fixed configuration). -/
def run_sequence (fuel : Nat) (reg : Registry) (roots : List String)
    (st : ClientState) : ClientState :=
  roots.foldl (fun s r => (client_get_network fuel reg r s).1) st

theorem run_sequence_sides (fuel : Nat) (reg : Registry)
    (side : String → Bool) (hreg : RegistrySides reg side) :
    ∀ (roots : List String) (st : ClientState),
    (∀ r ∈ roots, side (stringify_company_id (.str r)) = true) →
    StateSides side st →
    StateSides side (run_sequence fuel reg roots st) := by
  intro roots
  induction roots with
  | nil =>
    intro st _ hst
    exact hst
  | cons r rest ih =>
    intro st hroots hst
    exact ih (client_get_network fuel reg r st).1
      (fun q hq => hroots q (List.mem_cons_of_mem r hq))
      (client_get_network_sides fuel reg side hreg r st
        (hroots r (List.mem_cons_self r rest)) hst)

theorem run_sequence_cfg (fuel : Nat) (reg : Registry) :
    ∀ (roots : List String) (st : ClientState),
    (run_sequence fuel reg roots st).cfg = st.cfg := by
  intro roots
  induction roots with
  | nil =>
    intro st
    rfl
  | cons r rest ih =>
    intro st
    exact (ih (client_get_network fuel reg r st).1).trans
      (client_get_network_cfg fuel reg r st)
/-- C1 (amended): under a transport whose listings respect a company/person
labelling of ids (officer and controller entries parse to person-side ids,
appointment entries carry company-side company numbers), crawls from
company-side roots with `enforce_missing_ties` disabled build graphs where
every node carries attributes with `bipartite = 0` or `1` and every
edge runs from a `bipartite=0` organisation node to a `bipartite=1`
person/entity node.  (With `enforce_missing_ties` enabled the original
claim fails: a forced tie can create an attribute-less endpoint.) -/
theorem claim_C1_amended (side : String → Bool) (reg : Registry)
    (hreg : RegistrySides reg side) (cfg : ClientConfig)
    (henf : cfg.enforce_missing_ties = false) (fuel : Nat)
    (roots : List String)
    (hroots : ∀ r ∈ roots, side (stringify_company_id (.str r)) = true) :
    (∀ p ∈ (run_sequence fuel reg roots (init_client cfg)).graph.nodes,
      ∃ a, p.2 = some a ∧ (a.bipartite = 0 ∨ a.bipartite = 1)) ∧
    (∀ e ∈ (run_sequence fuel reg roots (init_client cfg)).graph.edges,
      ∃ au av,
        (run_sequence fuel reg roots
          (init_client cfg)).graph.lookupNode e.1 = some (some au) ∧
        (run_sequence fuel reg roots
          (init_client cfg)).graph.lookupNode e.2.1 = some (some av) ∧
        au.bipartite = 0 ∧ av.bipartite = 1) := by
  have hS := run_sequence_sides fuel reg side hreg roots (init_client cfg)
    hroots (stateSides_init side cfg)
  have henf2 : (run_sequence fuel reg roots
      (init_client cfg)).cfg.enforce_missing_ties = false := by
    rw [run_sequence_cfg]
    exact henf
  have hG : GraphSides false side
      (run_sequence fuel reg roots (init_client cfg)).graph := by
    have h1 := hS.1
    rw [henf2] at h1
    exact h1
  constructor
  · intro p hp
    have hN := hG.1 p hp
    obtain ⟨p1, p2⟩ := p
    cases p2 with
    | none => exact Bool.noConfusion hN.1
    | some a =>
      rcases hN with ⟨_, hb⟩ | ⟨_, hb⟩
      · exact ⟨a, rfl, Or.inl hb⟩
      · exact ⟨a, rfl, Or.inr hb⟩
  · intro e he
    have hE := hG.2.1 e he
    have hE2 : side e.1 = true ∧ side e.2.1 = false := by
      rcases hE with h | h
      · exact h
      · exact Bool.noConfusion h.1
    obtain ⟨hu, hv⟩ := hG.2.2.1 e he
    obtain ⟨au0, hau⟩ := lookup_of_hasNode hu
    obtain ⟨av0, hav⟩ := lookup_of_hasNode hv
    have hNu := hG.1 (e.1, au0) (mem_of_lookup_some hau)
    have hNv := hG.1 (e.2.1, av0) (mem_of_lookup_some hav)
    cases au0 with
    | none => exact Bool.noConfusion hNu.1
    | some au =>
      cases av0 with
      | none => exact Bool.noConfusion hNv.1
      | some av =>
        rcases hNu with ⟨hs1, hb1⟩ | ⟨hs1, hb1⟩
        · rcases hNv with ⟨hs2, hb2⟩ | ⟨hs2, hb2⟩
          · rw [hE2.2] at hs2
            exact Bool.noConfusion hs2
          · exact ⟨au, av, hau, hav, hb1, hb2⟩
        · rw [hE2.1] at hs1
          exact Bool.noConfusion hs1

/-- The labelling for the C1 witness scenario: two company numbers are
company-side, everything else (the officer id `OFF1`) is person-side. -/
def c1w_side : String → Bool :=
  fun s => s == "00000001" || s == "00000002"

def c1w_config : ClientConfig :=
  ⟨1, false, true, true, false, false, false, false, false, false⟩

/-- Witness transport: company `00000001` has officer `OFF1`, whose
appointments also list company `00000002`, which is fetchable too — a
two-company, one-officer snowball with a branch hop. -/
def c1w_registry : Registry :=
  ⟨10,
    fun c =>
      if c = "00000001" then some ⟨"Org A", some "active", true⟩
      else if c = "00000002" then some ⟨"Org B", some "active", true⟩
      else none,
    fun c =>
      if c = "00000001" then
        some ⟨[⟨"Ms A", none, "/officers/OFF1/appointments"⟩]⟩
      else none,
    fun o =>
      if o = "OFF1" then
        some ⟨some [⟨"00000001", "Ms A", none⟩, ⟨"00000002", "Ms A", none⟩]⟩
      else none,
    fun _ => none,
    fun _ => none⟩

theorem c1w_registry_sides : RegistrySides c1w_registry c1w_side := by
  refine ⟨?_, ?_, ?_⟩
  · intro c od h
    by_cases hc : c = "00000001"
    · rw [show c1w_registry.officers c =
          (if c = "00000001" then
            some ⟨[⟨"Ms A", none, "/officers/OFF1/appointments"⟩]⟩
          else none) from rfl, if_pos hc] at h
      cases h
      intro o ho
      rw [List.mem_singleton] at ho
      subst ho
      decide
    · rw [show c1w_registry.officers c =
          (if c = "00000001" then
            some ⟨[⟨"Ms A", none, "/officers/OFF1/appointments"⟩]⟩
          else none) from rfl, if_neg hc] at h
      cases h
  · intro c cd h
    cases h
  · intro p ad items ha hi
    by_cases hp : p = "OFF1"
    · rw [show c1w_registry.appointments p =
          (if p = "OFF1" then
            some ⟨some [⟨"00000001", "Ms A", none⟩,
              ⟨"00000002", "Ms A", none⟩]⟩
          else none) from rfl, if_pos hp] at ha
      cases ha
      have hi2 : some [(⟨"00000001", "Ms A", none⟩ : Appointment),
          ⟨"00000002", "Ms A", none⟩] = some items := hi
      cases hi2
      intro a hain
      rcases List.mem_cons.mp hain with h1 | h1
      · subst h1
        decide
      · rw [List.mem_singleton] at h1
        subst h1
        decide
    · rw [show c1w_registry.appointments p =
          (if p = "OFF1" then
            some ⟨some [⟨"00000001", "Ms A", none⟩,
              ⟨"00000002", "Ms A", none⟩]⟩
          else none) from rfl, if_neg hp] at ha
      cases ha

/-- C1 amended, at a concrete two-company snowball: every hypothesis holds
and the resulting graph is attributed and bipartite in the labelled
sense. -/
theorem claim_C1_amended_witness :
    c1w_config.enforce_missing_ties = false ∧
    ((∀ p ∈ (run_sequence 20 c1w_registry ["1"]
        (init_client c1w_config)).graph.nodes,
      ∃ a, p.2 = some a ∧ (a.bipartite = 0 ∨ a.bipartite = 1)) ∧
    (∀ e ∈ (run_sequence 20 c1w_registry ["1"]
        (init_client c1w_config)).graph.edges,
      ∃ au av,
        (run_sequence 20 c1w_registry ["1"]
          (init_client c1w_config)).graph.lookupNode e.1 = some (some au) ∧
        (run_sequence 20 c1w_registry ["1"]
          (init_client c1w_config)).graph.lookupNode e.2.1 =
            some (some av) ∧
        au.bipartite = 0 ∧ av.bipartite = 1)) :=
  ⟨rfl, claim_C1_amended c1w_side c1w_registry c1w_registry_sides c1w_config
    rfl 20 ["1"] (by
      intro r hr
      rw [List.mem_singleton] at hr
      subst hr
      decide)⟩

/-- C4 (amended): node ids stay unique across any `get_network` call, and on
a composing, non-resetting client such a call removes no node and leaves
every stored attribute dictionary unchanged except (possibly) that of the
requested root — the root of a later composed run is the one id whose
attributes a re-insertion can rewrite (as the counterexample shows). -/
theorem claim_C4_amended (fuel : Nat) (reg : Registry) (root_id : String)
    (st : ClientState) (hnd : (st.graph.nodes.map Prod.fst).Nodup)
    (hcompose : st.cfg.compose_queried_networks = true)
    (hreset : st.cfg.reset_cache = false) :
    (((client_get_network fuel reg root_id st).1.graph.nodes.map
      Prod.fst).Nodup) ∧
    (∀ x, st.graph.hasNode x = true →
      (client_get_network fuel reg root_id st).1.graph.hasNode x = true) ∧
    (∀ x a, st.graph.lookupNode x = some a →
      x ≠ stringify_company_id (.str root_id) →
      (client_get_network fuel reg root_id st).1.graph.lookupNode x =
        some a) :=
  ⟨client_get_network_nodup fuel reg root_id st hnd,
    (client_get_network_stable fuel reg root_id st hcompose hreset).1,
    (client_get_network_stable fuel reg root_id st hcompose hreset).2⟩

def c4w_config : ClientConfig :=
  ⟨0, false, true, false, false, false, false, false, false, true⟩

/-- A composing client that has already accumulated one company node. -/
def c4w_state : ClientState :=
  { cfg := c4w_config, root_id := some "00000003",
    graph := ⟨[("00000003", some ⟨"Org C", 0, "company", false,
      some "England & Wales Company", none⟩)], []⟩,
    cache := [], runs := ["00000003"] }

/-- C4 amended at a concrete composed state: a further `get_network` call
keeps ids unique, keeps the old node, and leaves its attributes intact. -/
theorem claim_C4_amended_witness :
    (c4w_state.graph.nodes.map Prod.fst).Nodup ∧
    c4w_state.cfg.compose_queried_networks = true ∧
    c4w_state.cfg.reset_cache = false ∧
    ((((client_get_network 5 emptyRegistry "1" c4w_state).1.graph.nodes.map
      Prod.fst).Nodup) ∧
    (∀ x, c4w_state.graph.hasNode x = true →
      (client_get_network 5 emptyRegistry "1" c4w_state).1.graph.hasNode x =
        true) ∧
    (∀ x a, c4w_state.graph.lookupNode x = some a →
      x ≠ stringify_company_id (.str "1") →
      (client_get_network 5 emptyRegistry "1"
        c4w_state).1.graph.lookupNode x = some a)) :=
  ⟨by decide, rfl, rfl,
    claim_C4_amended 5 emptyRegistry "1" c4w_state (by decide) rfl rfl⟩
/-- `filter_active_board_members` (companies.py:1168-1177): collect the ids
of `bipartite == 1` nodes whose `data` record `is_inactive`, then drop them
together with their incident edges.  A node without attributes raises
`KeyError` at `data["bipartite"]`; a person node whose `data` attribute is
null raises `TypeError` inside `is_inactive` (`"resigned_on" in None`). -/
def filter_active_board_members (today : Nat) (g : CompanyGraph) :
    Except PyErr CompanyGraph :=
  let inactive : Except PyErr (List String) := g.nodes.foldl (fun acc p =>
    match acc with
    | .error e => .error e
    | .ok ids =>
      match p.2 with
      | none => .error .keyError
      | some a =>
        if a.bipartite = 1 then
          match a.data with
          | none => .error .typeError
          | some d =>
            if is_inactive d.dates COMPANIES_HOUSE_RESIGNATION_KEYWORD
                today then .ok (ids ++ [p.1])
            else .ok ids
        else .ok ids) (.ok [])
  match inactive with
  | .error e => .error e
  | .ok ids => .ok (g.removeNodesFrom ids)

def c3_config : ClientConfig :=
  ⟨0, false, true, false, false, false, false, false, false, false⟩

/-- Transport for the C3 counterexample: the officer listing of `00000001`
names `OFF1`, but the appointments sub-query for `OFF1` fails, so the
client stores the officer node with `data=None`. -/
def c3_registry : Registry :=
  ⟨10,
    fun c => if c = "00000001" then some ⟨"Org A", some "active", true⟩
      else none,
    fun c => if c = "00000001" then
        some ⟨[⟨"Mr X", none, "/officers/OFF1/appointments"⟩]⟩
      else none,
    fun _ => none,
    fun _ => none,
    fun _ => none⟩

/-- C3 is refuted as stated: on a client-produced graph whose person node
has `data=None` (a failed appointments sub-query — exactly the case the
claim includes), `filter_active_board_members` does not filter at all: it
raises `TypeError` from `is_inactive("resigned_on" in None)`. -/
theorem claim_C3_counterexample :
    (client_get_network 10 c3_registry "1"
        (init_client c3_config)).1.graph.lookupNode "OFF1" =
      some (some ⟨"Mr X", 1, "officer", true, none, none⟩) ∧
    filter_active_board_members 10
        (client_get_network 10 c3_registry "1"
          (init_client c3_config)).1.graph =
      .error .typeError := by
  refine ⟨by decide, by decide⟩

/-- The attribute discipline under which the filter cannot fault: every
node carries attributes, and person (`bipartite=1`) nodes carry a non-null
`data` record. -/
def node_data_ok (p : String × Option CompanyNodeAttrs) : Bool :=
  match p.2 with
  | none => false
  | some a => a.bipartite != 1 || a.data.isSome

/-- The id the filter's comprehension collects from one node, if any. -/
def inactive_pick (today : Nat) (p : String × Option CompanyNodeAttrs) :
    Option String :=
  match p.2 with
  | none => none
  | some a =>
    if a.bipartite = 1 then
      match a.data with
      | none => none
      | some d =>
        if is_inactive d.dates COMPANIES_HOUSE_RESIGNATION_KEYWORD today then
          some p.1
        else none
    else none

theorem inactive_pick_some {today : Nat}
    {p : String × Option CompanyNodeAttrs} {x : String}
    (h : inactive_pick today p = some x) :
    x = p.1 ∧ ∃ a, p.2 = some a ∧ a.bipartite = 1 ∧ ∃ d, a.data = some d ∧
      is_inactive d.dates COMPANIES_HOUSE_RESIGNATION_KEYWORD today =
        true := by
  obtain ⟨p1, p2⟩ := p
  cases p2 with
  | none => cases h
  | some a =>
    unfold inactive_pick at h
    dsimp only at h
    by_cases hbip : a.bipartite = 1
    · rw [if_pos hbip] at h
      cases hd : a.data with
      | none =>
        rw [hd] at h
        cases h
      | some d =>
        rw [hd] at h
        dsimp only at h
        by_cases hin : is_inactive d.dates
            COMPANIES_HOUSE_RESIGNATION_KEYWORD today
        · rw [if_pos hin] at h
          cases h
          exact ⟨rfl, a, rfl, hbip, d, hd, hin⟩
        · rw [if_neg hin] at h
          cases h
    · rw [if_neg hbip] at h
      cases h

theorem inactive_pick_of {today : Nat} {p : String × Option CompanyNodeAttrs}
    {a : CompanyNodeAttrs} {d : NodeData} (ha : p.2 = some a)
    (hbip : a.bipartite = 1) (hd : a.data = some d)
    (hin : is_inactive d.dates COMPANIES_HOUSE_RESIGNATION_KEYWORD today =
      true) : inactive_pick today p = some p.1 := by
  obtain ⟨p1, p2⟩ := p
  dsimp only at ha
  subst ha
  unfold inactive_pick
  dsimp only
  rw [if_pos hbip, hd]
  dsimp only
  rw [if_pos hin]

theorem filter_fold_ok (today : Nat) :
    ∀ (l : List (String × Option CompanyNodeAttrs)) (acc : List String),
    (∀ p ∈ l, node_data_ok p = true) →
    l.foldl (fun acc p =>
      match acc with
      | .error e => .error e
      | .ok ids =>
        match p.2 with
        | none => .error .keyError
        | some a =>
          if a.bipartite = 1 then
            match a.data with
            | none => .error .typeError
            | some d =>
              if is_inactive d.dates COMPANIES_HOUSE_RESIGNATION_KEYWORD
                  today then .ok (ids ++ [p.1])
              else .ok ids
          else .ok ids)
      (Except.ok acc : Except PyErr (List String)) =
      .ok (acc ++ l.filterMap (inactive_pick today)) := by
  intro l
  induction l with
  | nil =>
    intro acc _
    rw [List.foldl_nil, List.filterMap_nil, List.append_nil]
  | cons p rest ih =>
    intro acc hok
    obtain ⟨p1, p2⟩ := p
    rw [List.foldl_cons]
    have hokp := hok (p1, p2) (List.mem_cons_self _ _)
    cases p2 with
    | none => exact Bool.noConfusion (show false = true from hokp)
    | some a =>
      dsimp only
      have hpick : inactive_pick today (p1, some a) =
          (if a.bipartite = 1 then
            match a.data with
            | none => none
            | some d =>
              if is_inactive d.dates COMPANIES_HOUSE_RESIGNATION_KEYWORD
                  today then some p1
              else none
          else none) := rfl
      by_cases hbip : a.bipartite = 1
      · rw [if_pos hbip]
        cases hd : a.data with
        | none =>
          exfalso
          unfold node_data_ok at hokp
          dsimp only at hokp
          rw [hd] at hokp
          have h2 : (a.bipartite != 1) = true := by simpa using hokp
          rw [bne_iff_ne] at h2
          exact h2 hbip
        | some d =>
          dsimp only
          by_cases hin : is_inactive d.dates
              COMPANIES_HOUSE_RESIGNATION_KEYWORD today
          · rw [if_pos hin]
            rw [ih (acc ++ [p1])
              (fun q hq => hok q (List.mem_cons_of_mem _ hq))]
            have hpick2 : inactive_pick today (p1, some a) = some p1 := by
              rw [hpick, if_pos hbip, hd]
              dsimp only
              rw [if_pos hin]
            rw [List.filterMap_cons_some hpick2, List.append_assoc,
              List.singleton_append]
          · rw [if_neg hin]
            rw [ih acc (fun q hq => hok q (List.mem_cons_of_mem _ hq))]
            have hpick2 : inactive_pick today (p1, some a) = none := by
              rw [hpick, if_pos hbip, hd]
              dsimp only
              rw [if_neg hin]
            rw [List.filterMap_cons_none hpick2]
      · rw [if_neg hbip]
        rw [ih acc (fun q hq => hok q (List.mem_cons_of_mem _ hq))]
        have hpick2 : inactive_pick today (p1, some a) = none := by
          rw [hpick, if_neg hbip]
        rw [List.filterMap_cons_none hpick2]

theorem filter_active_board_members_ok (today : Nat) (g : CompanyGraph)
    (hattrs : ∀ p ∈ g.nodes, node_data_ok p = true) :
    filter_active_board_members today g =
      .ok (g.removeNodesFrom (g.nodes.filterMap (inactive_pick today))) := by
  unfold filter_active_board_members
  rw [filter_fold_ok today g.nodes [] hattrs]
  rw [List.nil_append]

theorem mem_removeNodesFrom {g : CompanyGraph} {ids : List String}
    {p : String × Option CompanyNodeAttrs} :
    p ∈ (g.removeNodesFrom ids).nodes ↔
      p ∈ g.nodes ∧ ids.contains p.1 = false := by
  unfold NxGraph.removeNodesFrom
  dsimp only
  rw [List.mem_filter]
  constructor
  · rintro ⟨h1, h2⟩
    refine ⟨h1, ?_⟩
    simpa using h2
  · rintro ⟨h1, h2⟩
    refine ⟨h1, ?_⟩
    simpa using h2

theorem contains_false_iff {l : List String} {x : String} :
    l.contains x = false ↔ x ∉ l := by
  constructor
  · intro h hmem
    have h2 : l.contains x = true := by
      rw [List.contains_eq_any_beq]
      rw [List.any_eq_true]
      exact ⟨x, hmem, by simp⟩
    rw [h] at h2
    cases h2
  · intro h
    by_contra h2
    have h3 : l.contains x = true := by
      cases hc : l.contains x
      · exact absurd hc h2
      · rfl
    rw [List.contains_eq_any_beq, List.any_eq_true] at h3
    obtain ⟨y, hy, hxy⟩ := h3
    have : x = y := by simpa using hxy
    exact h (this ▸ hy)

/-- C3 (amended): on graphs whose nodes all carry attributes and whose
person nodes carry a non-null `data` record (the discipline the filter
assumes), `filter_active_board_members` succeeds and removes exactly the
`bipartite=1` nodes whose record's resignation date is strictly before
today — in particular it never removes a `bipartite=0` organisation node.
(On the client graphs the original claim includes — person nodes with
`data=None` after a failed sub-query — the filter instead raises
`TypeError`, as the counterexample shows.) -/
theorem claim_C3_amended (today : Nat) (g : CompanyGraph)
    (hattrs : ∀ p ∈ g.nodes, node_data_ok p = true)
    (hnd : (g.nodes.map Prod.fst).Nodup) :
    ∃ g2, filter_active_board_members today g = .ok g2 ∧
      (∀ q ∈ g.nodes, (q ∈ g2.nodes ↔
        ¬ ∃ a, q.2 = some a ∧ a.bipartite = 1 ∧ ∃ d, a.data = some d ∧
          is_inactive d.dates COMPANIES_HOUSE_RESIGNATION_KEYWORD today =
            true)) ∧
      (∀ q ∈ g2.nodes, q ∈ g.nodes) := by
  refine ⟨_, filter_active_board_members_ok today g hattrs, ?_, ?_⟩
  · intro q hq
    rw [mem_removeNodesFrom]
    constructor
    · rintro ⟨_, hc⟩ ⟨a, ha, hbip, d, hd, hin⟩
      have hpick : inactive_pick today q = some q.1 :=
        inactive_pick_of ha hbip hd hin
      have hmem : q.1 ∈ g.nodes.filterMap (inactive_pick today) :=
        List.mem_filterMap.mpr ⟨q, hq, hpick⟩
      exact contains_false_iff.mp hc hmem
    · intro hnot
      refine ⟨hq, ?_⟩
      rw [contains_false_iff]
      intro hmem
      obtain ⟨p, hp, hpick⟩ := List.mem_filterMap.mp hmem
      obtain ⟨hx, a, ha, hbip, d, hd, hin⟩ := inactive_pick_some hpick
      have hpq : p = q :=
        List.inj_on_of_nodup_map hnd hp hq hx.symm
      exact hnot ⟨a, hpq ▸ ha, hbip, d, hd, hin⟩
  · intro q hq
    exact (mem_removeNodesFrom.mp hq).1

/-- A well-attributed graph for the C3 witness: one company, one resigned
officer (resigned day 5, before today = 10), one active officer. -/
def c3w_graph : CompanyGraph :=
  ⟨[("00000001", some ⟨"Org A", 0, "company", false,
      some "England & Wales Company",
      some (.companyInfo ⟨⟨"Org A", some "active", true⟩, none, none⟩)⟩),
    ("OFFOLD", some ⟨"Mr Old", 1, "officer", true, none,
      some (.officerRecord ⟨"Mr Old", some 5,
        "/officers/OFFOLD/appointments"⟩)⟩),
    ("OFFNEW", some ⟨"Ms New", 1, "officer", true, none,
      some (.officerRecord ⟨"Ms New", none,
        "/officers/OFFNEW/appointments"⟩)⟩)],
   [("00000001", "OFFOLD", none), ("00000001", "OFFNEW", none)]⟩

/-- C3 amended at the concrete graph: both hypotheses hold and the filter
removes exactly the resigned officer. -/
theorem claim_C3_amended_witness :
    (∀ p ∈ c3w_graph.nodes, node_data_ok p = true) ∧
    (c3w_graph.nodes.map Prod.fst).Nodup ∧
    (∃ g2, filter_active_board_members 10 c3w_graph = .ok g2 ∧
      (∀ q ∈ c3w_graph.nodes, (q ∈ g2.nodes ↔
        ¬ ∃ a, q.2 = some a ∧ a.bipartite = 1 ∧ ∃ d, a.data = some d ∧
          is_inactive d.dates COMPANIES_HOUSE_RESIGNATION_KEYWORD 10 =
            true)) ∧
      (∀ q ∈ g2.nodes, q ∈ c3w_graph.nodes)) :=
  ⟨by decide, by decide, claim_C3_amended 10 c3w_graph (by decide)
    (by decide)⟩
/-- Python `str.strip()` (only the space character occurs in the embedded
data). -/
def pyStrip (s : String) : String :=
  ⟨((s.data.dropWhile (fun c => c = ' ')).reverse.dropWhile
    (fun c => c = ' ')).reverse⟩

/-- One entry of a trustee's `RelatedCharities` listing. -/
structure RelatedCharity where
  charityNumber : Int
  charityName : String
  deriving Repr, DecidableEq

/-- A `GetCharityTrustees` entry. -/
structure Trustee where
  trusteeName : String
  trusteeNumber : Int
  relatedCharitiesCount : Nat
  relatedCharities : List RelatedCharity
  deriving Repr, DecidableEq

/-- A `GetCharityByRegisteredCharityNumber` record, with the fields the
network builder reads. -/
structure CharityData where
  charityName : String
  subsidiaryNumber : Nat
  deriving Repr, DecidableEq

/-- The outcome of one SOAP call: a zeep `Fault`, or a reply whose body may
still be empty (`not charity_data`). -/
inductive SoapResult (α : Type) where
  | fault
  | ok (data : Option α)
  deriving Repr, DecidableEq

/-- The Charity Commission transport. -/
structure CharityRegistry where
  getCharity : Int → SoapResult CharityData
  getTrustees : Int → Nat → Option (List Trustee)

/-- The payload stored under a charity-graph node's `data` attribute. -/
inductive CharityNodeData where
  | charity (d : CharityData)
  | trustee (t : Trustee)
  deriving Repr, DecidableEq

/-- Node attributes written by `get_charity_network`'s `add_node` calls. -/
structure CharityNodeAttrs where
  name : String
  bipartite : Nat
  kind : String
  data : CharityNodeData
  deriving Repr, DecidableEq

abbrev CharityGraph := NxGraph Int CharityNodeAttrs Unit

def CHARITY_NETWORK_KINDS : List String := ["charity", "trustee"]

/-- Python falsy test for the optional `test_name` argument (`None` and the
empty string are falsy). -/
def optStrFalsy : Option String → Bool
  | none => true
  | some s => s == ""

/-- The `for charity in trustee["RelatedCharities"]` loop
(charities.py:195-211): recurse into each related charity not yet in the
graph via `next` (the `branches - 1` call of `get_charity_network`), assert
bipartiteness of the subgraph and of the composition.  A `None` subgraph
(the recursive call returned nothing for that root) reaches
`is_bipartite(subgraph)`, which raises on `None`. -/
def charity_branches_loop
    (next : Int → Option String → Except PyErr (Option CharityGraph))
    (g : CharityGraph) : List RelatedCharity → Except PyErr CharityGraph
  | [] => .ok g
  | rc :: rest =>
    if g.hasNode rc.charityNumber then charity_branches_loop next g rest
    else
      match next rc.charityNumber (some rc.charityName) with
      | .error e => .error e
      | .ok none => .error .typeError
      | .ok (some sub) =>
        if sub.isBipartite then
          let g2 := g.compose sub
          if g2.isBipartite then charity_branches_loop next g2 rest
          else .error .assertionError
        else .error .assertionError

/-- The `for trustee in trustees` loop (charities.py:178-211): add the
trustee node (`bipartite=1`), the charity-to-trustee edge, and follow
related charities when `branches` and the related count are both
truthy. -/
def charity_trustees_loop
    (next : Int → Option String → Except PyErr (Option CharityGraph))
    (charity_number : Int) (branches : Nat) (g : CharityGraph) :
    List Trustee → Except PyErr CharityGraph
  | [] => .ok g
  | t :: rest =>
    let g := g.addNode t.trusteeNumber (some
      ⟨pyStrip t.trusteeName, 1, "trustee", .trustee t⟩)
    let g := g.addEdge charity_number t.trusteeNumber ()
    if branches ≠ 0 ∧ t.relatedCharitiesCount ≠ 0 then
      match charity_branches_loop next g t.relatedCharities with
      | .error e => .error e
      | .ok g2 => charity_trustees_loop next charity_number branches g2 rest
    else charity_trustees_loop next charity_number branches g rest

/-- The `for subsidiary in range(...)` loop (charities.py:166-177): fetch
the trustees of each subsidiary, skipping (`continue`) a falsy reply. -/
def charity_subsidiaries_loop (reg : CharityRegistry)
    (next : Int → Option String → Except PyErr (Option CharityGraph))
    (charity_number : Int) (branches : Nat) (g : CharityGraph) :
    List Nat → Except PyErr CharityGraph
  | [] => .ok g
  | s :: rest =>
    match reg.getTrustees charity_number s with
    | none => charity_subsidiaries_loop reg next charity_number branches g rest
    | some ts =>
      match charity_trustees_loop next charity_number branches g ts with
      | .error e => .error e
      | .ok g2 =>
        charity_subsidiaries_loop reg next charity_number branches g2 rest

/-- The body of `get_charity_network` (charities.py:115-212): a `Fault` on
the root fetch logs and returns `None`; an empty reply logs and returns
`None` only when `test_name` is falsy — with a truthy `test_name` control
falls through to `charity_data["CharityName"]`, which raises `TypeError` on
`None`; otherwise the root node is added (the `test_name` assertion is
wrapped in `try/except AssertionError`, so it only logs) and the
subsidiary/trustee/branch loops run. -/
def charity_network_aux (reg : CharityRegistry)
    (next : Int → Option String → Except PyErr (Option CharityGraph))
    (branches : Nat) (charity_number : Int) (test_name : Option String) :
    Except PyErr (Option CharityGraph) :=
  match reg.getCharity charity_number with
  | .fault => .ok none
  | .ok data =>
    match data with
    | none =>
      if optStrFalsy test_name then .ok none
      else .error .typeError
    | some charity_data =>
      let g := (NxGraph.empty : CharityGraph).addNode charity_number (some
        ⟨pyStrip charity_data.charityName, 0, "charity",
          .charity charity_data⟩)
      match charity_subsidiaries_loop reg next charity_number branches g
          (List.range (charity_data.subsidiaryNumber + 1)) with
      | .error e => .error e
      | .ok g2 => .ok (some g2)

/-- `get_charity_network`, recursing on `branches` (the recursive call
passes `branches - 1` and is only reachable when `branches` is truthy, so
the zero-branch continuation is never invoked). -/
def get_charity_network (reg : CharityRegistry) :
    Nat → Int → Option String → Except PyErr (Option CharityGraph)
  | 0 => charity_network_aux reg (fun _ _ => .error .outOfFuel) 0
  | b + 1 => charity_network_aux reg (get_charity_network reg b) (b + 1)

/-- Transport for the C6 scenario: charity `100` answers with an empty
body, charity `200` faults. -/
def c6_registry : CharityRegistry :=
  ⟨fun n => if n = 200 then .fault else .ok none, fun _ _ => none⟩

/-- C6 is refuted as stated: when the root fetch returns no data and a
truthy `test_name` was passed (the referral path every branch recursion
takes), `get_charity_network` raises `TypeError` at
`charity_data["CharityName"]` instead of returning `None` — the claim's
"for every value of the optional test_name argument" fails.  Without a
`test_name` the same failed fetch does return `None`. -/
theorem claim_C6_code_bug :
    get_charity_network c6_registry 0 100 (some "Tate Foundation") =
      .error .typeError ∧
    get_charity_network c6_registry 0 100 none = .ok none ∧
    get_charity_network c6_registry 0 200 (some "Tate Foundation") =
      .ok none := by
  refine ⟨by decide, by decide, by decide⟩

/-- The failure policy the C6 sentence intends, on the paths the code does
implement: a `Fault` on the root fetch always yields `None` (for
every `test_name`), and an empty reply yields `None` whenever `test_name`
is falsy; in both cases no exception propagates and no partial graph is
returned. -/
theorem charity_failure_policy (reg : CharityRegistry) (branches : Nat)
    (charity_number : Int) (test_name : Option String) :
    (reg.getCharity charity_number = .fault →
      get_charity_network reg branches charity_number test_name = .ok none) ∧
    (reg.getCharity charity_number = .ok none →
      optStrFalsy test_name = true →
      get_charity_network reg branches charity_number test_name =
        .ok none) := by
  constructor
  · intro hfault
    cases branches with
    | zero =>
      unfold get_charity_network charity_network_aux
      rw [hfault]
    | succ b =>
      unfold get_charity_network charity_network_aux
      rw [hfault]
  · intro hnone hfalsy
    cases branches with
    | zero =>
      unfold get_charity_network charity_network_aux
      rw [hnone]
      dsimp only
      rw [if_pos hfalsy]
    | succ b =>
      unfold get_charity_network charity_network_aux
      rw [hnone]
      dsimp only
      rw [if_pos hfalsy]

/-- C6 amended at the concrete transport: the faulting root `200` and the
empty-bodied root `100` (without a referral name) both come back as
`None`. -/
theorem charity_failure_policy_ok :
    c6_registry.getCharity 200 = .fault ∧
    c6_registry.getCharity 100 = .ok none ∧
    get_charity_network c6_registry 3 200 (some "Tate") = .ok none ∧
    get_charity_network c6_registry 3 100 none = .ok none :=
  ⟨by decide, by decide,
    (charity_failure_policy c6_registry 3 200 (some "Tate")).1 (by decide),
    (charity_failure_policy c6_registry 3 100 none).2 (by decide) (by decide)⟩
